import Mathlib

/-!
# cpacfstatsd: the command dispatcher and its response stream

A shallow embedding of `src/cpacfstats/cpacfstatsd.c` (`do_send_pai`,
`do_enable`, `do_disable`, `do_reset`, `do_print`, `recv_query`, `check_pidfile`,
`become_daemon`, `main`), followed by one of `udev_add_internal_from_entry` of
`src/zdev/src/udev.c` in the namespace `Zdev`.

* The perf backend (`perf_ctr_state`, `perf_enable_ctr`, ...) is not part of the
  file: it is a parameter, a deterministic state machine over an arbitrary
  state type `σ`.
* The constants of `cpacfstats.h` (`NUM_COUNTER`, `ALL_COUNTER`, `PAI_USER`, ...)
  are not part of the file either: they are the fields of `Consts`.
* Every dispatcher returns its return code, the final backend state and the
  ordered trace of what it did: each backend call with its result and each
  `send_answer` call with its three wire fields.
-/

namespace Cpacfstatsd

/-- Constants declared in `cpacfstats.h`, taken as parameters.  The counts are
natural numbers, the identities and the state values are C `int`s. -/
structure Consts where
  NUM_COUNTER : Nat
  ALL_COUNTER : Int
  PAI_USER : Int
  PAI_KERNEL : Int
  HOTPLUG_DETECTED : Int
  NUM_PAI_USER : Nat
  NUM_PAI_KERNEL : Nat
  DISABLED : Int
  ENABLED : Int
  UNSUPPORTED : Int
  deriving DecidableEq, Repr

/-- The perf backend the daemon calls into, as a state machine over `σ`.
A function with an out-parameter `uint64_t *value` returns the return code and
the content of `*value` when the call returns. -/
structure Backend (σ : Type) where
  perf_ctr_state : Int → σ → Int × σ
  perf_enable_ctr : Int → σ → Int × σ
  perf_disable_ctr : Int → σ → Int × σ
  perf_reset_ctr : Int → σ → Int × Nat × σ
  perf_read_ctr : Int → σ → Int × Nat × σ
  perf_read_pai_ctr : Int → Int → σ → Int × Nat × σ

/-- The `send_answer` call sites of the dispatchers, by role. -/
inductive Site where
  /-- `send_answer(s, i, state, value)` in a dispatcher loop (lines 149, 180, 208, 240). -/
  | primary
  /-- `send_answer(s, i, rc, 0)` in a dispatcher loop (lines 137, 145, 176, 204, 236). -/
  | failed
  /-- `send_answer(s, i, state, value)` in `do_send_pai` (line 117). -/
  | sub
  /-- `send_answer(s, i, rc, 0)` in `do_send_pai` (line 114). -/
  | sub_failed
  /-- `send_answer(s, HOTPLUG_DETECTED, rc, value)` after the loop (lines 158, 185, 217, 249). -/
  | hotplug
  deriving DecidableEq, Repr

/-- One observable action of a dispatcher: a backend call together with what
it returned, or an Answer handed to `send_answer`. -/
inductive Event where
  | perf_ctr_state (ctr : Int) (ret : Int)
  | perf_enable_ctr (ctr : Int) (rc : Int)
  | perf_disable_ctr (ctr : Int) (rc : Int)
  | perf_reset_ctr (ctr : Int) (rc : Int) (value : Nat)
  /-- `perf_read_ctr(i, &value)` inside a dispatcher loop. -/
  | perf_read_ctr (ctr : Int) (rc : Int) (value : Nat)
  | perf_read_pai_ctr (ctr : Int) (user : Int) (rc : Int) (value : Nat)
  /-- `perf_read_ctr(HOTPLUG_DETECTED, &value)` after a dispatcher loop. -/
  | hotplug_read (ctr : Int) (rc : Int) (value : Nat)
  | send_answer (site : Site) (ctr : Int) (state : Int) (value : Nat)
  deriving DecidableEq, Repr

/-- Local variables `rc` and `value` of a dispatcher, with the backend state. -/
structure Loc (σ : Type) where
  rc : Int
  value : Nat
  st : σ

/-- Outcome of one loop iteration: whether it left the loop by `break`,
the locals after it and the events it produced. -/
structure Step (σ : Type) where
  brk : Bool
  loc : Loc σ
  trace : List Event

/-- Outcome of a dispatcher: return code, final backend state, trace. -/
structure Res (σ : Type) where
  rc : Int
  st : σ
  trace : List Event

variable {σ : Type}

/-- The loop `for (i = i0; i < i0 + n; i++) body`, where the body may `break`. -/
def for_loop (body : Nat → Loc σ → Step σ) : Nat → Nat → Loc σ → Loc σ × List Event
  | 0, _, l => (l, [])
  | n + 1, i, l =>
    if (body i l).brk then ((body i l).loc, (body i l).trace)
    else
      ((for_loop body n (i + 1) (body i l).loc).1,
        (body i l).trace ++ (for_loop body n (i + 1) (body i l).loc).2)

/-- Body of the loop of `do_send_pai` (lines 112-117). -/
def do_send_pai_body (B : Backend σ) (user : Int) (state : Int) (i : Nat) (l : Loc σ) :
    Step σ :=
  let r := B.perf_read_pai_ctr i user l.st
  if r.1 ≠ 0 then
    ⟨true, ⟨r.1, r.2.1, r.2.2⟩,
      [.perf_read_pai_ctr i user r.1 r.2.1, .send_answer .sub_failed i r.1 0]⟩
  else
    ⟨false, ⟨r.1, r.2.1, r.2.2⟩,
      [.perf_read_pai_ctr i user r.1 r.2.1, .send_answer .sub i state r.2.1]⟩

/-- `do_send_pai(s, user)` (lines 96-120).  The local `value` is written by
`perf_read_pai_ctr` before it is used, so its initial content is not observed. -/
def do_send_pai (K : Consts) (B : Backend σ) (user : Int) (s : σ) : Res σ :=
  let ctr := if user ≠ 0 then K.PAI_USER else K.PAI_KERNEL
  let maxctr := if user ≠ 0 then K.NUM_PAI_USER else K.NUM_PAI_KERNEL
  let q := B.perf_ctr_state ctr s
  if q.1 ≠ K.ENABLED then
    ⟨0, q.2, [.perf_ctr_state ctr q.1]⟩
  else
    let r := for_loop (do_send_pai_body B user q.1) maxctr 0 ⟨0, 0, q.2⟩
    ⟨r.1.rc, r.1.st, .perf_ctr_state ctr q.1 :: r.2⟩

/-- The two statements after the regular Answer in `do_enable`, `do_reset` and
`do_print` (lines 150-153, 209-212, 241-244):
`if (i == PAI_USER) rc = do_send_pai(s, 1);` and
`if (i == PAI_KERNEL) rc = do_send_pai(s, 0);`.  There is no `break` here:
whatever `do_send_pai` returns, the loop goes on with the next `i`. -/
def pai_tail (K : Consts) (B : Backend σ) (i : Int) (l : Loc σ) : Res σ :=
  let p1 : Res σ := if i = K.PAI_USER then do_send_pai K B 1 l.st else ⟨l.rc, l.st, []⟩
  if i = K.PAI_KERNEL then
    ⟨(do_send_pai K B 0 p1.st).rc, (do_send_pai K B 0 p1.st).st,
      p1.trace ++ (do_send_pai K B 0 p1.st).trace⟩
  else p1

/-- The end of a loop body of `do_enable`, `do_reset` and `do_print`
(lines 149-153, 208-212, 240-244): `send_answer(s, i, state, value)`, then the
two `do_send_pai` statements.  `front` holds the events of the iteration so far. -/
def answer_and_pai (K : Consts) (B : Backend σ) (i : Int) (state : Int) (l : Loc σ)
    (front : List Event) : Step σ :=
  ⟨false, ⟨(pai_tail K B i l).rc, l.value, (pai_tail K B i l).st⟩,
    front ++ .send_answer .primary i state l.value :: (pai_tail K B i l).trace⟩

/-- The code after each dispatcher loop (lines 156-160, 183-187, 215-219,
247-251): `if (rc == 0) { rc = perf_read_ctr(HOTPLUG_DETECTED, &value);
send_answer(s, HOTPLUG_DETECTED, rc, value); } return rc;`. -/
def hotplug_tail (K : Consts) (B : Backend σ) (r : Loc σ × List Event) : Res σ :=
  if r.1.rc = 0 then
    let h := B.perf_read_ctr K.HOTPLUG_DETECTED r.1.st
    ⟨h.1, h.2.2,
      r.2 ++ [.hotplug_read K.HOTPLUG_DETECTED h.1 h.2.1,
        .send_answer .hotplug K.HOTPLUG_DETECTED h.1 h.2.1]⟩
  else ⟨r.1.rc, r.1.st, r.2⟩

/-- Lines 142-153 of `do_enable`: `if (state != UNSUPPORTED)` read the counter
(a failure sends `(i, rc, 0)` and breaks), then the end of the body. -/
def enable_read (K : Consts) (B : Backend σ) (i : Int) (state : Int) (l : Loc σ)
    (front : List Event) : Step σ :=
  if state ≠ K.UNSUPPORTED then
    let r := B.perf_read_ctr i l.st
    if r.1 ≠ 0 then
      ⟨true, ⟨r.1, r.2.1, r.2.2⟩,
        front ++ [.perf_read_ctr i r.1 r.2.1, .send_answer .failed i r.1 0]⟩
    else
      answer_and_pai K B i state ⟨r.1, r.2.1, r.2.2⟩ (front ++ [.perf_read_ctr i r.1 r.2.1])
  else
    answer_and_pai K B i state l front

/-- Loop body of `do_enable` (lines 130-154).  After a successful
`perf_enable_ctr` the local `state` is set to `ENABLED` (line 140). -/
def do_enable_body (K : Consts) (B : Backend σ) (ctr : Int) (i : Nat) (l : Loc σ) : Step σ :=
  if (i : Int) = K.ALL_COUNTER then ⟨false, l, []⟩
  else if (i : Int) = ctr ∨ ctr = K.ALL_COUNTER then
    let q := B.perf_ctr_state i l.st
    if q.1 = K.DISABLED then
      let e := B.perf_enable_ctr i q.2
      if e.1 ≠ 0 then
        ⟨true, ⟨e.1, l.value, e.2⟩,
          [.perf_ctr_state i q.1, .perf_enable_ctr i e.1, .send_answer .failed i e.1 0]⟩
      else
        enable_read K B i K.ENABLED ⟨e.1, l.value, e.2⟩
          [.perf_ctr_state i q.1, .perf_enable_ctr i e.1]
    else
      enable_read K B i q.1 ⟨l.rc, l.value, q.2⟩ [.perf_ctr_state i q.1]
  else ⟨false, l, []⟩

/-- `do_enable(s, ctr)` (lines 123-161); `value` and `rc` start at 0. -/
def do_enable (K : Consts) (B : Backend σ) (ctr : Int) (s : σ) : Res σ :=
  hotplug_tail K B (for_loop (do_enable_body K B ctr) K.NUM_COUNTER 0 ⟨0, 0, s⟩)

/-- Loop body of `do_disable` (lines 170-181). -/
def do_disable_body (K : Consts) (B : Backend σ) (ctr : Int) (i : Nat) (l : Loc σ) : Step σ :=
  if (i : Int) = K.ALL_COUNTER then ⟨false, l, []⟩
  else if (i : Int) = ctr ∨ ctr = K.ALL_COUNTER then
    let q := B.perf_ctr_state i l.st
    if q.1 = K.ENABLED then
      let d := B.perf_disable_ctr i q.2
      if d.1 ≠ 0 then
        ⟨true, ⟨d.1, l.value, d.2⟩,
          [.perf_ctr_state i q.1, .perf_disable_ctr i d.1, .send_answer .failed i d.1 0]⟩
      else
        let q2 := B.perf_ctr_state i d.2
        ⟨false, ⟨d.1, l.value, q2.2⟩,
          [.perf_ctr_state i q.1, .perf_disable_ctr i d.1, .perf_ctr_state i q2.1,
            .send_answer .primary i q2.1 0]⟩
    else
      let q2 := B.perf_ctr_state i q.2
      ⟨false, ⟨l.rc, l.value, q2.2⟩,
        [.perf_ctr_state i q.1, .perf_ctr_state i q2.1, .send_answer .primary i q2.1 0]⟩
  else ⟨false, l, []⟩

/-- `do_disable(s, ctr)` (lines 164-188).  The local `value` is only used
after `perf_read_ctr(HOTPLUG_DETECTED, &value)` has written it. -/
def do_disable (K : Consts) (B : Backend σ) (ctr : Int) (s : σ) : Res σ :=
  hotplug_tail K B (for_loop (do_disable_body K B ctr) K.NUM_COUNTER 0 ⟨0, 0, s⟩)

/-- Loop body of `do_reset` (lines 197-213). -/
def do_reset_body (K : Consts) (B : Backend σ) (ctr : Int) (i : Nat) (l : Loc σ) : Step σ :=
  if (i : Int) = K.ALL_COUNTER then ⟨false, l, []⟩
  else if (i : Int) = ctr ∨ ctr = K.ALL_COUNTER then
    let q := B.perf_ctr_state i l.st
    if q.1 = K.ENABLED then
      let r := B.perf_reset_ctr i q.2
      if r.1 ≠ 0 then
        ⟨true, ⟨r.1, r.2.1, r.2.2⟩,
          [.perf_ctr_state i q.1, .perf_reset_ctr i r.1 r.2.1, .send_answer .failed i r.1 0]⟩
      else
        answer_and_pai K B i q.1 ⟨r.1, r.2.1, r.2.2⟩
          [.perf_ctr_state i q.1, .perf_reset_ctr i r.1 r.2.1]
    else
      answer_and_pai K B i q.1 ⟨l.rc, l.value, q.2⟩ [.perf_ctr_state i q.1]
  else ⟨false, l, []⟩

/-- `do_reset(s, ctr)` (lines 191-220).  The local `value` is declared without
an initialiser (line 194) and is sent before anything wrote it when the first
counter in scope is not enabled: `uninit` is its indeterminate initial content. -/
def do_reset (K : Consts) (B : Backend σ) (uninit : Nat) (ctr : Int) (s : σ) : Res σ :=
  hotplug_tail K B (for_loop (do_reset_body K B ctr) K.NUM_COUNTER 0 ⟨0, uninit, s⟩)

/-- Loop body of `do_print` (lines 229-245). -/
def do_print_body (K : Consts) (B : Backend σ) (ctr : Int) (i : Nat) (l : Loc σ) : Step σ :=
  if (i : Int) = K.ALL_COUNTER then ⟨false, l, []⟩
  else if (i : Int) = ctr ∨ ctr = K.ALL_COUNTER then
    let q := B.perf_ctr_state i l.st
    if q.1 = K.ENABLED then
      let r := B.perf_read_ctr i q.2
      if r.1 ≠ 0 then
        ⟨true, ⟨r.1, r.2.1, r.2.2⟩,
          [.perf_ctr_state i q.1, .perf_read_ctr i r.1 r.2.1, .send_answer .failed i r.1 0]⟩
      else
        answer_and_pai K B i q.1 ⟨r.1, r.2.1, r.2.2⟩
          [.perf_ctr_state i q.1, .perf_read_ctr i r.1 r.2.1]
    else
      answer_and_pai K B i q.1 ⟨l.rc, l.value, q.2⟩ [.perf_ctr_state i q.1]
  else ⟨false, l, []⟩

/-- `do_print(s, ctr)` (lines 223-252); `value` and `rc` start at 0. -/
def do_print (K : Consts) (B : Backend σ) (ctr : Int) (s : σ) : Res σ :=
  hotplug_tail K B (for_loop (do_print_body K B ctr) K.NUM_COUNTER 0 ⟨0, 0, s⟩)

/-- The four commands of a Query. -/
inductive Cmd where
  | ENABLE
  | DISABLE
  | RESET
  | PRINT
  deriving DecidableEq, Repr

/-- The dispatcher `main` calls for a command (lines 519-526). -/
def dispatch (K : Consts) (B : Backend σ) (uninit : Nat) : Cmd → Int → σ → Res σ
  | .ENABLE, ctr, s => do_enable K B ctr s
  | .DISABLE, ctr, s => do_disable K B ctr s
  | .RESET, ctr, s => do_reset K B uninit ctr s
  | .PRINT, ctr, s => do_print K B ctr s

/-- Loop body a command runs for every `i`. -/
def body_of (K : Consts) (B : Backend σ) : Cmd → Int → Nat → Loc σ → Step σ
  | .ENABLE => do_enable_body K B
  | .DISABLE => do_disable_body K B
  | .RESET => do_reset_body K B
  | .PRINT => do_print_body K B

/-! ## The connection server and `main` -/

/-- Constants of `cpacfstats.h` used by `recv_query` and by the command test of
`main`, taken as parameters. -/
structure WireConsts where
  VERSION : Int
  QUERY : Int
  ENABLE : Int
  DISABLE : Int
  RESET : Int
  PRINT : Int
  deriving DecidableEq, Repr

/-- The fields of `struct msg` (declared in `cpacfstats.h`) that `recv_query` reads:
the header and the Query body. -/
structure msg where
  m_ver : Int
  m_type : Int
  m_ctr : Int
  m_cmd : Int
  deriving DecidableEq, Repr

/-- Why `recv_query` failed; each case is one of its failing returns, with the
value its `eprint` reports. -/
inductive QueryError where
  /-- `recv_msg` returned `rc ≠ 0`; `recv_query` returns `rc` (line 68). -/
  | recv_failed (rc : Int)
  /-- "Received msg with wrong version" (lines 54-57). -/
  | wrong_version (m_ver : Int)
  /-- "Received msg with wrong type" (lines 59-62). -/
  | wrong_type (m_type : Int)
  deriving DecidableEq, Repr

/-- The code `recv_query` returns on a failure. -/
def QueryError.rc : QueryError → Int
  | .recv_failed rc => rc
  | .wrong_version _ => -1
  | .wrong_type _ => -1

/-- `recv_query(s, &ctr, &cmd)` (lines 47-69).  `recv` is what `recv_msg` returned:
its code and the message it stored.  The result is `ok (ctr, cmd)` when
`recv_query` returns 0, with the values it stored through its two pointers,
and the failure otherwise (the pointers are then not written). -/
def recv_query (W : WireConsts) (recv : Int × msg) : Except QueryError (Int × Int) :=
  if recv.1 = 0 then
    if recv.2.m_ver ≠ W.VERSION then .error (.wrong_version recv.2.m_ver)
    else if recv.2.m_type ≠ W.QUERY then .error (.wrong_type recv.2.m_type)
    else .ok (recv.2.m_ctr, recv.2.m_cmd)
  else .error (.recv_failed recv.1)

/-- What `main` did with one accepted connection before `close(s)`: the
dispatcher calls (which one, with which scope), the backend state afterwards
and the events of these calls. -/
structure Served (σ : Type) where
  calls : List (Cmd × Int)
  st : σ
  trace : List Event

/-- Lines 513-534 of `main`: receive the Query and call the dispatcher of its
command; `uninit` is the content of the uninitialised local of `do_reset`. -/
def serve (W : WireConsts) (K : Consts) (B : Backend σ) (uninit : Nat) (recv : Int × msg)
    (s : σ) : Served σ :=
  match recv_query W recv with
  | .error _ => ⟨[], s, []⟩
  | .ok (ctr, cmd) =>
    if cmd = W.ENABLE then
      ⟨[(.ENABLE, ctr)], (do_enable K B ctr s).st, (do_enable K B ctr s).trace⟩
    else if cmd = W.DISABLE then
      ⟨[(.DISABLE, ctr)], (do_disable K B ctr s).st, (do_disable K B ctr s).trace⟩
    else if cmd = W.RESET then
      ⟨[(.RESET, ctr)], (do_reset K B uninit ctr s).st, (do_reset K B uninit ctr s).trace⟩
    else if cmd = W.PRINT then
      ⟨[(.PRINT, ctr)], (do_print K B ctr s).st, (do_print K B ctr s).trace⟩
    else ⟨[], s, []⟩

/-- The value of a command on the wire. -/
def WireConsts.code (W : WireConsts) : Cmd → Int
  | .ENABLE => W.ENABLE
  | .DISABLE => W.DISABLE
  | .RESET => W.RESET
  | .PRINT => W.PRINT

/-- The pid marker file `PID_FILE`: absent, present but not openable for
reading, or present with what `fscanf(f, "%lu", &pid)` makes of its content
(`none` when it does not scan as a number). -/
inductive Marker where
  | absent
  | unreadable
  | content (pid : Option Nat)
  deriving DecidableEq, Repr

/-- The two filesystem paths the daemon creates and removes: the pid marker
file and the path of the listening socket. -/
structure Fs where
  marker : Marker
  sock : Bool
  deriving DecidableEq, Repr

/-- `check_pidfile()` (lines 333-382).  `alive pid` says whether `kill(pid, 0)`
returns 0; `remove` is taken to succeed. -/
def check_pidfile (alive : Nat → Bool) (fs : Fs) : Int × Fs :=
  match fs.marker with
  | .absent => (0, fs)
  | .unreadable => (-1, fs)
  | .content none => (0, { fs with marker := .absent })
  | .content (some pid) =>
    if alive pid then (-1, fs) else (0, { fs with marker := .absent })

/-- `become_daemon()` (lines 255-325).  `setup_ok` says whether `fork`, `chdir`,
`setsid` and the opening of `/dev/null` all succeed; `fopen(PID_FILE, "w+x")`
fails when the file exists; `self` is `getpid()`. -/
def become_daemon (setup_ok : Bool) (self : Nat) (fs : Fs) : Int × Fs :=
  if setup_ok then
    match fs.marker with
    | .absent => (0, { fs with marker := .content (some self) })
    | _ => (-1, fs)
  else (-1, fs)

/-- `remove_pidfile()` (lines 384-387). -/
def remove_pidfile (fs : Fs) : Fs := { fs with marker := .absent }

/-- `remove_sock()` (lines 328-331). -/
def remove_sock (fs : Fs) : Fs := { fs with sock := false }

/-- What one call of `accept` in the server loop leads to. -/
inductive Accept where
  /-- A connection; `recv` is what `recv_msg` returns on it, `uninit` the content
  of the uninitialised local of `do_reset`. -/
  | conn (recv : Int × msg) (uninit : Nat)
  /-- `accept` fails with `EINTR`. -/
  | eintr
  /-- `accept` fails with another error. -/
  | error

/-- Everything outside the program that `main` depends on. -/
structure Env where
  /-- Option `-f` was given. -/
  foreground : Bool
  alive : Nat → Bool
  self : Nat
  setup_ok : Bool
  /-- Return code of `perf_init()`. -/
  perf_init : Int
  /-- Return value of `open_socket(SERVER)`, which creates the socket path when
  it succeeds. -/
  open_socket : Int
  /-- Return codes of the two `sigaction` calls. -/
  sigaction_int : Int
  sigaction_term : Int
  /-- The results of the `accept` calls made until `stopsig` is seen set. -/
  accepts : List Accept

/-- The actions of `main` that the claims speak about, in execution order. -/
inductive MainStep where
  | check_pidfile (rc : Int)
  | become_daemon (rc : Int)
  | perf_init (rc : Int)
  | open_socket (sfd : Int)
  | sigaction_SIGINT (rc : Int)
  | sigaction_SIGTERM (rc : Int)
  /-- One served connection: dispatcher calls and their events, then `close`. -/
  | connection (calls : List (Cmd × Int)) (trace : List Event)
  | accept_failed
  | remove_pidfile
  /-- The `atexit` handler `remove_sock`. -/
  | remove_sock
  /-- The `atexit` handler `perf_close`. -/
  | perf_close
  deriving DecidableEq, Repr

/-- Outcome of `main`: exit status, filesystem, backend state, actions. -/
structure MainResult (σ : Type) where
  status : Int
  fs : Fs
  st : σ
  steps : List MainStep

/-- Lines 456-466 of `main`: the pid-marker check, then `become_daemon` unless
running in foreground.  Returns 0 when `main` goes on to `perf_init`. -/
def startup (env : Env) (fs : Fs) : Int × Fs × List MainStep :=
  let c := check_pidfile env.alive fs
  if c.1 ≠ 0 then (c.1, c.2, [.check_pidfile c.1])
  else if env.foreground then (0, c.2, [.check_pidfile c.1])
  else
    let d := become_daemon env.setup_ok env.self c.2
    (d.1, d.2, [.check_pidfile c.1, .become_daemon d.1])

/-- The loop `while (!stopsig)` of `main` (lines 499-535).  Returns whether it
ended by a fatal `accept` failure, the backend state and the steps. -/
def server_loop (W : WireConsts) (K : Consts) (B : Backend σ) :
    List Accept → σ → Bool × σ × List MainStep
  | [], s => (false, s, [])
  | .eintr :: rest, s => server_loop W K B rest s
  | .error :: _, s => (true, s, [.accept_failed])
  | .conn recv uninit :: rest, s =>
    let r := serve W K B uninit recv s
    let t := server_loop W K B rest r.st
    (t.1, t.2.1, .connection r.calls r.trace :: t.2.2)

/-- `main` from line 456 on (the options are parsed into `env.foreground`).
`EXIT_FAILURE` is 1.  The handlers registered with `atexit` run when `main`
returns, last registered first. -/
def main (W : WireConsts) (K : Consts) (B : Backend σ) (env : Env) (s : σ) (fs : Fs) :
    MainResult σ :=
  let u := startup env fs
  if u.1 ≠ 0 then ⟨1, u.2.1, s, u.2.2⟩
  else if env.perf_init ≠ 0 then ⟨1, u.2.1, s, u.2.2 ++ [.perf_init env.perf_init]⟩
  else if env.open_socket < 0 then
    ⟨1, u.2.1, s,
      u.2.2 ++ [.perf_init env.perf_init, .open_socket env.open_socket, .perf_close]⟩
  else if env.sigaction_int ≠ 0 then
    ⟨1, remove_sock { u.2.1 with sock := true }, s,
      u.2.2 ++ [.perf_init env.perf_init, .open_socket env.open_socket,
        .sigaction_SIGINT env.sigaction_int, .remove_sock, .perf_close]⟩
  else if env.sigaction_term ≠ 0 then
    ⟨1, remove_sock { u.2.1 with sock := true }, s,
      u.2.2 ++ [.perf_init env.perf_init, .open_socket env.open_socket,
        .sigaction_SIGINT env.sigaction_int, .sigaction_SIGTERM env.sigaction_term,
        .remove_sock, .perf_close]⟩
  else
    let r := server_loop W K B env.accepts s
    if r.1 then
      ⟨1, remove_sock { u.2.1 with sock := true }, r.2.1,
        u.2.2 ++ [.perf_init env.perf_init, .open_socket env.open_socket,
          .sigaction_SIGINT env.sigaction_int, .sigaction_SIGTERM env.sigaction_term] ++
          r.2.2 ++ [.remove_sock, .perf_close]⟩
    else
      ⟨0, remove_sock (remove_pidfile { u.2.1 with sock := true }), r.2.1,
        u.2.2 ++ [.perf_init env.perf_init, .open_socket env.open_socket,
          .sigaction_SIGINT env.sigaction_int, .sigaction_SIGTERM env.sigaction_term] ++
          r.2.2 ++ [.remove_pidfile, .remove_sock, .perf_close]⟩

/-! ## Observations on traces -/

/-- The identities `0 ≤ i < NUM_COUNTER`, `i ≠ ALL_COUNTER`, in ascending order:
what the dispatcher loops enumerate. -/
def enumeration (K : Consts) : List Int :=
  ((List.range K.NUM_COUNTER).map Int.ofNat).filter (fun i => i ≠ K.ALL_COUNTER)

/-- The Answers of a trace as they go on the wire: `(m_ctr, m_state, m_value)`. -/
def answers : List Event → List (Int × Int × Nat)
  | [] => []
  | .send_answer _ c st v :: tr => (c, st, v) :: answers tr
  | _ :: tr => answers tr

/-- Whether an event is an Answer sent from a dispatcher loop for counter `i`
(the regular answer or the error answer). -/
def Event.isPrimary : Event → Bool
  | .send_answer .primary _ _ _ => true
  | .send_answer .failed _ _ _ => true
  | _ => false

/-- Whether an event is the trailing hotplug Answer. -/
def Event.isHotplug : Event → Bool
  | .send_answer .hotplug _ _ _ => true
  | _ => false

/-- Whether an event is a sub-counter read or a sub-counter Answer. -/
def Event.isSub : Event → Bool
  | .perf_read_pai_ctr _ _ _ _ => true
  | .send_answer .sub _ _ _ => true
  | .send_answer .sub_failed _ _ _ => true
  | _ => false

/-- The counter identities of the Answers sent from the dispatcher loop, in order. -/
def primaryCtrs : List Event → List Int
  | [] => []
  | .send_answer .primary c _ _ :: tr => c :: primaryCtrs tr
  | .send_answer .failed c _ _ :: tr => c :: primaryCtrs tr
  | _ :: tr => primaryCtrs tr

/-- No backend call returns a nonzero code. -/
def Backend.NoFail (B : Backend σ) : Prop :=
  (∀ i s, (B.perf_enable_ctr i s).1 = 0) ∧ (∀ i s, (B.perf_disable_ctr i s).1 = 0) ∧
  (∀ i s, (B.perf_reset_ctr i s).1 = 0) ∧ (∀ i s, (B.perf_read_ctr i s).1 = 0) ∧
  (∀ i u s, (B.perf_read_pai_ctr i u s).1 = 0)

/-- Whether an event can come from `do_send_pai`. -/
def Event.inPai : Event → Bool
  | .perf_ctr_state _ _ => true
  | ev => ev.isSub

/-- The composite identity `do_send_pai` works on. -/
def pai_ctr (K : Consts) (user : Int) : Int := if user ≠ 0 then K.PAI_USER else K.PAI_KERNEL

/-- The number of sub-counters `do_send_pai` iterates over. -/
def pai_max (K : Consts) (user : Int) : Nat :=
  if user ≠ 0 then K.NUM_PAI_USER else K.NUM_PAI_KERNEL

/-- Whether the loops process identity `i` for the scope `ctr`. -/
def inScope (K : Consts) (ctr : Int) (i : Int) : Prop :=
  i ≠ K.ALL_COUNTER ∧ (i = ctr ∨ ctr = K.ALL_COUNTER)

instance (K : Consts) (ctr i : Int) : Decidable (inScope K ctr i) := by
  unfold inScope; infer_instance

/-- Initial content of the local `value` of the dispatcher of a command. -/
def init_value (uninit : Nat) : Cmd → Nat
  | .RESET => uninit
  | _ => 0

/-- Whether an event is a call of a primary backend operation on counter `i`
(enable, disable, reset or the read of counter `i` inside the loop) that
returned the code `e`. -/
def Event.isOpOn (i e : Int) : Event → Prop
  | .perf_enable_ctr c rc => c = i ∧ rc = e
  | .perf_disable_ctr c rc => c = i ∧ rc = e
  | .perf_reset_ctr c rc _ => c = i ∧ rc = e
  | .perf_read_ctr c rc _ => c = i ∧ rc = e
  | _ => False

/-- Whether an event belongs to the code after the loop: the hotplug read or
the hotplug Answer. -/
def Event.isTrailer : Event → Bool
  | .hotplug_read _ _ _ => true
  | .send_answer .hotplug _ _ _ => true
  | _ => false

/-- The events of `m` successful sub-counter iterations of `do_send_pai`
starting at index `i`: for each index the read, returning `vs j`, and the
Answer `(j, state, vs j)`. -/
def subEvents (user state : Int) (vs : Nat → Nat) : Nat → Nat → List Event
  | _, 0 => []
  | i, m + 1 =>
    .perf_read_pai_ctr i user 0 (vs i) :: .send_answer .sub i state (vs i) ::
      subEvents user state vs (i + 1) m

/-- The trace does not start with a sub-counter read or a sub-counter Answer. -/
def noSubAtHead (l : List Event) : Prop := ∀ x ∈ l.head?, x.isSub = false

/-- Whether an event is the regular Answer `send_answer(s, i, state, value)` of a
dispatcher loop. -/
def Event.isRegular : Event → Bool
  | .send_answer .primary _ _ _ => true
  | _ => false

/-- Whether an event is a call that changes or resets a counter:
`perf_enable_ctr`, `perf_disable_ctr` or `perf_reset_ctr`. -/
def Event.isMutOp : Event → Bool
  | .perf_enable_ctr _ _ => true
  | .perf_disable_ctr _ _ => true
  | .perf_reset_ctr _ _ _ => true
  | _ => false

/-- What a state-changing call `op` of command `cmd` must be, given that the
state just read for counter `j` is `r`. -/
def opAllowed (K : Consts) (cmd : Cmd) (j r : Int) (op : Event) : Prop :=
  (cmd = .ENABLE ∧ r = K.DISABLED ∧ ∃ rc, op = .perf_enable_ctr j rc) ∨
  (cmd = .DISABLE ∧ r = K.ENABLED ∧ ∃ rc, op = .perf_disable_ctr j rc) ∨
  (cmd = .RESET ∧ r = K.ENABLED ∧ ∃ rc v, op = .perf_reset_ctr j rc v)

/-- Whether an event is a sub-counter event or a `perf_read_ctr` call of a
dispatcher loop. -/
def Event.isReadOrSub : Event → Bool
  | .perf_read_ctr _ _ _ => true
  | ev => ev.isSub

/-- The Answers sent at the regular call site of a dispatcher loop
(`send_answer(s, i, state, value)`), as they go on the wire. -/
def regularAnswers : List Event → List (Int × Int × Nat)
  | [] => []
  | .send_answer .primary c st v :: tr => (c, st, v) :: regularAnswers tr
  | _ :: tr => regularAnswers tr

/-- A reference backend, seen through the counter states `state_of` of its
state: every call succeeds, `perf_enable_ctr(i)` turns `DISABLED` into `ENABLED`,
`perf_disable_ctr(i)` turns `ENABLED` into `DISABLED`, and nothing else changes the
state of any counter. -/
structure IsReference (K : Consts) (B : Backend σ) (state_of : σ → Int → Int) : Prop where
  query : ∀ i s, (B.perf_ctr_state i s).1 = state_of s i ∧
    state_of (B.perf_ctr_state i s).2 = state_of s
  enable : ∀ i s, (B.perf_enable_ctr i s).1 = 0 ∧
    state_of (B.perf_enable_ctr i s).2 =
      fun j => if j = i ∧ state_of s i = K.DISABLED then K.ENABLED else state_of s j
  disable : ∀ i s, (B.perf_disable_ctr i s).1 = 0 ∧
    state_of (B.perf_disable_ctr i s).2 =
      fun j => if j = i ∧ state_of s i = K.ENABLED then K.DISABLED else state_of s j
  reset : ∀ i s, (B.perf_reset_ctr i s).1 = 0 ∧ state_of (B.perf_reset_ctr i s).2.2 = state_of s
  read : ∀ i s, (B.perf_read_ctr i s).1 = 0 ∧ state_of (B.perf_read_ctr i s).2.2 = state_of s
  read_pai : ∀ i u s, (B.perf_read_pai_ctr i u s).1 = 0 ∧
    state_of (B.perf_read_pai_ctr i u s).2.2 = state_of s

/-! ## Example constants and backends -/

/-- Example values for the constants: five ordinary counters 0..4, the
selector `ALL_COUNTER` = 5, the composites 6 and 7, `NUM_COUNTER` = 8 and the
pseudo identity `HOTPLUG_DETECTED` = 8; five user and three kernel sub-counters. -/
def exampleConsts : Consts where
  NUM_COUNTER := 8
  ALL_COUNTER := 5
  PAI_USER := 6
  PAI_KERNEL := 7
  HOTPLUG_DETECTED := 8
  NUM_PAI_USER := 5
  NUM_PAI_KERNEL := 3
  DISABLED := 0
  ENABLED := 1
  UNSUPPORTED := 2

/-- Example backend over `exampleConsts`.  Its state lists the state of the
counters 0, 1, 2, ... (a counter beyond the list is unsupported); enabling and
disabling succeed and update the list; reading counter `i` gives `100 + i`
(0 for the hotplug identity 8),
reading sub-counter `k` gives `10 * k + user`, and fails with `failCode` for
the sub-counter `(failUser, failAt)`. -/
def exampleBackend (failUser : Int) (failAt : Int) (failCode : Int) : Backend (List Int) where
  perf_ctr_state := fun i s => (s.getD i.toNat 2, s)
  perf_enable_ctr := fun i s => (0, s.set i.toNat 1)
  perf_disable_ctr := fun i s => (0, s.set i.toNat 0)
  perf_reset_ctr := fun i s => (0, 100 + i.toNat, s)
  perf_read_ctr := fun i s => (0, if i = 8 then 0 else 100 + i.toNat, s)
  perf_read_pai_ctr := fun k u s =>
    (if u = failUser ∧ k = failAt then failCode else 0, 10 * k.toNat + u.toNat, s)

/-- Example backend for a failing sub-counter read: its state is the state
of counter 6 (`PAI_USER`), which enabling sets to 1 and disabling to 0;
reading the counter gives 42, reading user sub-counter `k` gives `10 * (k + 1)`
and fails with `-5` at index 2. -/
def scenarioBackend : Backend Int where
  perf_ctr_state := fun _ s => (s, s)
  perf_enable_ctr := fun _ _ => (0, 1)
  perf_disable_ctr := fun _ _ => (0, 0)
  perf_reset_ctr := fun _ s => (0, 42, s)
  perf_read_ctr := fun _ s => (0, 42, s)
  perf_read_pai_ctr := fun k _ s => (if k = 2 then (-5 : Int) else 0, 10 * (k.toNat + 1), s)

/-- Example backend in which enabling counter 1 fails with `-22`: every
counter is reported disabled, every other call succeeds, reads give 7. -/
def failingEnableBackend : Backend Unit where
  perf_ctr_state := fun _ s => (0, s)
  perf_enable_ctr := fun i s => (if i = 1 then (-22 : Int) else 0, s)
  perf_disable_ctr := fun _ s => (0, s)
  perf_reset_ctr := fun _ s => (0, 7, s)
  perf_read_ctr := fun _ s => (0, 7, s)
  perf_read_pai_ctr := fun _ _ s => (0, 7, s)

/-- Example backend in which disabling counter 3 fails with `-16`.  Its state
lists the state of the counters 0, 1, 2, ... (a counter beyond the list is
unsupported); every other call succeeds, a successful disable updates the
list, reads give 0. -/
def failingDisableBackend : Backend (List Int) where
  perf_ctr_state := fun i s => (s.getD i.toNat 2, s)
  perf_enable_ctr := fun i s => (0, s.set i.toNat 1)
  perf_disable_ctr := fun i s => if i = 3 then (-16, s) else (0, s.set i.toNat 0)
  perf_reset_ctr := fun _ s => (0, 0, s)
  perf_read_ctr := fun _ s => (0, 0, s)
  perf_read_pai_ctr := fun _ _ s => (0, 0, s)

/-- Example backend whose counter state changes between two queries, as
another client or a hotplug event can cause: the state is what the next
`perf_ctr_state` reports, and after that query it is 1 (enabled).  Every
call succeeds; counters read 0, sub-counter `k` reads `10 * (k + 1)`. -/
def racingBackend : Backend Int where
  perf_ctr_state := fun _ s => (s, 1)
  perf_enable_ctr := fun _ s => (0, s)
  perf_disable_ctr := fun _ s => (0, s)
  perf_reset_ctr := fun _ s => (0, 0, s)
  perf_read_ctr := fun _ s => (0, 0, s)
  perf_read_pai_ctr := fun k _ s => (0, 10 * (k.toNat + 1), s)

/-- Example backend in which every counter is disabled and every call succeeds
with value 0. -/
def allDisabledBackend : Backend Unit where
  perf_ctr_state := fun _ s => (0, s)
  perf_enable_ctr := fun _ s => (0, s)
  perf_disable_ctr := fun _ s => (0, s)
  perf_reset_ctr := fun _ s => (0, 0, s)
  perf_read_ctr := fun _ s => (0, 0, s)
  perf_read_pai_ctr := fun _ _ s => (0, 0, s)

/-- The counter states `s` in which counter `i` went from state `a` to state `b`,
when it was in state `a`. -/
def switch_state (a b : Int) (i : Int) (s : Int → Int) : Int → Int :=
  fun j => if j = i ∧ s i = a then b else s j

/-- Example of a reference backend: its state gives the state of every
counter, enabling switches `DISABLED` to `ENABLED`, disabling switches
`ENABLED` to `DISABLED`, every call succeeds and every value read is 0. -/
def referenceBackend (K : Consts) : Backend (Int → Int) where
  perf_ctr_state := fun i s => (s i, s)
  perf_enable_ctr := fun i s => (0, switch_state K.DISABLED K.ENABLED i s)
  perf_disable_ctr := fun i s => (0, switch_state K.ENABLED K.DISABLED i s)
  perf_reset_ctr := fun _ s => (0, 0, s)
  perf_read_ctr := fun _ s => (0, 0, s)
  perf_read_pai_ctr := fun _ _ s => (0, 0, s)

/-- Example wire constants: protocol version 1, `QUERY` = 1, commands 0 to 3. -/
def exampleWire : WireConsts where
  VERSION := 1
  QUERY := 1
  ENABLE := 0
  DISABLE := 1
  RESET := 2
  PRINT := 3

/-- Example environment: detached mode, own pid 4242, only process 77 alive,
everything succeeds and the loop ends at once. -/
def exampleEnv : Env where
  foreground := false
  alive := fun pid => pid == 77
  self := 4242
  setup_ok := true
  perf_init := 0
  open_socket := 3
  sigaction_int := 0
  sigaction_term := 0
  accepts := []

end Cpacfstatsd

namespace Zdev

/-! ## zdev: `udev_add_internal_from_entry`

A shallow embedding of `udev_add_internal_from_entry` of `src/zdev/src/udev.c`.
The buffer `copy` is a list of characters that holds the NUL terminators; a
`char *` into it is an offset.  `attrib_find` and `setting_list_apply_actual`
are not part of the file and are parameters.
-/

/-- The NUL character that ends a C string. -/
def NUL : Char := Char.ofNat 0

/-- The C string that starts at offset `p` of the buffer `buf`: the characters
from `p` up to the first NUL. -/
def c_str (buf : List Char) (p : Nat) : List Char :=
  (buf.drop p).takeWhile (fun x => x != NUL)

/-- `misc_strdup(s)`, defined in `misc.c` and taken to be `strdup` with an
allocation that succeeds: a new buffer holding the C string `s` and its NUL. -/
def misc_strdup (s : List Char) : List Char := c_str s 0 ++ [NUL]

/-- `strchr(buf + p, c)` for `c` other than NUL: the offset in `buf` of the first
`c` in the C string at `p`, `none` for a null pointer. -/
def strchr (buf : List Char) (p : Nat) (c : Char) : Option Nat :=
  if c ∈ c_str buf p then some (p + (c_str buf p).indexOf c) else none

/-- `strrchr(buf + p, c)` for `c` other than NUL: the offset in `buf` of the last
`c` in the C string at `p`, `none` for a null pointer. -/
def strrchr (buf : List Char) (p : Nat) (c : Char) : Option Nat :=
  if c ∈ c_str buf p then
    some (p + ((c_str buf p).length - 1 - (c_str buf p).reverse.indexOf c))
  else none

/-- The fields of `struct util_udev_entry_node` that the function reads. -/
structure util_udev_entry_node where
  key : List Char
  value : List Char

/-- `udev_add_internal_from_entry(list, entry, attribs)` (udev.c, lines 111-138).
`attrib_find` and `setting_list_apply_actual` are defined outside `udev.c` and
are parameters; they receive the C string at `name`. -/
def udev_add_internal_from_entry {L A As : Type} (attrib_find : As → List Char → A)
    (setting_list_apply_actual : L → A → List Char → List Char → L)
    (list : L) (entry : util_udev_entry_node) (attribs : As) : L :=
  let copy := misc_strdup entry.key
  match strchr copy 0 '{', strrchr copy 0 '}' with
  | some name, some end_ =>
    let copy := copy.set end_ NUL
    let name := name + 1
    let copy :=
      match strchr copy name '_' with
      | some u => copy.set u ':'
      | none => copy
    let a := attrib_find attribs (c_str copy name)
    setting_list_apply_actual list a (c_str copy name) entry.value
  | _, _ => list


/-- The name the claim gives for a key: the text strictly between the first
opening brace and the last closing brace, with the prefix "zdev_" rewritten to
"zdev:" and no other character changed. -/
def spec_name (key : List Char) : List Char :=
  let mid := (key.take (key.length - 1 - key.reverse.indexOf '}')).drop (key.indexOf '{' + 1)
  if mid.take 5 = "zdev_".toList then "zdev:".toList ++ mid.drop 5 else mid

/-- Example of `attrib_find`: the attribute table is a list of names, the
attribute found is the name itself, a null pointer is `none`. -/
def example_attrib_find (attribs : List (List Char)) (name : List Char) : Option (List Char) :=
  attribs.find? (fun a => a == name)

/-- Example of `setting_list_apply_actual`: the setting list records every
applied setting as (attribute, name, value). -/
def example_apply_actual (list : List (Option (List Char) × List Char × List Char))
    (a : Option (List Char)) (name value : List Char) :
    List (Option (List Char) × List Char × List Char) :=
  list ++ [(a, name, value)]

end Zdev

namespace Cpacfstatsd

variable {σ : Type}

/-! ## Theorems -/

theorem for_loop_skip (body : Nat → Loc σ → Step σ) (n : Nat) :
    ∀ (i : Nat) (l : Loc σ),
      (∀ j l', i ≤ j → j < i + n → body j l' = ⟨false, l', []⟩) →
      for_loop body n i l = (l, []) := by
  induction n with
  | zero => intro i l _; rfl
  | succ n ih =>
    intro i l h
    have h0 := h i l (le_refl i) (by omega)
    have h1 := ih (i + 1) l (fun j l' hj hj' => h j l' (by omega) (by omega))
    simp [for_loop, h0, h1]

theorem for_loop_single (body : Nat → Loc σ → Step σ) (c : Nat) (n : Nat) :
    ∀ (i : Nat) (l : Loc σ), i ≤ c → c < i + n →
      (∀ j l', j ≠ c → body j l' = ⟨false, l', []⟩) →
      for_loop body n i l = ((body c l).loc, (body c l).trace) := by
  induction n with
  | zero => intro i l h1 h2; omega
  | succ n ih =>
    intro i l h1 h2 h
    by_cases hic : i = c
    · subst hic
      by_cases hb : (body i l).brk = true
      · simp [for_loop, hb]
      · have := for_loop_skip body n (i + 1) (body i l).loc
          (fun j l' hj _ => h j l' (by omega))
        simp [for_loop, hb, this]
    · have h0 := h i l hic
      have := ih (i + 1) l (by omega) (by omega) h
      simp [for_loop, h0, this]

theorem for_loop_forall (body : Nat → Loc σ → Step σ) (P : Event → Prop)
    (h : ∀ j l, ∀ ev ∈ (body j l).trace, P ev) (n : Nat) :
    ∀ (i : Nat) (l : Loc σ), ∀ ev ∈ (for_loop body n i l).2, P ev := by
  induction n with
  | zero => intro i l ev hev; simp [for_loop] at hev
  | succ n ih =>
    intro i l ev hev
    by_cases hb : (body i l).brk = true
    · simp [for_loop, hb] at hev
      exact h i l ev hev
    · simp [for_loop, hb] at hev
      rcases hev with hev | hev
      · exact h i l ev hev
      · exact ih _ _ ev hev

theorem primaryCtrs_append (a b : List Event) :
    primaryCtrs (a ++ b) = primaryCtrs a ++ primaryCtrs b := by
  induction a with
  | nil => rfl
  | cons ev a ih =>
    cases ev <;> simp [primaryCtrs, ih]
    rename_i site _ _ _
    cases site <;> simp [primaryCtrs, ih]

theorem primaryCtrs_eq_nil (a : List Event) (h : ∀ ev ∈ a, ev.isPrimary = false) :
    primaryCtrs a = [] := by
  induction a with
  | nil => rfl
  | cons ev a ih =>
    have h1 := h ev (by simp)
    have h2 := ih (fun e he => h e (by simp [he]))
    cases ev <;> simp_all [primaryCtrs, Event.isPrimary]
    rename_i site _ _ _
    cases site <;> simp_all [primaryCtrs, Event.isPrimary]

theorem for_loop_inv (body : Nat → Loc σ → Step σ) (I : Loc σ → Prop)
    (h : ∀ j l, I l → I (body j l).loc) (n : Nat) :
    ∀ (i : Nat) (l : Loc σ), I l → I (for_loop body n i l).1 := by
  induction n with
  | zero => intro i l hl; simpa [for_loop] using hl
  | succ n ih =>
    intro i l hl
    by_cases hb : (body i l).brk = true
    · simpa [for_loop, hb] using h i l hl
    · simpa [for_loop, hb] using ih _ _ (h i l hl)

theorem pai_loop_isSub (B : Backend σ) (user st : Int) (n i : Nat) (l : Loc σ) :
    ∀ ev ∈ (for_loop (do_send_pai_body B user st) n i l).2, ev.isSub = true := by
  apply for_loop_forall
  intro j l ev hev
  simp only [do_send_pai_body] at hev
  split_ifs at hev <;> simp at hev <;> rcases hev with rfl | rfl <;> rfl

theorem do_send_pai_eq (K : Consts) (B : Backend σ) (user : Int) (s : σ) :
    do_send_pai K B user s =
      if (B.perf_ctr_state (pai_ctr K user) s).1 ≠ K.ENABLED then
        ⟨0, (B.perf_ctr_state (pai_ctr K user) s).2,
          [.perf_ctr_state (pai_ctr K user) (B.perf_ctr_state (pai_ctr K user) s).1]⟩
      else
        ⟨(for_loop (do_send_pai_body B user (B.perf_ctr_state (pai_ctr K user) s).1)
            (pai_max K user) 0 ⟨0, 0, (B.perf_ctr_state (pai_ctr K user) s).2⟩).1.rc,
         (for_loop (do_send_pai_body B user (B.perf_ctr_state (pai_ctr K user) s).1)
            (pai_max K user) 0 ⟨0, 0, (B.perf_ctr_state (pai_ctr K user) s).2⟩).1.st,
         .perf_ctr_state (pai_ctr K user) (B.perf_ctr_state (pai_ctr K user) s).1 ::
          (for_loop (do_send_pai_body B user (B.perf_ctr_state (pai_ctr K user) s).1)
            (pai_max K user) 0 ⟨0, 0, (B.perf_ctr_state (pai_ctr K user) s).2⟩).2⟩ := rfl

theorem do_send_pai_inPai (K : Consts) (B : Backend σ) (user : Int) (s : σ) :
    ∀ ev ∈ (do_send_pai K B user s).trace, ev.inPai = true := by
  intro ev hev
  rw [do_send_pai_eq] at hev
  split_ifs at hev
  · simp at hev; subst hev; rfl
  · simp at hev
    rcases hev with rfl | hev
    · rfl
    · have := pai_loop_isSub B _ _ _ _ _ ev hev
      cases ev <;> simp_all [Event.inPai, Event.isSub]

theorem do_send_pai_rc (K : Consts) (B : Backend σ) (hB : B.NoFail) (user : Int) (s : σ) :
    (do_send_pai K B user s).rc = 0 := by
  rw [do_send_pai_eq]
  split_ifs
  · rfl
  · apply for_loop_inv _ (fun l => l.rc = 0)
    · intro j l _
      have := hB.2.2.2.2 j user l.st
      simp [do_send_pai_body, this]
    · rfl

theorem answer_and_pai_eq (K : Consts) (B : Backend σ) (i st : Int) (l : Loc σ)
    (front : List Event) :
    answer_and_pai K B i st l front =
      ⟨false, ⟨(pai_tail K B i l).rc, l.value, (pai_tail K B i l).st⟩,
        front ++ .send_answer .primary i st l.value :: (pai_tail K B i l).trace⟩ := rfl

theorem pai_tail_inPai (K : Consts) (B : Backend σ) (i : Int) (l : Loc σ) :
    ∀ ev ∈ (pai_tail K B i l).trace, ev.inPai = true := by
  intro ev hev
  unfold pai_tail at hev
  split_ifs at hev <;> simp at hev
  · rcases hev with hev | hev <;> exact do_send_pai_inPai _ _ _ _ ev hev
  · exact do_send_pai_inPai _ _ _ _ ev hev
  · exact do_send_pai_inPai _ _ _ _ ev hev

theorem pai_tail_rc (K : Consts) (B : Backend σ) (hB : B.NoFail) (i : Int) (l : Loc σ)
    (hl : l.rc = 0) : (pai_tail K B i l).rc = 0 := by
  unfold pai_tail
  split_ifs <;> simp [do_send_pai_rc K B hB, hl]

theorem pai_tail_not_composite (K : Consts) (B : Backend σ) (i : Int) (l : Loc σ)
    (h1 : i ≠ K.PAI_USER) (h2 : i ≠ K.PAI_KERNEL) : pai_tail K B i l = ⟨l.rc, l.st, []⟩ := by
  simp [pai_tail, h1, h2]

theorem primaryCtrs_pai_tail (K : Consts) (B : Backend σ) (i : Int) (l : Loc σ) :
    primaryCtrs (pai_tail K B i l).trace = [] := by
  apply primaryCtrs_eq_nil
  intro ev hev
  have := pai_tail_inPai K B i l ev hev
  cases ev <;> simp_all [Event.inPai, Event.isSub, Event.isPrimary]
  rename_i site _ _ _
  cases site <;> simp_all [Event.inPai, Event.isSub, Event.isPrimary]

theorem hotplug_pai_tail (K : Consts) (B : Backend σ) (i : Int) (l : Loc σ) :
    ∀ ev ∈ (pai_tail K B i l).trace, ev.isHotplug = false := by
  intro ev hev
  have := pai_tail_inPai K B i l ev hev
  cases ev <;> simp_all [Event.inPai, Event.isSub, Event.isHotplug]
  rename_i site _ _ _
  cases site <;> simp_all [Event.inPai, Event.isSub, Event.isHotplug]

theorem do_print_body_cases (K : Consts) (B : Backend σ) (ctr : Int) (j : Nat) (l : Loc σ) :
    (¬ inScope K ctr j ∧ do_print_body K B ctr j l = ⟨false, l, []⟩) ∨
    (inScope K ctr j ∧ ∃ st s1, B.perf_ctr_state j l.st = (st, s1) ∧
      ((st = K.ENABLED ∧ ∃ e v s2, B.perf_read_ctr j s1 = (e, v, s2) ∧
          ((e ≠ 0 ∧ do_print_body K B ctr j l = ⟨true, ⟨e, v, s2⟩,
              [.perf_ctr_state j st, .perf_read_ctr j e v, .send_answer .failed j e 0]⟩) ∨
           (e = 0 ∧ do_print_body K B ctr j l = answer_and_pai K B j st ⟨e, v, s2⟩
              [.perf_ctr_state j st, .perf_read_ctr j e v]))) ∨
       (st ≠ K.ENABLED ∧ do_print_body K B ctr j l =
          answer_and_pai K B j st ⟨l.rc, l.value, s1⟩ [.perf_ctr_state j st]))) := by
  by_cases hs : inScope K ctr j
  · right
    refine ⟨hs, (B.perf_ctr_state j l.st).1, (B.perf_ctr_state j l.st).2, rfl, ?_⟩
    obtain ⟨hs1, hs2⟩ := hs
    by_cases hst : (B.perf_ctr_state j l.st).1 = K.ENABLED
    · left
      refine ⟨hst, (B.perf_read_ctr j (B.perf_ctr_state j l.st).2).1,
        (B.perf_read_ctr j (B.perf_ctr_state j l.st).2).2.1,
        (B.perf_read_ctr j (B.perf_ctr_state j l.st).2).2.2, rfl, ?_⟩
      by_cases he : (B.perf_read_ctr j (B.perf_ctr_state j l.st).2).1 = 0
      · right
        refine ⟨he, ?_⟩
        simp only [do_print_body, if_neg hs1, if_pos hs2, if_pos hst]
        simp [he]
      · left
        refine ⟨he, ?_⟩
        simp only [do_print_body, if_neg hs1, if_pos hs2, if_pos hst]
        simp [he]
    · right
      refine ⟨hst, ?_⟩
      simp only [do_print_body, if_neg hs1, if_pos hs2, if_neg hst]
  · left
    refine ⟨hs, ?_⟩
    unfold inScope at hs
    simp only [do_print_body]
    split_ifs <;> first | rfl | (exfalso; apply hs; constructor <;> assumption)

theorem do_reset_body_cases (K : Consts) (B : Backend σ) (ctr : Int) (j : Nat) (l : Loc σ) :
    (¬ inScope K ctr j ∧ do_reset_body K B ctr j l = ⟨false, l, []⟩) ∨
    (inScope K ctr j ∧ ∃ st s1, B.perf_ctr_state j l.st = (st, s1) ∧
      ((st = K.ENABLED ∧ ∃ e v s2, B.perf_reset_ctr j s1 = (e, v, s2) ∧
          ((e ≠ 0 ∧ do_reset_body K B ctr j l = ⟨true, ⟨e, v, s2⟩,
              [.perf_ctr_state j st, .perf_reset_ctr j e v, .send_answer .failed j e 0]⟩) ∨
           (e = 0 ∧ do_reset_body K B ctr j l = answer_and_pai K B j st ⟨e, v, s2⟩
              [.perf_ctr_state j st, .perf_reset_ctr j e v]))) ∨
       (st ≠ K.ENABLED ∧ do_reset_body K B ctr j l =
          answer_and_pai K B j st ⟨l.rc, l.value, s1⟩ [.perf_ctr_state j st]))) := by
  by_cases hs : inScope K ctr j
  · right
    refine ⟨hs, (B.perf_ctr_state j l.st).1, (B.perf_ctr_state j l.st).2, rfl, ?_⟩
    obtain ⟨hs1, hs2⟩ := hs
    by_cases hst : (B.perf_ctr_state j l.st).1 = K.ENABLED
    · left
      refine ⟨hst, (B.perf_reset_ctr j (B.perf_ctr_state j l.st).2).1,
        (B.perf_reset_ctr j (B.perf_ctr_state j l.st).2).2.1,
        (B.perf_reset_ctr j (B.perf_ctr_state j l.st).2).2.2, rfl, ?_⟩
      by_cases he : (B.perf_reset_ctr j (B.perf_ctr_state j l.st).2).1 = 0
      · right
        refine ⟨he, ?_⟩
        simp only [do_reset_body, if_neg hs1, if_pos hs2, if_pos hst]
        simp [he]
      · left
        refine ⟨he, ?_⟩
        simp only [do_reset_body, if_neg hs1, if_pos hs2, if_pos hst]
        simp [he]
    · right
      refine ⟨hst, ?_⟩
      simp only [do_reset_body, if_neg hs1, if_pos hs2, if_neg hst]
  · left
    refine ⟨hs, ?_⟩
    unfold inScope at hs
    simp only [do_reset_body]
    split_ifs <;> first | rfl | (exfalso; apply hs; constructor <;> assumption)

theorem do_disable_body_cases (K : Consts) (B : Backend σ) (ctr : Int) (j : Nat) (l : Loc σ) :
    (¬ inScope K ctr j ∧ do_disable_body K B ctr j l = ⟨false, l, []⟩) ∨
    (inScope K ctr j ∧ ∃ st s1, B.perf_ctr_state j l.st = (st, s1) ∧
      ((st = K.ENABLED ∧ ∃ e s2, B.perf_disable_ctr j s1 = (e, s2) ∧
          ((e ≠ 0 ∧ do_disable_body K B ctr j l = ⟨true, ⟨e, l.value, s2⟩,
              [.perf_ctr_state j st, .perf_disable_ctr j e, .send_answer .failed j e 0]⟩) ∨
           (e = 0 ∧ ∃ st2 s3, B.perf_ctr_state j s2 = (st2, s3) ∧
              do_disable_body K B ctr j l = ⟨false, ⟨e, l.value, s3⟩,
                [.perf_ctr_state j st, .perf_disable_ctr j e, .perf_ctr_state j st2,
                  .send_answer .primary j st2 0]⟩))) ∨
       (st ≠ K.ENABLED ∧ ∃ st2 s3, B.perf_ctr_state j s1 = (st2, s3) ∧
          do_disable_body K B ctr j l = ⟨false, ⟨l.rc, l.value, s3⟩,
            [.perf_ctr_state j st, .perf_ctr_state j st2, .send_answer .primary j st2 0]⟩))) := by
  by_cases hs : inScope K ctr j
  · right
    refine ⟨hs, (B.perf_ctr_state j l.st).1, (B.perf_ctr_state j l.st).2, rfl, ?_⟩
    obtain ⟨hs1, hs2⟩ := hs
    by_cases hst : (B.perf_ctr_state j l.st).1 = K.ENABLED
    · left
      refine ⟨hst, (B.perf_disable_ctr j (B.perf_ctr_state j l.st).2).1,
        (B.perf_disable_ctr j (B.perf_ctr_state j l.st).2).2, rfl, ?_⟩
      by_cases he : (B.perf_disable_ctr j (B.perf_ctr_state j l.st).2).1 = 0
      · right
        refine ⟨he, _, _, rfl, ?_⟩
        simp only [do_disable_body, if_neg hs1, if_pos hs2, if_pos hst]
        simp [he]
      · left
        refine ⟨he, ?_⟩
        simp only [do_disable_body, if_neg hs1, if_pos hs2, if_pos hst]
        simp [he]
    · right
      refine ⟨hst, _, _, rfl, ?_⟩
      simp only [do_disable_body, if_neg hs1, if_pos hs2, if_neg hst]
  · left
    refine ⟨hs, ?_⟩
    unfold inScope at hs
    simp only [do_disable_body]
    split_ifs <;> first | rfl | (exfalso; apply hs; constructor <;> assumption)

theorem enable_read_cases (K : Consts) (B : Backend σ) (i st : Int) (l : Loc σ)
    (front : List Event) :
    (st ≠ K.UNSUPPORTED ∧ ∃ e v s2, B.perf_read_ctr i l.st = (e, v, s2) ∧
        ((e ≠ 0 ∧ enable_read K B i st l front = ⟨true, ⟨e, v, s2⟩,
            front ++ [.perf_read_ctr i e v, .send_answer .failed i e 0]⟩) ∨
         (e = 0 ∧ enable_read K B i st l front =
            answer_and_pai K B i st ⟨e, v, s2⟩ (front ++ [.perf_read_ctr i e v])))) ∨
    (st = K.UNSUPPORTED ∧ enable_read K B i st l front = answer_and_pai K B i st l front) := by
  by_cases hst : st = K.UNSUPPORTED
  · right
    refine ⟨hst, ?_⟩
    simp only [enable_read]
    simp [hst]
  · left
    refine ⟨hst, (B.perf_read_ctr i l.st).1, (B.perf_read_ctr i l.st).2.1,
      (B.perf_read_ctr i l.st).2.2, rfl, ?_⟩
    by_cases he : (B.perf_read_ctr i l.st).1 = 0
    · right
      refine ⟨he, ?_⟩
      simp only [enable_read]
      simp [hst, he]
    · left
      refine ⟨he, ?_⟩
      simp only [enable_read]
      simp [hst, he]

theorem do_enable_body_cases (K : Consts) (B : Backend σ) (ctr : Int) (j : Nat) (l : Loc σ) :
    (¬ inScope K ctr j ∧ do_enable_body K B ctr j l = ⟨false, l, []⟩) ∨
    (inScope K ctr j ∧ ∃ st s1, B.perf_ctr_state j l.st = (st, s1) ∧
      ((st = K.DISABLED ∧ ∃ e s2, B.perf_enable_ctr j s1 = (e, s2) ∧
          ((e ≠ 0 ∧ do_enable_body K B ctr j l = ⟨true, ⟨e, l.value, s2⟩,
              [.perf_ctr_state j st, .perf_enable_ctr j e, .send_answer .failed j e 0]⟩) ∨
           (e = 0 ∧ do_enable_body K B ctr j l =
              enable_read K B j K.ENABLED ⟨e, l.value, s2⟩
                [.perf_ctr_state j st, .perf_enable_ctr j e]))) ∨
       (st ≠ K.DISABLED ∧ do_enable_body K B ctr j l =
          enable_read K B j st ⟨l.rc, l.value, s1⟩ [.perf_ctr_state j st]))) := by
  by_cases hs : inScope K ctr j
  · right
    refine ⟨hs, (B.perf_ctr_state j l.st).1, (B.perf_ctr_state j l.st).2, rfl, ?_⟩
    obtain ⟨hs1, hs2⟩ := hs
    by_cases hst : (B.perf_ctr_state j l.st).1 = K.DISABLED
    · left
      refine ⟨hst, (B.perf_enable_ctr j (B.perf_ctr_state j l.st).2).1,
        (B.perf_enable_ctr j (B.perf_ctr_state j l.st).2).2, rfl, ?_⟩
      by_cases he : (B.perf_enable_ctr j (B.perf_ctr_state j l.st).2).1 = 0
      · right
        refine ⟨he, ?_⟩
        simp only [do_enable_body, if_neg hs1, if_pos hs2, if_pos hst]
        simp [he]
      · left
        refine ⟨he, ?_⟩
        simp only [do_enable_body, if_neg hs1, if_pos hs2, if_pos hst]
        simp [he]
    · right
      refine ⟨hst, ?_⟩
      simp only [do_enable_body, if_neg hs1, if_pos hs2, if_neg hst]
  · left
    refine ⟨hs, ?_⟩
    unfold inScope at hs
    simp only [do_enable_body]
    split_ifs <;> first | rfl | (exfalso; apply hs; constructor <;> assumption)

theorem answer_and_pai_nofail (K : Consts) (B : Backend σ) (hB : B.NoFail) (i st : Int)
    (l : Loc σ) (front : List Event) (hl : l.rc = 0)
    (hf : ∀ ev ∈ front, ev.isHotplug = false) (hp : primaryCtrs front = []) :
    (answer_and_pai K B i st l front).brk = false ∧
    (answer_and_pai K B i st l front).loc.rc = 0 ∧
    primaryCtrs (answer_and_pai K B i st l front).trace = [i] ∧
    ∀ ev ∈ (answer_and_pai K B i st l front).trace, ev.isHotplug = false := by
  rw [answer_and_pai_eq]
  refine ⟨rfl, pai_tail_rc K B hB i l hl, ?_, ?_⟩
  · simp [primaryCtrs_append, primaryCtrs, primaryCtrs_pai_tail, hp]
  · intro ev hev
    simp at hev
    rcases hev with hev | rfl | hev
    · exact hf ev hev
    · rfl
    · exact hotplug_pai_tail K B i l ev hev

theorem body_nofail (K : Consts) (B : Backend σ) (hB : B.NoFail) (cmd : Cmd) (ctr : Int)
    (j : Nat) (l : Loc σ) (hl : l.rc = 0) :
    (body_of K B cmd ctr j l).brk = false ∧ (body_of K B cmd ctr j l).loc.rc = 0 ∧
    primaryCtrs (body_of K B cmd ctr j l).trace =
      (if inScope K ctr j then [(j : Int)] else []) ∧
    ∀ ev ∈ (body_of K B cmd ctr j l).trace, ev.isHotplug = false := by
  have hB' := hB
  obtain ⟨h1, h2, h3, h4, h5⟩ := hB'
  cases cmd
  · -- ENABLE
    simp only [body_of]
    rcases do_enable_body_cases K B ctr j l with ⟨hs, hb⟩ | ⟨hs, st, s1, _, hrest⟩
    · simp [hb, hs, hl, primaryCtrs]
    · have aux : ∀ (st' : Int) (l' : Loc σ) (front : List Event), l'.rc = 0 →
          (∀ ev ∈ front, ev.isHotplug = false) → primaryCtrs front = [] →
          (enable_read K B j st' l' front).brk = false ∧
          (enable_read K B j st' l' front).loc.rc = 0 ∧
          primaryCtrs (enable_read K B j st' l' front).trace = [(j : Int)] ∧
          ∀ ev ∈ (enable_read K B j st' l' front).trace, ev.isHotplug = false := by
        intro st' l' front hl' hf hp
        rcases enable_read_cases K B j st' l' front with
          ⟨_, e, v, s2, hr, ⟨he, _⟩ | ⟨he, hb⟩⟩ | ⟨_, hb⟩
        · have := h4 j l'.st; rw [hr] at this; exact absurd this he
        · rw [hb]
          apply answer_and_pai_nofail K B hB _ _ _ _ he
          · intro ev hev
            simp at hev
            rcases hev with hev | rfl
            · exact hf ev hev
            · rfl
          · simp [primaryCtrs_append, primaryCtrs, hp]
        · rw [hb]
          exact answer_and_pai_nofail K B hB _ _ _ _ hl' hf hp
      rw [if_pos hs]
      rcases hrest with ⟨_, e, s2, hr, ⟨he, _⟩ | ⟨he, hb⟩⟩ | ⟨_, hb⟩
      · have := h1 j s1; rw [hr] at this; exact absurd this he
      · rw [hb]
        apply aux _ _ _ he
        · intro ev hev
          simp at hev
          rcases hev with rfl | rfl <;> rfl
        · simp [primaryCtrs]
      · rw [hb]
        refine aux _ _ _ (show (Loc.mk l.rc l.value s1).rc = 0 from hl) ?_ ?_
        · intro ev hev
          simp at hev
          subst hev; rfl
        · simp [primaryCtrs]
  · -- DISABLE
    simp only [body_of]
    rcases do_disable_body_cases K B ctr j l with ⟨hs, hb⟩ | ⟨hs, st, s1, _, hrest⟩
    · simp [hb, hs, hl, primaryCtrs]
    · rw [if_pos hs]
      rcases hrest with ⟨_, e, s2, hr, ⟨he, _⟩ | ⟨he, st2, s3, _, hb⟩⟩ | ⟨_, st2, s3, _, hb⟩
      · have := h2 j s1; rw [hr] at this; exact absurd this he
      · rw [hb]; simp [primaryCtrs, he, Event.isHotplug]
      · rw [hb]; simp [primaryCtrs, hl, Event.isHotplug]
  · -- RESET
    simp only [body_of]
    rcases do_reset_body_cases K B ctr j l with ⟨hs, hb⟩ | ⟨hs, st, s1, _, hrest⟩
    · simp [hb, hs, hl, primaryCtrs]
    · rw [if_pos hs]
      rcases hrest with ⟨_, e, v, s2, hr, ⟨he, _⟩ | ⟨he, hb⟩⟩ | ⟨_, hb⟩
      · have := h3 j s1; rw [hr] at this; exact absurd this he
      · rw [hb]
        apply answer_and_pai_nofail K B hB _ _ _ _ he
        · intro ev hev
          simp at hev
          rcases hev with rfl | rfl <;> rfl
        · simp [primaryCtrs]
      · rw [hb]
        refine answer_and_pai_nofail K B hB _ _ _ _ (show (Loc.mk l.rc l.value s1).rc = 0 from hl) ?_ ?_
        · intro ev hev
          simp at hev
          subst hev; rfl
        · simp [primaryCtrs]
  · -- PRINT
    simp only [body_of]
    rcases do_print_body_cases K B ctr j l with ⟨hs, hb⟩ | ⟨hs, st, s1, _, hrest⟩
    · simp [hb, hs, hl, primaryCtrs]
    · rw [if_pos hs]
      rcases hrest with ⟨_, e, v, s2, hr, ⟨he, _⟩ | ⟨he, hb⟩⟩ | ⟨_, hb⟩
      · have := h4 j s1; rw [hr] at this; exact absurd this he
      · rw [hb]
        apply answer_and_pai_nofail K B hB _ _ _ _ he
        · intro ev hev
          simp at hev
          rcases hev with rfl | rfl <;> rfl
        · simp [primaryCtrs]
      · rw [hb]
        refine answer_and_pai_nofail K B hB _ _ _ _ (show (Loc.mk l.rc l.value s1).rc = 0 from hl) ?_ ?_
        · intro ev hev
          simp at hev
          subst hev; rfl
        · simp [primaryCtrs]

theorem loop_nofail (K : Consts) (B : Backend σ) (hB : B.NoFail) (cmd : Cmd) (ctr : Int)
    (n : Nat) : ∀ (i : Nat) (l : Loc σ), l.rc = 0 →
      (for_loop (body_of K B cmd ctr) n i l).1.rc = 0 ∧
      primaryCtrs (for_loop (body_of K B cmd ctr) n i l).2 =
        ((List.range' i n).map Int.ofNat).filter (fun x => decide (inScope K ctr x)) ∧
      ∀ ev ∈ (for_loop (body_of K B cmd ctr) n i l).2, ev.isHotplug = false := by
  induction n with
  | zero => intro i l hl; simp [for_loop, hl, primaryCtrs]
  | succ n ih =>
    intro i l hl
    obtain ⟨hb, hrc, hp, hh⟩ := body_nofail K B hB cmd ctr i l hl
    obtain ⟨ih1, ih2, ih3⟩ := ih (i + 1) _ hrc
    simp only [for_loop, hb, Bool.false_eq_true, if_false]
    refine ⟨ih1, ?_, ?_⟩
    · rw [primaryCtrs_append, hp, ih2, List.range'_succ, List.map_cons, List.filter_cons]
      by_cases hs : inScope K ctr i
      · simp [hs]
      · simp [hs]
    · intro ev hev
      rcases List.mem_append.1 hev with hev | hev
      · exact hh ev hev
      · exact ih3 ev hev

theorem dispatch_eq (K : Consts) (B : Backend σ) (uninit : Nat) (cmd : Cmd) (ctr : Int) (s : σ) :
    dispatch K B uninit cmd ctr s =
      hotplug_tail K B (for_loop (body_of K B cmd ctr) K.NUM_COUNTER 0
        ⟨0, init_value uninit cmd, s⟩) := by
  cases cmd <;> rfl

theorem enumeration_all (K : Consts) :
    ((List.range' 0 K.NUM_COUNTER).map Int.ofNat).filter
      (fun x => decide (inScope K K.ALL_COUNTER x)) = enumeration K := by
  unfold enumeration
  rw [List.range_eq_range']
  apply List.filter_congr
  intro x _
  simp [inScope]

theorem enumeration_nodup (K : Consts) : (enumeration K).Nodup := by
  unfold enumeration
  apply List.Nodup.filter
  apply List.Nodup.map
  · intro a b h; exact Int.ofNat.inj h
  · exact List.nodup_range _

theorem enumeration_single (K : Consts) (c : Int) (hc : c ∈ enumeration K) :
    ((List.range' 0 K.NUM_COUNTER).map Int.ofNat).filter
      (fun x => decide (inScope K c x)) = [c] := by
  have hne : c ≠ K.ALL_COUNTER := by
    unfold enumeration at hc
    simpa using (List.mem_filter.1 hc).2
  have h1 : ((List.range' 0 K.NUM_COUNTER).map Int.ofNat).filter
      (fun x => decide (inScope K c x)) = (enumeration K).filter (fun x => x == c) := by
    unfold enumeration
    rw [List.range_eq_range', List.filter_filter]
    apply List.filter_congr
    intro x _
    simp only [inScope, hne, or_false]
    by_cases h1 : x = c <;> by_cases h2 : x = K.ALL_COUNTER <;> simp [h1, h2]
  rw [h1, List.filter_beq, List.count_eq_one_of_mem (enumeration_nodup K) hc]
  rfl

/-- C1. On a backend in which no call fails, for each of the four commands: with
scope `ALL_COUNTER` the Answers sent from the dispatcher loop are, in order,
one for every identity `0 ≤ i < NUM_COUNTER`, `i ≠ ALL_COUNTER`; with a scope
that is one of these identities there is exactly one, for that identity; and
for every scope the trace ends with `perf_read_ctr(HOTPLUG_DETECTED)` and the
Answer `(HOTPLUG_DETECTED, rc, value)` built from what it returned, the only
hotplug Answer of the trace. -/
theorem dispatch_answers_each_counter_once (K : Consts) (B : Backend σ) (hB : B.NoFail)
    (cmd : Cmd) (uninit : Nat) (s : σ) :
    primaryCtrs (dispatch K B uninit cmd K.ALL_COUNTER s).trace = enumeration K ∧
    (∀ c ∈ enumeration K, primaryCtrs (dispatch K B uninit cmd c s).trace = [c]) ∧
    (∀ ctr : Int, ∃ pre s' rc v,
      (dispatch K B uninit cmd ctr s).trace =
        pre ++ [.hotplug_read K.HOTPLUG_DETECTED rc v,
          .send_answer .hotplug K.HOTPLUG_DETECTED rc v] ∧
      B.perf_read_ctr K.HOTPLUG_DETECTED s' = (rc, v, (dispatch K B uninit cmd ctr s).st) ∧
      (dispatch K B uninit cmd ctr s).rc = rc ∧
      ∀ ev ∈ pre, ev.isHotplug = false) := by
  have key : ∀ ctr : Int,
      primaryCtrs (dispatch K B uninit cmd ctr s).trace =
        ((List.range' 0 K.NUM_COUNTER).map Int.ofNat).filter
          (fun x => decide (inScope K ctr x)) ∧
      ∃ pre s' rc v,
        (dispatch K B uninit cmd ctr s).trace =
          pre ++ [.hotplug_read K.HOTPLUG_DETECTED rc v,
            .send_answer .hotplug K.HOTPLUG_DETECTED rc v] ∧
        B.perf_read_ctr K.HOTPLUG_DETECTED s' = (rc, v, (dispatch K B uninit cmd ctr s).st) ∧
        (dispatch K B uninit cmd ctr s).rc = rc ∧
        ∀ ev ∈ pre, ev.isHotplug = false := by
    intro ctr
    obtain ⟨h1, h2, h3⟩ := loop_nofail K B hB cmd ctr K.NUM_COUNTER 0
      ⟨0, init_value uninit cmd, s⟩ rfl
    rw [dispatch_eq]
    simp only [hotplug_tail, if_pos h1]
    refine ⟨?_, _, _, _, _, rfl, rfl, rfl, h3⟩
    rw [primaryCtrs_append, h2]
    simp [primaryCtrs]
  refine ⟨?_, ?_, fun ctr => (key ctr).2⟩
  · rw [(key K.ALL_COUNTER).1, enumeration_all]
  · intro c hc
    rw [(key c).1, enumeration_single K c hc]

theorem exampleBackend_noFail : (exampleBackend 0 (-1) 0).NoFail := by
  refine ⟨fun _ _ => rfl, fun _ _ => rfl, fun _ _ => rfl, fun _ _ => rfl, ?_⟩
  intro i u s
  simp [exampleBackend]

/-- Witness of C1: PRINT with scope `ALL_COUNTER` on the example backend, where no
call fails, answers the identities 0, 1, 2, 3, 4, 6, 7 in this order. -/
theorem dispatch_answers_each_counter_once_witness :
    (exampleBackend 0 (-1) 0).NoFail ∧
    primaryCtrs (dispatch exampleConsts (exampleBackend 0 (-1) 0) 0 Cmd.PRINT
      exampleConsts.ALL_COUNTER [1, 0, 2, 1, 0, 0, 1, 1]).trace = [0, 1, 2, 3, 4, 6, 7] :=
  ⟨exampleBackend_noFail,
    (dispatch_answers_each_counter_once exampleConsts (exampleBackend 0 (-1) 0)
      exampleBackend_noFail Cmd.PRINT 0 [1, 0, 2, 1, 0, 0, 1, 1]).1.trans (by decide)⟩

theorem append_cons_split {α : Type} (l1 l2 pre post : List α) (ev : α)
    (h : l1 ++ l2 = pre ++ ev :: post) :
    (∃ post', l1 = pre ++ ev :: post' ∧ post = post' ++ l2) ∨
    (∃ pre', pre = l1 ++ pre' ∧ l2 = pre' ++ ev :: post) := by
  rcases List.append_eq_append_iff.1 h with ⟨a, h1, h2⟩ | ⟨c, h1, h2⟩
  · right; exact ⟨a, h1, h2⟩
  · cases c with
    | nil =>
      right
      refine ⟨[], by simpa using h1.symm, by simpa using h2.symm⟩
    | cons x c =>
      simp at h2
      obtain ⟨rfl, rfl⟩ := h2
      left
      exact ⟨c, h1, rfl⟩

theorem mem_of_split {α : Type} (l pre post : List α) (ev : α) (h : l = pre ++ ev :: post) :
    ev ∈ l := by
  rw [h]; simp

theorem split_unique {α : Type} (P : α → Prop) (pre post pre' post' : List α) (ev ev' : α)
    (h : pre' ++ ev' :: post' = pre ++ ev :: post) (hP : P ev)
    (h1 : ∀ x ∈ pre', ¬ P x) (h2 : ∀ x ∈ post', ¬ P x) :
    pre = pre' ∧ ev = ev' ∧ post = post' := by
  rcases append_cons_split pre' (ev' :: post') pre post ev h with ⟨p, hp, _⟩ | ⟨p, hp, hq⟩
  · exact absurd hP (h1 ev (mem_of_split _ _ _ _ hp))
  · cases p with
    | nil =>
      simp at hq
      simp at hp
      exact ⟨hp, hq.1.symm, hq.2.symm⟩
    | cons x p =>
      simp at hq
      obtain ⟨_, hq⟩ := hq
      exact absurd hP (h2 ev (mem_of_split _ _ _ _ hq))

theorem inPai_not_op (ev : Event) (h : ev.inPai = true) (i e : Int) : ¬ ev.isOpOn i e := by
  cases ev <;> simp_all [Event.inPai, Event.isSub, Event.isOpOn]

theorem answer_and_pai_op (K : Consts) (B : Backend σ) (i st : Int) (l : Loc σ)
    (front : List Event) (ev : Event) (c e : Int)
    (hmem : ev ∈ (answer_and_pai K B i st l front).trace) (hop : ev.isOpOn c e) :
    ev ∈ front := by
  rw [answer_and_pai_eq] at hmem
  simp at hmem
  rcases hmem with h | rfl | h
  · exact h
  · simp [Event.isOpOn] at hop
  · exact absurd hop (inPai_not_op ev (pai_tail_inPai K B i l ev h) c e)

theorem body_failed_op (K : Consts) (B : Backend σ) (cmd : Cmd) (ctr : Int) (j : Nat)
    (l : Loc σ) (pre post : List Event) (ev : Event) (i e : Int)
    (h : (body_of K B cmd ctr j l).trace = pre ++ ev :: post)
    (hop : ev.isOpOn i e) (he : e ≠ 0) :
    (body_of K B cmd ctr j l).brk = true ∧ post = [.send_answer .failed i e 0] ∧
    (body_of K B cmd ctr j l).loc.rc = e := by
  have hmem := mem_of_split _ _ _ _ h
  cases cmd
  · -- ENABLE
    simp only [body_of] at h hmem ⊢
    have aux : ∀ (st' : Int) (l' : Loc σ) (front : List Event),
        (∀ x ∈ front, ¬ x.isOpOn i e) →
        (enable_read K B j st' l' front).trace = pre ++ ev :: post →
        (enable_read K B j st' l' front).brk = true ∧ post = [.send_answer .failed i e 0] ∧
        (enable_read K B j st' l' front).loc.rc = e := by
      intro st' l' front hfront h'
      have hmem' := mem_of_split _ _ _ _ h'
      rcases enable_read_cases K B j st' l' front with
        ⟨_, e', v, s2, hr, ⟨he', hb⟩ | ⟨he', hb⟩⟩ | ⟨_, hb⟩
      · rw [hb] at h' ⊢
        simp only at h'
        obtain ⟨_, h2, h3⟩ := split_unique (fun x => x.isOpOn i e) pre post front
          [.send_answer .failed j e' 0] ev (.perf_read_ctr j e' v) h' hop hfront
          (by simp [Event.isOpOn])
        subst h2
        simp [Event.isOpOn] at hop
        obtain ⟨rfl, rfl⟩ := hop
        exact ⟨rfl, h3, rfl⟩
      · rw [hb] at hmem'
        have := answer_and_pai_op K B _ _ _ _ ev i e hmem' hop
        simp at this
        rcases this with h1 | rfl
        · exact absurd hop (hfront ev h1)
        · simp [Event.isOpOn] at hop
          exact absurd (hop.2.symm.trans he') he
      · rw [hb] at hmem'
        have := answer_and_pai_op K B _ _ _ _ ev i e hmem' hop
        exact absurd hop (hfront ev this)
    rcases do_enable_body_cases K B ctr j l with ⟨hs, hb⟩ | ⟨hs, st, s1, _, hrest⟩
    · rw [hb] at hmem; simp at hmem
    · rcases hrest with ⟨_, e', s2, hr, ⟨he', hb⟩ | ⟨he', hb⟩⟩ | ⟨_, hb⟩
      · rw [hb] at h ⊢
        simp only at h
        obtain ⟨_, h2, h3⟩ := split_unique (fun x => x.isOpOn i e) pre post
          [.perf_ctr_state j st] [.send_answer .failed j e' 0] ev (.perf_enable_ctr j e') h hop
          (by simp [Event.isOpOn]) (by simp [Event.isOpOn])
        subst h2
        simp [Event.isOpOn] at hop
        obtain ⟨rfl, rfl⟩ := hop
        exact ⟨rfl, h3, rfl⟩
      · rw [hb] at h ⊢
        refine aux _ _ _ ?_ h
        intro x hx
        simp at hx
        rcases hx with rfl | rfl
        · simp [Event.isOpOn]
        · simp [Event.isOpOn]
          intro _ h0
          exact he (h0.symm.trans he')
      · rw [hb] at h ⊢
        refine aux _ _ _ ?_ h
        intro x hx
        simp at hx
        subst hx
        simp [Event.isOpOn]
  · -- DISABLE
    simp only [body_of] at h hmem ⊢
    rcases do_disable_body_cases K B ctr j l with ⟨hs, hb⟩ | ⟨hs, st, s1, _, hrest⟩
    · rw [hb] at hmem; simp at hmem
    · rcases hrest with ⟨_, e', s2, hr, ⟨he', hb⟩ | ⟨he', st2, s3, _, hb⟩⟩ | ⟨_, st2, s3, _, hb⟩
      · rw [hb] at h ⊢
        simp only at h
        obtain ⟨_, h2, h3⟩ := split_unique (fun x => x.isOpOn i e) pre post
          [.perf_ctr_state j st] [.send_answer .failed j e' 0] ev (.perf_disable_ctr j e') h hop
          (by simp [Event.isOpOn]) (by simp [Event.isOpOn])
        subst h2
        simp [Event.isOpOn] at hop
        obtain ⟨rfl, rfl⟩ := hop
        exact ⟨rfl, h3, rfl⟩
      · rw [hb] at hmem
        simp at hmem
        rcases hmem with rfl | rfl | rfl | rfl <;> simp [Event.isOpOn] at hop
        exact absurd (hop.2.symm.trans he') he
      · rw [hb] at hmem
        simp at hmem
        rcases hmem with rfl | rfl | rfl <;> simp [Event.isOpOn] at hop
  · -- RESET
    simp only [body_of] at h hmem ⊢
    rcases do_reset_body_cases K B ctr j l with ⟨hs, hb⟩ | ⟨hs, st, s1, _, hrest⟩
    · rw [hb] at hmem; simp at hmem
    · rcases hrest with ⟨_, e', v, s2, hr, ⟨he', hb⟩ | ⟨he', hb⟩⟩ | ⟨_, hb⟩
      · rw [hb] at h ⊢
        simp only at h
        obtain ⟨_, h2, h3⟩ := split_unique (fun x => x.isOpOn i e) pre post
          [.perf_ctr_state j st] [.send_answer .failed j e' 0] ev (.perf_reset_ctr j e' v) h hop
          (by simp [Event.isOpOn]) (by simp [Event.isOpOn])
        subst h2
        simp [Event.isOpOn] at hop
        obtain ⟨rfl, rfl⟩ := hop
        exact ⟨rfl, h3, rfl⟩
      · rw [hb] at hmem
        have := answer_and_pai_op K B _ _ _ _ ev i e hmem hop
        simp at this
        rcases this with rfl | rfl <;> simp [Event.isOpOn] at hop
        exact absurd (hop.2.symm.trans he') he
      · rw [hb] at hmem
        have := answer_and_pai_op K B _ _ _ _ ev i e hmem hop
        simp at this
        subst this
        simp [Event.isOpOn] at hop
  · -- PRINT
    simp only [body_of] at h hmem ⊢
    rcases do_print_body_cases K B ctr j l with ⟨hs, hb⟩ | ⟨hs, st, s1, _, hrest⟩
    · rw [hb] at hmem; simp at hmem
    · rcases hrest with ⟨_, e', v, s2, hr, ⟨he', hb⟩ | ⟨he', hb⟩⟩ | ⟨_, hb⟩
      · rw [hb] at h ⊢
        simp only at h
        obtain ⟨_, h2, h3⟩ := split_unique (fun x => x.isOpOn i e) pre post
          [.perf_ctr_state j st] [.send_answer .failed j e' 0] ev (.perf_read_ctr j e' v) h hop
          (by simp [Event.isOpOn]) (by simp [Event.isOpOn])
        subst h2
        simp [Event.isOpOn] at hop
        obtain ⟨rfl, rfl⟩ := hop
        exact ⟨rfl, h3, rfl⟩
      · rw [hb] at hmem
        have := answer_and_pai_op K B _ _ _ _ ev i e hmem hop
        simp at this
        rcases this with rfl | rfl <;> simp [Event.isOpOn] at hop
        exact absurd (hop.2.symm.trans he') he
      · rw [hb] at hmem
        have := answer_and_pai_op K B _ _ _ _ ev i e hmem hop
        simp at this
        subst this
        simp [Event.isOpOn] at hop

theorem loop_failed_op (K : Consts) (B : Backend σ) (cmd : Cmd) (ctr : Int)
    (ev : Event) (i e : Int) (hop : ev.isOpOn i e) (he : e ≠ 0) (n : Nat) :
    ∀ (i0 : Nat) (l : Loc σ) (pre post : List Event),
      (for_loop (body_of K B cmd ctr) n i0 l).2 = pre ++ ev :: post →
      post = [.send_answer .failed i e 0] ∧ (for_loop (body_of K B cmd ctr) n i0 l).1.rc = e := by
  induction n with
  | zero => intro i0 l pre post h; simp [for_loop] at h
  | succ n ih =>
    intro i0 l pre post h
    by_cases hb : (body_of K B cmd ctr i0 l).brk = true
    · simp only [for_loop, hb, if_true] at h ⊢
      obtain ⟨_, h2, h3⟩ := body_failed_op K B cmd ctr i0 l pre post ev i e h hop he
      exact ⟨h2, h3⟩
    · simp only [for_loop, hb, Bool.false_eq_true, if_false] at h ⊢
      rcases append_cons_split _ _ _ _ _ h with ⟨p, hp, _⟩ | ⟨p, _, hq⟩
      · exact absurd (body_failed_op K B cmd ctr i0 l pre p ev i e hp hop he).1 hb
      · exact ih _ _ _ _ hq

theorem body_not_trailer (K : Consts) (B : Backend σ) (cmd : Cmd) (ctr : Int) (j : Nat)
    (l : Loc σ) : ∀ ev ∈ (body_of K B cmd ctr j l).trace, ev.isTrailer = false := by
  have hpai : ∀ (i st : Int) (l' : Loc σ) (front : List Event),
      (∀ ev ∈ front, ev.isTrailer = false) →
      ∀ ev ∈ (answer_and_pai K B i st l' front).trace, ev.isTrailer = false := by
    intro i st l' front hf ev hev
    rw [answer_and_pai_eq] at hev
    simp at hev
    rcases hev with h | rfl | h
    · exact hf ev h
    · rfl
    · have := pai_tail_inPai K B i l' ev h
      cases ev <;> simp_all [Event.inPai, Event.isSub, Event.isTrailer]
      rename_i site _ _ _
      cases site <;> simp_all [Event.inPai, Event.isSub, Event.isTrailer]
  intro ev hev
  cases cmd
  · simp only [body_of] at hev
    have aux : ∀ (st' : Int) (l' : Loc σ) (front : List Event),
        (∀ ev ∈ front, ev.isTrailer = false) →
        ∀ ev ∈ (enable_read K B j st' l' front).trace, ev.isTrailer = false := by
      intro st' l' front hf ev hev
      rcases enable_read_cases K B j st' l' front with
        ⟨_, e', v, s2, hr, ⟨he', hb⟩ | ⟨he', hb⟩⟩ | ⟨_, hb⟩
      · rw [hb] at hev
        simp at hev
        rcases hev with h | rfl | rfl
        · exact hf ev h
        · rfl
        · rfl
      · rw [hb] at hev
        refine hpai _ _ _ _ ?_ ev hev
        intro x hx
        simp at hx
        rcases hx with h | rfl
        · exact hf x h
        · rfl
      · rw [hb] at hev
        exact hpai _ _ _ _ hf ev hev
    rcases do_enable_body_cases K B ctr j l with ⟨hs, hb⟩ | ⟨hs, st, s1, _, hrest⟩
    · rw [hb] at hev; simp at hev
    · rcases hrest with ⟨_, e', s2, hr, ⟨he', hb⟩ | ⟨he', hb⟩⟩ | ⟨_, hb⟩
      · rw [hb] at hev
        simp at hev
        rcases hev with rfl | rfl | rfl <;> rfl
      · rw [hb] at hev
        refine aux _ _ _ ?_ ev hev
        intro x hx
        simp at hx
        rcases hx with rfl | rfl <;> rfl
      · rw [hb] at hev
        refine aux _ _ _ ?_ ev hev
        intro x hx
        simp at hx
        subst hx; rfl
  · simp only [body_of] at hev
    rcases do_disable_body_cases K B ctr j l with ⟨hs, hb⟩ | ⟨hs, st, s1, _, hrest⟩
    · rw [hb] at hev; simp at hev
    · rcases hrest with ⟨_, e', s2, hr, ⟨he', hb⟩ | ⟨he', st2, s3, _, hb⟩⟩ | ⟨_, st2, s3, _, hb⟩
      · rw [hb] at hev
        simp at hev
        rcases hev with rfl | rfl | rfl <;> rfl
      · rw [hb] at hev
        simp at hev
        rcases hev with rfl | rfl | rfl | rfl <;> rfl
      · rw [hb] at hev
        simp at hev
        rcases hev with rfl | rfl | rfl <;> rfl
  · simp only [body_of] at hev
    rcases do_reset_body_cases K B ctr j l with ⟨hs, hb⟩ | ⟨hs, st, s1, _, hrest⟩
    · rw [hb] at hev; simp at hev
    · rcases hrest with ⟨_, e', v, s2, hr, ⟨he', hb⟩ | ⟨he', hb⟩⟩ | ⟨_, hb⟩
      · rw [hb] at hev
        simp at hev
        rcases hev with rfl | rfl | rfl <;> rfl
      · rw [hb] at hev
        refine hpai _ _ _ _ ?_ ev hev
        intro x hx
        simp at hx
        rcases hx with rfl | rfl <;> rfl
      · rw [hb] at hev
        refine hpai _ _ _ _ ?_ ev hev
        intro x hx
        simp at hx
        subst hx; rfl
  · simp only [body_of] at hev
    rcases do_print_body_cases K B ctr j l with ⟨hs, hb⟩ | ⟨hs, st, s1, _, hrest⟩
    · rw [hb] at hev; simp at hev
    · rcases hrest with ⟨_, e', v, s2, hr, ⟨he', hb⟩ | ⟨he', hb⟩⟩ | ⟨_, hb⟩
      · rw [hb] at hev
        simp at hev
        rcases hev with rfl | rfl | rfl <;> rfl
      · rw [hb] at hev
        refine hpai _ _ _ _ ?_ ev hev
        intro x hx
        simp at hx
        rcases hx with rfl | rfl <;> rfl
      · rw [hb] at hev
        refine hpai _ _ _ _ ?_ ev hev
        intro x hx
        simp at hx
        subst hx; rfl

theorem loop_not_trailer (K : Consts) (B : Backend σ) (cmd : Cmd) (ctr : Int) (n i : Nat)
    (l : Loc σ) : ∀ ev ∈ (for_loop (body_of K B cmd ctr) n i l).2, ev.isTrailer = false :=
  for_loop_forall _ (fun ev => ev.isTrailer = false) (body_not_trailer K B cmd ctr) n i l

theorem isHotplug_of_not_trailer (ev : Event) (h : ev.isTrailer = false) :
    ev.isHotplug = false := by
  cases ev <;> simp_all [Event.isTrailer, Event.isHotplug]
  rename_i site _ _ _
  cases site <;> simp_all [Event.isTrailer, Event.isHotplug]

/-- C2. For every command and scope: when a primary backend operation on
counter `i` (enable, disable, reset, or the read of `i` in the loop) returns
`e ≠ 0`, the only event after that call is the Answer `(i, e, 0)`, so it is the last
Answer and no further backend call is made; the trace holds no hotplug Answer
and the dispatcher returns `e`. -/
theorem dispatch_stops_on_failed_operation (K : Consts) (B : Backend σ) (cmd : Cmd)
    (uninit : Nat) (ctr : Int) (s : σ) (pre post : List Event) (ev : Event) (i e : Int)
    (htr : (dispatch K B uninit cmd ctr s).trace = pre ++ ev :: post)
    (hop : ev.isOpOn i e) (he : e ≠ 0) :
    post = [.send_answer .failed i e 0] ∧
    (dispatch K B uninit cmd ctr s).rc = e ∧
    ∀ x ∈ (dispatch K B uninit cmd ctr s).trace, x.isHotplug = false := by
  rw [dispatch_eq] at htr ⊢
  have hnt := loop_not_trailer K B cmd ctr K.NUM_COUNTER 0 ⟨0, init_value uninit cmd, s⟩
  by_cases hrc : (for_loop (body_of K B cmd ctr) K.NUM_COUNTER 0
      ⟨0, init_value uninit cmd, s⟩).1.rc = 0
  · exfalso
    simp only [hotplug_tail, if_pos hrc] at htr
    rcases append_cons_split _ _ _ _ _ htr with ⟨p, hp, _⟩ | ⟨p, _, hq⟩
    · have := (loop_failed_op K B cmd ctr ev i e hop he _ _ _ _ _ hp).2
      exact he (this.symm.trans hrc)
    · have hmem := mem_of_split _ _ _ _ hq
      simp at hmem
      rcases hmem with rfl | rfl <;> simp [Event.isOpOn] at hop
  · simp only [hotplug_tail, if_neg hrc] at htr ⊢
    obtain ⟨h1, h2⟩ := loop_failed_op K B cmd ctr ev i e hop he _ _ _ _ _ htr
    exact ⟨h1, h2, fun x hx => isHotplug_of_not_trailer x (hnt x hx)⟩

theorem answers_append (a b : List Event) : answers (a ++ b) = answers a ++ answers b := by
  induction a with
  | nil => rfl
  | cons ev a ih => cases ev <;> simp [answers, ih]

theorem answers_subEvents (user state : Int) (vs : Nat → Nat) (m : Nat) :
    ∀ i, answers (subEvents user state vs i m) =
      (List.range' i m).map (fun (j : Nat) => ((j : Int), state, vs j)) := by
  induction m with
  | zero => intro i; rfl
  | succ m ih => intro i; simp [subEvents, answers, ih, List.range'_succ]

theorem pai_loop_chain (B : Backend σ) (user state : Int) (t : Nat → σ) (vs : Nat → Nat)
    (k : Nat) (e : Int) (w : Nat) (s' : σ) (he : e ≠ 0)
    (hok : ∀ j, j < k → B.perf_read_pai_ctr j user (t j) = (0, vs j, t (j + 1)))
    (hfail : B.perf_read_pai_ctr k user (t k) = (e, w, s')) (m : Nat) :
    ∀ (i : Nat) (rc : Int) (val : Nat), i ≤ k → k < i + m →
      for_loop (do_send_pai_body B user state) m i ⟨rc, val, t i⟩ =
        (⟨e, w, s'⟩, subEvents user state vs i (k - i) ++
          [.perf_read_pai_ctr k user e w, .send_answer .sub_failed k e 0]) := by
  induction m with
  | zero => intro i rc val h1 h2; omega
  | succ m ih =>
    intro i rc val h1 h2
    by_cases hik : i = k
    · subst hik
      simp [for_loop, do_send_pai_body, hfail, he, subEvents]
    · have hlt : i < k := by omega
      have hstep := hok i hlt
      have hrec := ih (i + 1) 0 (vs i) (by omega) (by omega)
      have hk : k - i = (k - (i + 1)) + 1 := by omega
      simp [for_loop, do_send_pai_body, hstep, hrec, hk, subEvents]

theorem subEvents_isSub (user state : Int) (vs : Nat → Nat) (m : Nat) :
    ∀ i, ∀ ev ∈ subEvents user state vs i m, ev.isSub = true := by
  induction m with
  | zero => intro i ev hev; simp [subEvents] at hev
  | succ m ih =>
    intro i ev hev
    simp [subEvents] at hev
    rcases hev with rfl | rfl | hev
    · rfl
    · rfl
    · exact ih _ ev hev

theorem isHotplug_of_isSub (ev : Event) (h : ev.isSub = true) : ev.isHotplug = false := by
  cases ev <;> simp_all [Event.isSub, Event.isHotplug]
  rename_i site _ _ _
  cases site <;> simp_all [Event.isSub, Event.isHotplug]

theorem body_skip (K : Consts) (B : Backend σ) (cmd : Cmd) (ctr : Int) (j : Nat) (l : Loc σ)
    (h : ¬ inScope K ctr j) : body_of K B cmd ctr j l = ⟨false, l, []⟩ := by
  cases cmd <;> simp only [body_of]
  · rcases do_enable_body_cases K B ctr j l with ⟨_, hb⟩ | ⟨hs, _⟩
    · exact hb
    · exact absurd hs h
  · rcases do_disable_body_cases K B ctr j l with ⟨_, hb⟩ | ⟨hs, _⟩
    · exact hb
    · exact absurd hs h
  · rcases do_reset_body_cases K B ctr j l with ⟨_, hb⟩ | ⟨hs, _⟩
    · exact hb
    · exact absurd hs h
  · rcases do_print_body_cases K B ctr j l with ⟨_, hb⟩ | ⟨hs, _⟩
    · exact hb
    · exact absurd hs h

/-- With a scope that is a single identity `c < NUM_COUNTER`, the loop of any
command does what its body does for `c`. -/
theorem loop_single_scope (K : Consts) (B : Backend σ) (cmd : Cmd) (c : Nat)
    (hc : c < K.NUM_COUNTER) (hne : (c : Int) ≠ K.ALL_COUNTER) (l : Loc σ) :
    for_loop (body_of K B cmd c) K.NUM_COUNTER 0 l =
      ((body_of K B cmd c c l).loc, (body_of K B cmd c c l).trace) := by
  apply for_loop_single _ c _ 0 l (Nat.zero_le _) (by omega)
  intro j l' hj
  apply body_skip
  rintro ⟨_, h | h⟩
  · exact hj (by exact_mod_cast h)
  · exact hne h

/-- C4. Scenario B: scope a composite identity `c`, command ENABLE, `c`
disabled, enable and read of `c` succeed (value `v`), `c` is then reported
enabled, sub-counter reads `0 .. k-1` succeed with values `vs j` and read
`k < n` fails with `e ≠ 0`: the Answers are exactly `(c, ENABLED, v)`,
`(0, ENABLED, vs 0)`, ..., `(k-1, ENABLED, vs (k-1))`, `(k, e, 0)`, there is no hotplug
Answer and `do_enable` returns `e`. -/
theorem do_enable_composite_sub_failure (K : Consts) (B : Backend σ) (c : Nat) (u : Int)
    (n : Nat)
    (hcomp : ((c : Int) = K.PAI_USER ∧ u = 1 ∧ n = K.NUM_PAI_USER) ∨
      ((c : Int) = K.PAI_KERNEL ∧ u = 0 ∧ n = K.NUM_PAI_KERNEL))
    (hc : c < K.NUM_COUNTER) (hall : (c : Int) ≠ K.ALL_COUNTER)
    (hdist : K.PAI_USER ≠ K.PAI_KERNEL) (hEU : K.ENABLED ≠ K.UNSUPPORTED)
    (k : Nat) (hk : k < n) (e : Int) (he : e ≠ 0)
    (s0 s1 s2 s3 s' : σ) (t : Nat → σ) (v w : Nat) (vs : Nat → Nat)
    (h1 : B.perf_ctr_state c s0 = (K.DISABLED, s1))
    (h2 : B.perf_enable_ctr c s1 = (0, s2))
    (h3 : B.perf_read_ctr c s2 = (0, v, s3))
    (h4 : B.perf_ctr_state c s3 = (K.ENABLED, t 0))
    (h5 : ∀ j, j < k → B.perf_read_pai_ctr j u (t j) = (0, vs j, t (j + 1)))
    (h6 : B.perf_read_pai_ctr k u (t k) = (e, w, s')) :
    answers (do_enable K B c s0).trace =
      ((c : Int), K.ENABLED, v) ::
        ((List.range k).map (fun (j : Nat) => ((j : Int), K.ENABLED, vs j)) ++
          [((k : Int), e, 0)]) ∧
    (∀ ev ∈ (do_enable K B c s0).trace, ev.isHotplug = false) ∧
    (do_enable K B c s0).rc = e := by
  have hloop := loop_single_scope K B Cmd.ENABLE c hc hall ⟨0, 0, s0⟩
  simp only [body_of] at hloop
  have hbody : do_enable_body K B c c ⟨0, 0, s0⟩ =
      answer_and_pai K B c K.ENABLED ⟨0, v, s3⟩
        [.perf_ctr_state c K.DISABLED, .perf_enable_ctr c 0, .perf_read_ctr c 0 v] := by
    simp [do_enable_body, hall, h1, h2, enable_read, hEU, h3]
  have hpai : pai_tail K B c ⟨0, v, s3⟩ =
      ⟨e, s', .perf_ctr_state c K.ENABLED :: (subEvents u K.ENABLED vs 0 k ++
        [.perf_read_pai_ctr k u e w, .send_answer .sub_failed k e 0])⟩ := by
    rcases hcomp with ⟨hcu, rfl, rfl⟩ | ⟨hck, rfl, rfl⟩
    · have hnk : (c : Int) ≠ K.PAI_KERNEL := by rw [hcu]; exact hdist
      have hch := pai_loop_chain B 1 K.ENABLED t vs k e w s' he h5 h6 K.NUM_PAI_USER 0 0 0
        (Nat.zero_le _) (by omega)
      rw [hcu] at h4
      simp [pai_tail, hcu, hdist, do_send_pai_eq, pai_ctr, pai_max, h4, hch]
    · have hnu : (c : Int) ≠ K.PAI_USER := by rw [hck]; exact hdist.symm
      have hch := pai_loop_chain B 0 K.ENABLED t vs k e w s' he h5 h6 K.NUM_PAI_KERNEL 0 0 0
        (Nat.zero_le _) (by omega)
      rw [hck] at h4
      simp [pai_tail, hck, hdist.symm, do_send_pai_eq, pai_ctr, pai_max, h4, hch]
  have htr : do_enable K B c s0 =
      ⟨e, s', [.perf_ctr_state c K.DISABLED, .perf_enable_ctr c 0, .perf_read_ctr c 0 v,
        .send_answer .primary c K.ENABLED v, .perf_ctr_state c K.ENABLED] ++
        (subEvents u K.ENABLED vs 0 k ++
          [.perf_read_pai_ctr k u e w, .send_answer .sub_failed k e 0])⟩ := by
    simp only [do_enable, hloop, hbody, answer_and_pai_eq, hpai, hotplug_tail, if_neg he]
    simp
  rw [htr]
  refine ⟨?_, ?_, rfl⟩
  · simp [answers_append, answers, answers_subEvents, List.range_eq_range']
  · intro ev hev
    simp at hev
    rcases hev with rfl | rfl | rfl | rfl | rfl | hev | rfl | rfl <;> try rfl
    exact isHotplug_of_isSub ev (subEvents_isSub _ _ _ _ _ ev hev)

/-- Witness of C4 with `k = 2` and `n = 5`: scope `PAI_USER` = 6, read of user
sub-counter 2 fails with `-5`. -/
theorem do_enable_composite_sub_failure_witness :
    answers (do_enable exampleConsts scenarioBackend 6 0).trace =
      [(6, 1, 42), (0, 1, 10), (1, 1, 20), (2, -5, 0)] ∧
    (do_enable exampleConsts scenarioBackend 6 0).rc = -5 := by
  have hsub : ∀ j : Nat, j < 2 → scenarioBackend.perf_read_pai_ctr j 1 1 =
      (0, 10 * (j + 1), 1) := by
    intro j hj
    rcases j with _ | _ | j
    · rfl
    · rfl
    · omega
  have h := do_enable_composite_sub_failure exampleConsts scenarioBackend 6 1 5
    (Or.inl ⟨rfl, rfl, rfl⟩) (by decide) (by decide) (by decide) (by decide) 2 (by decide)
    (-5) (by decide) 0 0 1 1 1 (fun _ => 1) 42 30
    (fun j => 10 * (j + 1)) rfl rfl rfl rfl hsub rfl
  exact ⟨h.1, h.2.2⟩

/-- Witness of C2: ENABLE with scope `ALL_COUNTER` when enabling counter 1 fails
with `-22`: the trace ends with the failing call and the Answer `(1, -22, 0)`, and
`-22` is returned. -/
theorem dispatch_stops_on_failed_operation_witness :
    (dispatch exampleConsts failingEnableBackend 0 Cmd.ENABLE 5 ()).trace =
      [.perf_ctr_state 0 0, .perf_enable_ctr 0 0, .perf_read_ctr 0 0 7,
        .send_answer .primary 0 1 7, .perf_ctr_state 1 0] ++
        .perf_enable_ctr 1 (-22) :: [.send_answer .failed 1 (-22) 0] ∧
    (dispatch exampleConsts failingEnableBackend 0 Cmd.ENABLE 5 ()).rc = -22 :=
  ⟨by decide,
    (dispatch_stops_on_failed_operation exampleConsts failingEnableBackend Cmd.ENABLE 0 5 ()
      [.perf_ctr_state 0 0, .perf_enable_ctr 0 0, .perf_read_ctr 0 0 7,
        .send_answer .primary 0 1 7, .perf_ctr_state 1 0]
      [.send_answer .failed 1 (-22) 0] (.perf_enable_ctr 1 (-22)) 1 (-22)
      (by decide) ⟨rfl, rfl⟩ (by decide)).2.1⟩

/-- C3, evaluated: `do_print` with scope `ALL_COUNTER` when the read of user
sub-counter 0 fails with `-5` (counters 0..4 unsupported, both composites
enabled).  The error Answer `(0, -5, 0)` is not the last one: the next identity,
`PAI_KERNEL` = 7, is still processed and answered with its sub-counters, a
hotplug Answer `(8, 0, 0)` is sent and `do_print` returns 0. -/
theorem do_print_continues_after_sub_failure :
    answers (do_print exampleConsts (exampleBackend 1 0 (-5)) exampleConsts.ALL_COUNTER
      [2, 2, 2, 2, 2, 2, 1, 1]).trace =
      [(0, 2, 0), (1, 2, 0), (2, 2, 0), (3, 2, 0), (4, 2, 0), (6, 1, 106), (0, -5, 0),
        (7, 1, 107), (0, 1, 0), (1, 1, 10), (2, 1, 20), (8, 0, 0)] ∧
    (do_print exampleConsts (exampleBackend 1 0 (-5)) exampleConsts.ALL_COUNTER
      [2, 2, 2, 2, 2, 2, 1, 1]).rc = 0 := by
  decide

theorem noSubAtHead_nil : noSubAtHead [] := by
  intro x hx; simp at hx

theorem noSubAtHead_append (a b : List Event) (ha : noSubAtHead a) (hb : noSubAtHead b) :
    noSubAtHead (a ++ b) := by
  cases a with
  | nil => simpa using hb
  | cons x a => intro y hy; exact ha y (by simpa using hy)

theorem loop_split (body : Nat → Loc σ → Step σ)
    (hhead : ∀ j l, noSubAtHead (body j l).trace) (n : Nat) :
    ∀ (i0 : Nat) (l : Loc σ),
      noSubAtHead (for_loop body n i0 l).2 ∧
      ∀ (pre post : List Event) (ev : Event),
        (for_loop body n i0 l).2 = pre ++ ev :: post →
        ∃ j l' pre0 bpre bpost post0, (body j l').trace = bpre ++ ev :: bpost ∧
          pre = pre0 ++ bpre ∧ post = bpost ++ post0 ∧ noSubAtHead post0 := by
  induction n with
  | zero =>
    intro i0 l
    refine ⟨by simpa [for_loop] using noSubAtHead_nil, ?_⟩
    intro pre post ev h
    simp [for_loop] at h
  | succ n ih =>
    intro i0 l
    by_cases hb : (body i0 l).brk = true
    · simp only [for_loop, hb, if_true]
      refine ⟨hhead i0 l, ?_⟩
      intro pre post ev h
      exact ⟨i0, l, [], pre, post, [], h, by simp, by simp, noSubAtHead_nil⟩
    · simp only [for_loop, hb, Bool.false_eq_true, if_false]
      obtain ⟨ih1, ih2⟩ := ih (i0 + 1) (body i0 l).loc
      refine ⟨noSubAtHead_append _ _ (hhead i0 l) ih1, ?_⟩
      intro pre post ev h
      rcases append_cons_split _ _ _ _ _ h with ⟨p, hp, hq⟩ | ⟨p, hp, hq⟩
      · exact ⟨i0, l, [], pre, p, _, hp, by simp, hq, ih1⟩
      · obtain ⟨j, l', pre0, bpre, bpost, post0, h1, h2, h3, h4⟩ := ih2 _ _ _ hq
        refine ⟨j, l', (body i0 l).trace ++ pre0, bpre, bpost, post0, h1, ?_, h3, h4⟩
        rw [hp, h2, List.append_assoc]

theorem body_noSubAtHead (K : Consts) (B : Backend σ) (cmd : Cmd) (ctr : Int) (j : Nat)
    (l : Loc σ) : noSubAtHead (body_of K B cmd ctr j l).trace := by
  intro x hx
  cases cmd <;> simp only [body_of] at hx
  · rcases do_enable_body_cases K B ctr j l with ⟨hs, hb⟩ | ⟨hs, st, s1, _, hrest⟩
    · rw [hb] at hx; simp at hx
    · have aux : ∀ (st' : Int) (l' : Loc σ) (front : List Event),
          x ∈ (enable_read K B j st' l' (.perf_ctr_state j st :: front)).trace.head? →
          x.isSub = false := by
        intro st' l' front hx
        rcases enable_read_cases K B j st' l' (.perf_ctr_state j st :: front) with
          ⟨_, e', v, s2, hr, ⟨he', hb⟩ | ⟨he', hb⟩⟩ | ⟨_, hb⟩ <;>
        · rw [hb] at hx
          simp [answer_and_pai_eq] at hx
          subst hx; rfl
      rcases hrest with ⟨_, e', s2, hr, ⟨he', hb⟩ | ⟨he', hb⟩⟩ | ⟨_, hb⟩
      · rw [hb] at hx; simp at hx; subst hx; rfl
      · rw [hb] at hx; exact aux _ _ _ hx
      · rw [hb] at hx; exact aux _ _ _ hx
  · rcases do_disable_body_cases K B ctr j l with ⟨hs, hb⟩ | ⟨hs, st, s1, _, hrest⟩
    · rw [hb] at hx; simp at hx
    · rcases hrest with ⟨_, e', s2, hr, ⟨he', hb⟩ | ⟨he', st2, s3, _, hb⟩⟩ | ⟨_, st2, s3, _, hb⟩ <;>
      · rw [hb] at hx; simp at hx; subst hx; rfl
  · rcases do_reset_body_cases K B ctr j l with ⟨hs, hb⟩ | ⟨hs, st, s1, _, hrest⟩
    · rw [hb] at hx; simp at hx
    · rcases hrest with ⟨_, e', v, s2, hr, ⟨he', hb⟩ | ⟨he', hb⟩⟩ | ⟨_, hb⟩ <;>
      · rw [hb] at hx; simp [answer_and_pai_eq] at hx; subst hx; rfl
  · rcases do_print_body_cases K B ctr j l with ⟨hs, hb⟩ | ⟨hs, st, s1, _, hrest⟩
    · rw [hb] at hx; simp at hx
    · rcases hrest with ⟨_, e', v, s2, hr, ⟨he', hb⟩ | ⟨he', hb⟩⟩ | ⟨_, hb⟩ <;>
      · rw [hb] at hx; simp [answer_and_pai_eq] at hx; subst hx; rfl

/-- Every event of a dispatcher trace that is not the hotplug read or the
hotplug Answer lies in the trace of one loop iteration. -/
theorem dispatch_split (K : Consts) (B : Backend σ) (cmd : Cmd) (uninit : Nat) (ctr : Int)
    (s : σ) (pre post : List Event) (ev : Event)
    (h : (dispatch K B uninit cmd ctr s).trace = pre ++ ev :: post)
    (hev : ev.isTrailer = false) :
    ∃ j l' pre0 bpre bpost post0, (body_of K B cmd ctr j l').trace = bpre ++ ev :: bpost ∧
      pre = pre0 ++ bpre ∧ post = bpost ++ post0 ∧ noSubAtHead post0 := by
  rw [dispatch_eq] at h
  obtain ⟨_, hsplit⟩ := loop_split (body_of K B cmd ctr) (body_noSubAtHead K B cmd ctr)
    K.NUM_COUNTER 0 ⟨0, init_value uninit cmd, s⟩
  by_cases hrc : (for_loop (body_of K B cmd ctr) K.NUM_COUNTER 0
      ⟨0, init_value uninit cmd, s⟩).1.rc = 0
  · simp only [hotplug_tail, if_pos hrc] at h
    rcases append_cons_split _ _ _ _ _ h with ⟨p, hp, hq⟩ | ⟨p, _, hq⟩
    · obtain ⟨j, l', pre0, bpre, bpost, post0, h1, h2, h3, h4⟩ := hsplit _ _ _ hp
      subst hq h3
      exact ⟨j, l', pre0, bpre, bpost, _, h1, h2, List.append_assoc _ _ _,
        noSubAtHead_append _ _ h4 (by intro x hx; simp at hx; subst hx; rfl)⟩
    · have hmem := mem_of_split _ _ _ _ hq
      simp at hmem
      rcases hmem with rfl | rfl <;> simp [Event.isTrailer] at hev
  · simp only [hotplug_tail, if_neg hrc] at h
    exact hsplit _ _ _ h

theorem inPai_not_regular (ev : Event) (h : ev.inPai = true) : ¬ ev.isRegular = true := by
  cases ev <;> simp_all [Event.inPai, Event.isSub, Event.isRegular]
  rename_i site _ _ _
  cases site <;> simp_all [Event.inPai, Event.isSub, Event.isRegular]

theorem answer_and_pai_split (K : Consts) (B : Backend σ) (j st : Int) (l : Loc σ)
    (front bpre bpost : List Event) (ev : Event)
    (h : (answer_and_pai K B j st l front).trace = bpre ++ ev :: bpost)
    (hev : ev.isRegular = true) (hfront : ∀ x ∈ front, ¬ x.isRegular = true) :
    bpre = front ∧ ev = .send_answer .primary j st l.value ∧
      bpost = (pai_tail K B j l).trace := by
  rw [answer_and_pai_eq] at h
  exact split_unique (fun x => x.isRegular = true) bpre bpost front _ ev _ h hev hfront
    (fun x hx => inPai_not_regular x (pai_tail_inPai K B j l x hx))

theorem do_enable_body_regular (K : Consts) (B : Backend σ)
    (hDU : K.DISABLED ≠ K.UNSUPPORTED) (hEU : K.ENABLED ≠ K.UNSUPPORTED)
    (hst : ∀ i s, (B.perf_ctr_state i s).1 = K.UNSUPPORTED ∨
      (B.perf_ctr_state i s).1 = K.DISABLED ∨ (B.perf_ctr_state i s).1 = K.ENABLED)
    (ctr : Int) (j : Nat) (l : Loc σ) (bpre bpost : List Event) (i st : Int) (v : Nat)
    (h : (do_enable_body K B ctr j l).trace = bpre ++ .send_answer .primary i st v :: bpost) :
    (st = K.ENABLED ∨ st = K.UNSUPPORTED) ∧
    ∃ r mid, bpre = .perf_ctr_state i r :: mid ∧
      (∀ x ∈ mid, x = .perf_enable_ctr i 0 ∨ ∃ w, x = .perf_read_ctr i 0 w) ∧
      (st = K.UNSUPPORTED ↔ r = K.UNSUPPORTED) := by
  have hmem := mem_of_split _ _ _ _ h
  have aux : ∀ (st' : Int) (l' : Loc σ) (r : Int) (mid : List Event),
      (st' = K.ENABLED ∨ st' = K.UNSUPPORTED) →
      (∀ x ∈ mid, x = Event.perf_enable_ctr j 0) →
      (enable_read K B j st' l' (.perf_ctr_state j r :: mid)).trace =
        bpre ++ .send_answer .primary i st v :: bpost →
      i = j ∧ st = st' ∧ ∃ mid', bpre = .perf_ctr_state j r :: mid' ∧
        ∀ x ∈ mid', x = .perf_enable_ctr j 0 ∨ ∃ w, x = .perf_read_ctr j 0 w := by
    intro st' l' r mid hst' hmid h'
    have hmem' := mem_of_split _ _ _ _ h'
    have hfront : ∀ x ∈ Event.perf_ctr_state j r :: mid, ¬ x.isRegular = true := by
      intro x hx
      simp at hx
      rcases hx with rfl | hx
      · simp [Event.isRegular]
      · rw [hmid x hx]; simp [Event.isRegular]
    rcases enable_read_cases K B j st' l' (.perf_ctr_state j r :: mid) with
      ⟨_, e', w, s2, hr, ⟨he', hb⟩ | ⟨he', hb⟩⟩ | ⟨_, hb⟩
    · rw [hb] at hmem'
      have hno : ∀ x ∈ (Event.perf_ctr_state j r :: mid) ++
          [Event.perf_read_ctr j e' w, Event.send_answer Site.failed j e' 0],
          ¬ x.isRegular = true := by
        intro x hx
        rcases List.mem_append.1 hx with hx | hx
        · exact hfront x hx
        · simp at hx; rcases hx with rfl | rfl <;> simp [Event.isRegular]
      exact absurd rfl (hno _ hmem')
    · rw [hb] at h'
      obtain ⟨h1, h2, _⟩ := answer_and_pai_split K B j st' _ _ bpre bpost _ h' rfl (by
        intro x hx
        rcases List.mem_append.1 hx with hx | hx
        · exact hfront x hx
        · simp at hx; subst hx; simp [Event.isRegular])
      simp at h2
      refine ⟨h2.1, h2.2.1, mid ++ [.perf_read_ctr j e' w], by simpa using h1, ?_⟩
      intro x hx
      rcases List.mem_append.1 hx with hx | hx
      · left; exact hmid x hx
      · right; simp at hx; subst hx; exact ⟨w, by rw [he']⟩
    · rw [hb] at h'
      obtain ⟨h1, h2, _⟩ := answer_and_pai_split K B j st' _ _ bpre bpost _ h' rfl hfront
      simp at h2
      refine ⟨h2.1, h2.2.1, mid, h1, ?_⟩
      intro x hx
      left; exact hmid x hx
  rcases do_enable_body_cases K B ctr j l with ⟨hs, hb⟩ | ⟨hs, st0, s1, hq, hrest⟩
  · rw [hb] at hmem; simp at hmem
  · rcases hrest with ⟨hd, e', s2, hr, ⟨he', hb⟩ | ⟨he', hb⟩⟩ | ⟨hd, hb⟩
    · rw [hb] at hmem; simp at hmem
    · rw [hb] at h
      subst he'
      obtain ⟨rfl, rfl, mid', h1, h2⟩ := aux K.ENABLED _ st0 [.perf_enable_ctr j 0]
        (Or.inl rfl) (by simp) h
      refine ⟨Or.inl rfl, st0, mid', h1, h2, ?_⟩
      constructor
      · intro hh; exact absurd hh hEU
      · intro hh; exact absurd (hd.symm.trans hh) hDU
    · rw [hb] at h
      have hst0 : st0 = K.ENABLED ∨ st0 = K.UNSUPPORTED := by
        have := hst j l.st
        rw [hq] at this
        rcases this with h' | h' | h'
        · exact Or.inr h'
        · exact absurd h' hd
        · exact Or.inl h'
      obtain ⟨rfl, rfl, mid', h1, h2⟩ := aux st0 _ st0 [] hst0 (by simp) h
      exact ⟨hst0, st, mid', h1, h2, Iff.rfl⟩

/-- C7. In `do_enable`, when `perf_ctr_state` only returns `UNSUPPORTED`,
`DISABLED` or `ENABLED` (three different values): every regular Answer
`(i, st, v)` of the loop has `st = ENABLED` or `st = UNSUPPORTED`, never `DISABLED`;
it comes after the state read `perf_ctr_state(i) = r` of its iteration, with
only successful `perf_enable_ctr(i)` / `perf_read_ctr(i)` calls in between, and
`st = UNSUPPORTED` exactly when `r = UNSUPPORTED`. -/
theorem do_enable_reports_enabled_or_unsupported (K : Consts) (B : Backend σ)
    (hDE : K.DISABLED ≠ K.ENABLED) (hDU : K.DISABLED ≠ K.UNSUPPORTED)
    (hEU : K.ENABLED ≠ K.UNSUPPORTED)
    (hst : ∀ i s, (B.perf_ctr_state i s).1 = K.UNSUPPORTED ∨
      (B.perf_ctr_state i s).1 = K.DISABLED ∨ (B.perf_ctr_state i s).1 = K.ENABLED)
    (ctr : Int) (s : σ) (pre post : List Event) (i st : Int) (v : Nat)
    (htr : (do_enable K B ctr s).trace = pre ++ .send_answer .primary i st v :: post) :
    (st = K.ENABLED ∨ st = K.UNSUPPORTED) ∧ st ≠ K.DISABLED ∧
    ∃ pre0 r mid, pre = pre0 ++ .perf_ctr_state i r :: mid ∧
      (∀ x ∈ mid, x = .perf_enable_ctr i 0 ∨ ∃ w, x = .perf_read_ctr i 0 w) ∧
      (st = K.UNSUPPORTED ↔ r = K.UNSUPPORTED) := by
  obtain ⟨j, l', pre0, bpre, bpost, post0, h1, h2, _, _⟩ :=
    dispatch_split K B Cmd.ENABLE 0 ctr s pre post _ htr rfl
  obtain ⟨hs, r, mid, h3, h4, h5⟩ :=
    do_enable_body_regular K B hDU hEU hst ctr j l' bpre bpost i st v h1
  refine ⟨hs, ?_, pre0, r, mid, by rw [h2, h3], h4, h5⟩
  rcases hs with rfl | rfl
  · exact hDE.symm
  · exact hDU.symm

theorem do_disable_body_regular (K : Consts) (B : Backend σ) (ctr : Int) (j : Nat) (l : Loc σ)
    (bpre bpost : List Event) (i st : Int) (v : Nat)
    (h : (do_disable_body K B ctr j l).trace = bpre ++ .send_answer .primary i st v :: bpost) :
    v = 0 ∧ ∃ r0, bpre = .perf_ctr_state i r0 ::
      ((if r0 = K.ENABLED then [.perf_disable_ctr i 0] else []) ++ [.perf_ctr_state i st]) := by
  have hmem := mem_of_split _ _ _ _ h
  rcases do_disable_body_cases K B ctr j l with ⟨hs, hb⟩ | ⟨hs, st0, s1, hq, hrest⟩
  · rw [hb] at hmem; simp at hmem
  · rcases hrest with ⟨hd, e', s2, hr, ⟨he', hb⟩ | ⟨he', st2, s3, _, hb⟩⟩ | ⟨hd, st2, s3, _, hb⟩
    · rw [hb] at hmem; simp at hmem
    · rw [hb] at h
      simp only at h
      obtain ⟨h1, h2, _⟩ := split_unique (fun x => x.isRegular = true) bpre bpost
        [.perf_ctr_state j st0, .perf_disable_ctr j e', .perf_ctr_state j st2] []
        _ (.send_answer .primary j st2 0) h rfl
        (by intro x hx; simp at hx; rcases hx with rfl | rfl | rfl <;> simp [Event.isRegular])
        (by simp)
      simp at h2
      obtain ⟨rfl, rfl, rfl⟩ := h2
      subst he'
      exact ⟨rfl, st0, by simp [h1, hd]⟩
    · rw [hb] at h
      simp only at h
      obtain ⟨h1, h2, _⟩ := split_unique (fun x => x.isRegular = true) bpre bpost
        [.perf_ctr_state j st0, .perf_ctr_state j st2] []
        _ (.send_answer .primary j st2 0) h rfl
        (by intro x hx; simp at hx; rcases hx with rfl | rfl <;> simp [Event.isRegular])
        (by simp)
      simp at h2
      obtain ⟨rfl, rfl, rfl⟩ := h2
      exact ⟨rfl, st0, by simp [h1, hd]⟩

theorem do_disable_body_noSub (K : Consts) (B : Backend σ) (ctr : Int) (j : Nat) (l : Loc σ) :
    ∀ ev ∈ (do_disable_body K B ctr j l).trace, ev.isSub = false := by
  intro ev hev
  rcases do_disable_body_cases K B ctr j l with ⟨hs, hb⟩ | ⟨hs, st0, s1, hq, hrest⟩
  · rw [hb] at hev; simp at hev
  · rcases hrest with ⟨hd, e', s2, hr, ⟨he', hb⟩ | ⟨he', st2, s3, _, hb⟩⟩ | ⟨hd, st2, s3, _, hb⟩
    · rw [hb] at hev; simp at hev
      rcases hev with rfl | rfl | rfl <;> rfl
    · rw [hb] at hev; simp at hev
      rcases hev with rfl | rfl | rfl | rfl <;> rfl
    · rw [hb] at hev; simp at hev
      rcases hev with rfl | rfl | rfl <;> rfl

theorem do_disable_body_ok (K : Consts) (B : Backend σ)
    (hd : ∀ i s, (B.perf_disable_ctr i s).1 = 0) (ctr : Int) (j : Nat) (l : Loc σ)
    (hl : l.rc = 0) :
    (do_disable_body K B ctr j l).brk = false ∧ (do_disable_body K B ctr j l).loc.rc = 0 ∧
    primaryCtrs (do_disable_body K B ctr j l).trace =
      (if inScope K ctr j then [(j : Int)] else []) := by
  rcases do_disable_body_cases K B ctr j l with ⟨hs, hb⟩ | ⟨hs, st, s1, _, hrest⟩
  · simp [hb, hs, hl, primaryCtrs]
  · rw [if_pos hs]
    rcases hrest with ⟨_, e, s2, hr, ⟨he, _⟩ | ⟨he, st2, s3, _, hb⟩⟩ | ⟨_, st2, s3, _, hb⟩
    · have := hd j s1; rw [hr] at this; exact absurd this he
    · rw [hb]; simp [primaryCtrs, he]
    · rw [hb]; simp [primaryCtrs, hl]

theorem loop_primaryCtrs (K : Consts) (ctr : Int) (body : Nat → Loc σ → Step σ)
    (hbody : ∀ j l, l.rc = 0 → (body j l).brk = false ∧ (body j l).loc.rc = 0 ∧
      primaryCtrs (body j l).trace = (if inScope K ctr j then [(j : Int)] else []))
    (n : Nat) : ∀ (i : Nat) (l : Loc σ), l.rc = 0 →
      (for_loop body n i l).1.rc = 0 ∧
      primaryCtrs (for_loop body n i l).2 =
        ((List.range' i n).map Int.ofNat).filter (fun x => decide (inScope K ctr x)) := by
  induction n with
  | zero => intro i l hl; simp [for_loop, hl, primaryCtrs]
  | succ n ih =>
    intro i l hl
    obtain ⟨hb, hrc, hp⟩ := hbody i l hl
    obtain ⟨ih1, ih2⟩ := ih (i + 1) _ hrc
    simp only [for_loop, hb, Bool.false_eq_true, if_false]
    refine ⟨ih1, ?_⟩
    rw [primaryCtrs_append, hp, ih2, List.range'_succ, List.map_cons, List.filter_cons]
    by_cases hs : inScope K ctr i
    · simp [hs]
    · simp [hs]

theorem enumeration_scope (K : Consts) (ctr : Int) :
    ((List.range' 0 K.NUM_COUNTER).map Int.ofNat).filter (fun x => decide (inScope K ctr x)) =
      (enumeration K).filter (fun i => decide (i = ctr ∨ ctr = K.ALL_COUNTER)) := by
  unfold enumeration
  rw [List.range_eq_range', List.filter_filter]
  apply List.filter_congr
  intro x _
  simp only [inScope]
  by_cases h1 : x = K.ALL_COUNTER <;> by_cases h2 : x = ctr ∨ ctr = K.ALL_COUNTER <;>
    simp [h1, h2]

theorem do_disable_body_primaryCtrs (K : Consts) (B : Backend σ) (ctr : Int) (j : Nat)
    (l : Loc σ) :
    primaryCtrs (do_disable_body K B ctr j l).trace =
      (if inScope K ctr j then [(j : Int)] else []) := by
  rcases do_disable_body_cases K B ctr j l with ⟨hs, hb⟩ | ⟨hs, st, s1, _, hrest⟩
  · simp [hb, hs, primaryCtrs]
  · rw [if_pos hs]
    rcases hrest with ⟨_, e, s2, hr, ⟨he, hb⟩ | ⟨he, st2, s3, _, hb⟩⟩ | ⟨_, st2, s3, _, hb⟩ <;>
    · rw [hb]; simp [primaryCtrs]

theorem loop_primaryCtrs_prefix (K : Consts) (ctr : Int) (body : Nat → Loc σ → Step σ)
    (hbody : ∀ j l, primaryCtrs (body j l).trace = (if inScope K ctr j then [(j : Int)] else []))
    (n : Nat) : ∀ (i : Nat) (l : Loc σ), ∃ t,
      primaryCtrs (for_loop body n i l).2 ++ t =
        ((List.range' i n).map Int.ofNat).filter (fun x => decide (inScope K ctr x)) := by
  induction n with
  | zero => intro i l; exact ⟨[], by simp [for_loop, primaryCtrs]⟩
  | succ n ih =>
    intro i l
    have hp := hbody i l
    have hcons : ((List.range' i (n + 1)).map Int.ofNat).filter
        (fun x => decide (inScope K ctr x)) =
        (if inScope K ctr i then [(i : Int)] else []) ++
          ((List.range' (i + 1) n).map Int.ofNat).filter
            (fun x => decide (inScope K ctr x)) := by
      rw [List.range'_succ, List.map_cons, List.filter_cons]
      by_cases hs : inScope K ctr i
      · simp [hs]
      · simp [hs]
    by_cases hb : (body i l).brk = true
    · simp only [for_loop, hb, if_true]
      exact ⟨_, by rw [hp, hcons]⟩
    · simp only [for_loop, hb, Bool.false_eq_true, if_false]
      obtain ⟨t, ht⟩ := ih (i + 1) (body i l).loc
      exact ⟨t, by rw [primaryCtrs_append, hp, hcons, List.append_assoc, ht]⟩

theorem mem_for_loop_succ (body : Nat → Loc σ → Step σ) (n i : Nat) (l : Loc σ) (ev : Event) :
    ev ∈ (for_loop body (n + 1) i l).2 ↔
      ev ∈ (body i l).trace ∨
        ((body i l).brk = false ∧ ev ∈ (for_loop body n (i + 1) (body i l).loc).2) := by
  by_cases hb : (body i l).brk = true
  · simp [for_loop, hb]
  · simp [for_loop, hb]

theorem do_disable_loop_answers (K : Consts) (B : Backend σ) (ctr : Int) (i : Nat)
    (hs : inScope K ctr i) :
    ∀ (n i0 : Nat) (l : Loc σ), i0 ≤ i → i < i0 + n →
      (∀ c e : Int, c ≤ i →
        Event.perf_disable_ctr c e ∈ (for_loop (do_disable_body K B ctr) n i0 l).2 → e = 0) →
      ∃ st, Event.send_answer .primary i st 0 ∈ (for_loop (do_disable_body K B ctr) n i0 l).2 := by
  intro n
  induction n with
  | zero => intro i0 l h1 h2; omega
  | succ n ih =>
    intro i0 l h1 h2 hno
    have hle : (i0 : Int) ≤ (i : Int) := by exact_mod_cast h1
    have step : (do_disable_body K B ctr i0 l).brk = false → i0 ≠ i →
        ∃ st, Event.send_answer .primary i st 0 ∈
          (for_loop (do_disable_body K B ctr) (n + 1) i0 l).2 := by
      intro hb hne
      obtain ⟨st, hst⟩ := ih (i0 + 1) (do_disable_body K B ctr i0 l).loc (by omega) (by omega)
        (fun c e hc hm => hno c e hc ((mem_for_loop_succ _ _ _ _ _).2 (Or.inr ⟨hb, hm⟩)))
      exact ⟨st, (mem_for_loop_succ _ _ _ _ _).2 (Or.inr ⟨hb, hst⟩)⟩
    rcases do_disable_body_cases K B ctr i0 l with ⟨hns, hb⟩ | ⟨hs0, st, s1, hq, hrest⟩
    · exact step (by rw [hb]) (fun h => hns (h ▸ hs))
    · rcases hrest with ⟨hd, e, s2, hr, ⟨he, hb⟩ | ⟨he, st2, s3, _, hb⟩⟩ | ⟨hd, st2, s3, _, hb⟩
      · exfalso
        apply he
        apply hno i0 e hle
        rw [mem_for_loop_succ, hb]
        left; simp
      · by_cases hi : i0 = i
        · subst hi
          refine ⟨st2, ?_⟩
          rw [mem_for_loop_succ, hb]
          left; simp
        · exact step (by rw [hb]) hi
      · by_cases hi : i0 = i
        · subst hi
          refine ⟨st2, ?_⟩
          rw [mem_for_loop_succ, hb]
          left; simp
        · exact step (by rw [hb]) hi

theorem mem_primaryCtrs (tr : List Event) (c st : Int) (v : Nat)
    (h : Event.send_answer .primary c st v ∈ tr) : c ∈ primaryCtrs tr := by
  obtain ⟨a, b, rfl⟩ := List.append_of_mem h
  rw [primaryCtrs_append]
  simp [primaryCtrs]

theorem do_disable_trace_loop (K : Consts) (B : Backend σ) (ctr : Int) (s : σ) :
    ∃ tail, (do_disable K B ctr s).trace =
      (for_loop (do_disable_body K B ctr) K.NUM_COUNTER 0 ⟨0, 0, s⟩).2 ++ tail := by
  simp only [do_disable, hotplug_tail]
  split_ifs
  · exact ⟨_, rfl⟩
  · exact ⟨[], by simp⟩

theorem do_disable_answer_exists (K : Consts) (B : Backend σ) (ctr : Int) (s : σ) (i : Nat)
    (hi : i < K.NUM_COUNTER) (hs : inScope K ctr i)
    (hno : ∀ c e : Int, c ≤ i →
      Event.perf_disable_ctr c e ∈ (do_disable K B ctr s).trace → e = 0) :
    ∃ st, Event.send_answer .primary i st 0 ∈ (do_disable K B ctr s).trace := by
  obtain ⟨tail, ht⟩ := do_disable_trace_loop K B ctr s
  rw [ht] at hno ⊢
  obtain ⟨st, hst⟩ := do_disable_loop_answers K B ctr i hs K.NUM_COUNTER 0 ⟨0, 0, s⟩
    (Nat.zero_le _) (by omega)
    (fun c e hc hm => hno c e hc (List.mem_append_left _ hm))
  exact ⟨st, List.mem_append_left _ hst⟩

theorem do_disable_primaryCtrs_prefix (K : Consts) (B : Backend σ) (ctr : Int) (s : σ) :
    ∃ t, primaryCtrs (do_disable K B ctr s).trace ++ t =
      (enumeration K).filter (fun i => decide (i = ctr ∨ ctr = K.ALL_COUNTER)) := by
  obtain ⟨t, ht⟩ := loop_primaryCtrs_prefix K ctr (do_disable_body K B ctr)
    (do_disable_body_primaryCtrs K B ctr) K.NUM_COUNTER 0 ⟨0, 0, s⟩
  refine ⟨t, ?_⟩
  rw [← enumeration_scope, ← ht]
  simp only [do_disable, hotplug_tail]
  split_ifs
  · simp [primaryCtrs_append, primaryCtrs]
  · rfl

theorem not_mem_of_nodup_middle (a b : List Int) (x : Int) (h : (a ++ x :: b).Nodup) :
    x ∉ a ∧ x ∉ b := by
  have h2 := List.nodup_middle.1 h
  have h3 := (List.nodup_cons.1 h2).1
  exact ⟨fun hx => h3 (List.mem_append_left _ hx), fun hx => h3 (List.mem_append_right _ hx)⟩

/-- C8. In `do_disable`: no sub-counter is read and no sub-counter Answer is
sent; every regular Answer of the loop is `(i, st, 0)` and comes right after the
calls of its iteration: `perf_ctr_state(i) = r0`, then `perf_disable_ctr(i)`
exactly when `r0 = ENABLED`, then the query `perf_ctr_state(i) = st` whose result
it carries; the loop Answers are for an initial part of the identities in scope
in enumeration order, so never two for one identity.  For every counter `i` in
scope such that no `perf_disable_ctr` call of the run on `i` or on a counter
before `i` returned an error, the trace holds the regular Answer `(i, st, 0)`,
sent right after these calls, and no other loop Answer for `i`, whatever calls
fail for later counters or outside the run; so when no `perf_disable_ctr` call
fails at all there is exactly one for every identity in scope. -/
theorem do_disable_answers_requeried_state (K : Consts) (B : Backend σ) (ctr : Int) (s : σ) :
    (∀ ev ∈ (do_disable K B ctr s).trace, ev.isSub = false) ∧
    (∀ (pre post : List Event) (i st : Int) (v : Nat),
      (do_disable K B ctr s).trace = pre ++ .send_answer .primary i st v :: post →
      v = 0 ∧ ∃ pre0 r0, pre = pre0 ++ .perf_ctr_state i r0 ::
        ((if r0 = K.ENABLED then [.perf_disable_ctr i 0] else []) ++
          [.perf_ctr_state i st])) ∧
    (∃ t, primaryCtrs (do_disable K B ctr s).trace ++ t =
      (enumeration K).filter (fun i => decide (i = ctr ∨ ctr = K.ALL_COUNTER))) ∧
    (∀ i : Nat, i < K.NUM_COUNTER → (i : Int) ≠ K.ALL_COUNTER →
      ((i : Int) = ctr ∨ ctr = K.ALL_COUNTER) →
      (∀ c e : Int, c ≤ i →
        Event.perf_disable_ctr c e ∈ (do_disable K B ctr s).trace → e = 0) →
      ∃ pre post st,
        (do_disable K B ctr s).trace = pre ++ .send_answer .primary i st 0 :: post ∧
        (i : Int) ∉ primaryCtrs pre ∧ (i : Int) ∉ primaryCtrs post ∧
        ∃ pre0 r0, pre = pre0 ++ .perf_ctr_state i r0 ::
          ((if r0 = K.ENABLED then [.perf_disable_ctr i 0] else []) ++
            [.perf_ctr_state i st])) ∧
    ((∀ i s', (B.perf_disable_ctr i s').1 = 0) →
      primaryCtrs (do_disable K B ctr s).trace =
        (enumeration K).filter (fun i => decide (i = ctr ∨ ctr = K.ALL_COUNTER))) := by
  refine ⟨?_, ?_, do_disable_primaryCtrs_prefix K B ctr s, ?_, ?_⟩
  · intro ev hev
    have hloop := for_loop_forall (do_disable_body K B ctr) (fun ev => ev.isSub = false)
      (do_disable_body_noSub K B ctr) K.NUM_COUNTER 0 ⟨0, 0, s⟩
    simp only [do_disable, hotplug_tail] at hev
    split_ifs at hev
    · simp at hev
      rcases hev with hev | rfl | rfl
      · exact hloop ev hev
      · rfl
      · rfl
    · exact hloop ev hev
  · intro pre post i st v htr
    obtain ⟨j, l', pre0, bpre, bpost, post0, h1, h2, _, _⟩ :=
      dispatch_split K B Cmd.DISABLE 0 ctr s pre post _ htr rfl
    obtain ⟨hv, r0, h3⟩ := do_disable_body_regular K B ctr j l' bpre bpost i st v h1
    exact ⟨hv, pre0, r0, by rw [h2, h3]⟩
  · intro i hi hall hsc hno
    obtain ⟨st, hst⟩ := do_disable_answer_exists K B ctr s i hi ⟨hall, hsc⟩ hno
    obtain ⟨pre, post, htr⟩ := List.append_of_mem hst
    obtain ⟨t, ht⟩ := do_disable_primaryCtrs_prefix K B ctr s
    have hnd : (primaryCtrs (do_disable K B ctr s).trace).Nodup := by
      have : (primaryCtrs (do_disable K B ctr s).trace ++ t).Nodup := by
        rw [ht]; exact (enumeration_nodup K).filter _
      exact List.Nodup.of_append_left this
    rw [htr, primaryCtrs_append] at hnd
    have hnd2 : (primaryCtrs pre ++ (i : Int) :: primaryCtrs post).Nodup := by
      simpa [primaryCtrs] using hnd
    obtain ⟨j, l', pre0, bpre, bpost, post0, h1, h2, _, _⟩ :=
      dispatch_split K B Cmd.DISABLE 0 ctr s pre post _ htr rfl
    obtain ⟨_, r0, h3⟩ := do_disable_body_regular K B ctr j l' bpre bpost i st 0 h1
    exact ⟨pre, post, st, htr, (not_mem_of_nodup_middle _ _ _ hnd2).1,
      (not_mem_of_nodup_middle _ _ _ hnd2).2, pre0, r0, by rw [h2, h3]⟩
  · intro hd
    obtain ⟨h1, h2⟩ := loop_primaryCtrs K ctr (do_disable_body K B ctr)
      (do_disable_body_ok K B hd ctr) K.NUM_COUNTER 0 ⟨0, 0, s⟩ rfl
    simp only [do_disable, hotplug_tail, if_pos h1]
    rw [primaryCtrs_append, h2, enumeration_scope]
    simp [primaryCtrs]

theorem inPai_not_mut (ev : Event) (h : ev.inPai = true) : ev.isMutOp = false := by
  cases ev <;> simp_all [Event.inPai, Event.isSub, Event.isMutOp]

theorem answer_and_pai_mut (K : Consts) (B : Backend σ) (i st : Int) (l : Loc σ)
    (front : List Event) :
    ∃ rest, (answer_and_pai K B i st l front).trace = front ++ rest ∧
      ∀ x ∈ rest, x.isMutOp = false := by
  rw [answer_and_pai_eq]
  refine ⟨_, rfl, ?_⟩
  intro x hx
  simp at hx
  rcases hx with rfl | hx
  · rfl
  · exact inPai_not_mut x (pai_tail_inPai K B i l x hx)

theorem enable_read_mut (K : Consts) (B : Backend σ) (i st : Int) (l : Loc σ)
    (front : List Event) :
    ∃ rest, (enable_read K B i st l front).trace = front ++ rest ∧
      ∀ x ∈ rest, x.isMutOp = false := by
  rcases enable_read_cases K B i st l front with
    ⟨_, e', w, s2, hr, ⟨he', hb⟩ | ⟨he', hb⟩⟩ | ⟨_, hb⟩
  · rw [hb]
    refine ⟨_, rfl, ?_⟩
    intro x hx
    simp at hx
    rcases hx with rfl | rfl <;> rfl
  · rw [hb]
    obtain ⟨rest, h1, h2⟩ := answer_and_pai_mut K B i st ⟨e', w, s2⟩
      (front ++ [.perf_read_ctr i e' w])
    refine ⟨.perf_read_ctr i e' w :: rest, by rw [h1]; simp, ?_⟩
    intro x hx
    simp at hx
    rcases hx with rfl | hx
    · rfl
    · exact h2 x hx
  · rw [hb]
    exact answer_and_pai_mut K B i st l front

theorem body_mut_shape (K : Consts) (B : Backend σ) (cmd : Cmd) (ctr : Int) (j : Nat)
    (l : Loc σ) :
    (body_of K B cmd ctr j l).trace = [] ∨
    ∃ r rest, (body_of K B cmd ctr j l).trace = .perf_ctr_state j r :: rest ∧
      ((∀ x ∈ rest, x.isMutOp = false) ∨
        ∃ op rest', rest = op :: rest' ∧ (∀ x ∈ rest', x.isMutOp = false) ∧
          opAllowed K cmd j r op) := by
  cases cmd <;> simp only [body_of]
  · rcases do_enable_body_cases K B ctr j l with ⟨hs, hb⟩ | ⟨hs, st0, s1, hq, hrest⟩
    · left; rw [hb]
    · right
      rcases hrest with ⟨hd, e', s2, hr, ⟨he', hb⟩ | ⟨he', hb⟩⟩ | ⟨hd, hb⟩
      · rw [hb]
        refine ⟨st0, _, rfl, Or.inr ⟨_, _, rfl, ?_, Or.inl ⟨rfl, hd, e', rfl⟩⟩⟩
        intro x hx
        simp at hx
        subst hx; rfl
      · rw [hb]
        obtain ⟨rest, h1, h2⟩ := enable_read_mut K B j K.ENABLED ⟨e', l.value, s2⟩
          [.perf_ctr_state j st0, .perf_enable_ctr j e']
        refine ⟨st0, .perf_enable_ctr j e' :: rest, by rw [h1]; simp,
          Or.inr ⟨_, _, rfl, h2, Or.inl ⟨rfl, hd, e', rfl⟩⟩⟩
      · rw [hb]
        obtain ⟨rest, h1, h2⟩ := enable_read_mut K B j st0 ⟨l.rc, l.value, s1⟩
          [.perf_ctr_state j st0]
        exact ⟨st0, rest, by rw [h1]; simp, Or.inl h2⟩
  · rcases do_disable_body_cases K B ctr j l with ⟨hs, hb⟩ | ⟨hs, st0, s1, hq, hrest⟩
    · left; rw [hb]
    · right
      rcases hrest with ⟨hd, e', s2, hr, ⟨he', hb⟩ | ⟨he', st2, s3, _, hb⟩⟩ | ⟨hd, st2, s3, _, hb⟩
      · rw [hb]
        refine ⟨st0, _, rfl, Or.inr ⟨_, _, rfl, ?_, Or.inr (Or.inl ⟨rfl, hd, e', rfl⟩)⟩⟩
        intro x hx
        simp at hx
        subst hx; rfl
      · rw [hb]
        refine ⟨st0, _, rfl, Or.inr ⟨_, _, rfl, ?_, Or.inr (Or.inl ⟨rfl, hd, e', rfl⟩)⟩⟩
        intro x hx
        simp at hx
        rcases hx with rfl | rfl <;> rfl
      · rw [hb]
        refine ⟨st0, _, rfl, Or.inl ?_⟩
        intro x hx
        simp at hx
        rcases hx with rfl | rfl <;> rfl
  · rcases do_reset_body_cases K B ctr j l with ⟨hs, hb⟩ | ⟨hs, st0, s1, hq, hrest⟩
    · left; rw [hb]
    · right
      rcases hrest with ⟨hd, e', v, s2, hr, ⟨he', hb⟩ | ⟨he', hb⟩⟩ | ⟨hd, hb⟩
      · rw [hb]
        refine ⟨st0, _, rfl, Or.inr ⟨_, _, rfl, ?_, Or.inr (Or.inr ⟨rfl, hd, e', v, rfl⟩)⟩⟩
        intro x hx
        simp at hx
        subst hx; rfl
      · rw [hb]
        obtain ⟨rest, h1, h2⟩ := answer_and_pai_mut K B j st0 ⟨e', v, s2⟩
          [.perf_ctr_state j st0, .perf_reset_ctr j e' v]
        refine ⟨st0, .perf_reset_ctr j e' v :: rest, by rw [h1]; simp,
          Or.inr ⟨_, _, rfl, h2, Or.inr (Or.inr ⟨rfl, hd, e', v, rfl⟩)⟩⟩
      · rw [hb]
        obtain ⟨rest, h1, h2⟩ := answer_and_pai_mut K B j st0 ⟨l.rc, l.value, s1⟩
          [.perf_ctr_state j st0]
        exact ⟨st0, rest, by rw [h1]; simp, Or.inl h2⟩
  · rcases do_print_body_cases K B ctr j l with ⟨hs, hb⟩ | ⟨hs, st0, s1, hq, hrest⟩
    · left; rw [hb]
    · right
      rcases hrest with ⟨hd, e', v, s2, hr, ⟨he', hb⟩ | ⟨he', hb⟩⟩ | ⟨hd, hb⟩
      · rw [hb]
        refine ⟨st0, _, rfl, Or.inl ?_⟩
        intro x hx
        simp at hx
        rcases hx with rfl | rfl <;> rfl
      · rw [hb]
        obtain ⟨rest, h1, h2⟩ := answer_and_pai_mut K B j st0 ⟨e', v, s2⟩
          [.perf_ctr_state j st0, .perf_read_ctr j e' v]
        refine ⟨st0, .perf_read_ctr j e' v :: rest, by rw [h1]; simp, Or.inl ?_⟩
        intro x hx
        simp at hx
        rcases hx with rfl | hx
        · rfl
        · exact h2 x hx
      · rw [hb]
        obtain ⟨rest, h1, h2⟩ := answer_and_pai_mut K B j st0 ⟨l.rc, l.value, s1⟩
          [.perf_ctr_state j st0]
        exact ⟨st0, rest, by rw [h1]; simp, Or.inl h2⟩

theorem body_mut_split (K : Consts) (B : Backend σ) (cmd : Cmd) (ctr : Int) (j : Nat)
    (l : Loc σ) (bpre bpost : List Event) (ev : Event)
    (h : (body_of K B cmd ctr j l).trace = bpre ++ ev :: bpost) (hev : ev.isMutOp = true) :
    ∃ r, bpre = [.perf_ctr_state j r] ∧ opAllowed K cmd j r ev := by
  have hmem := mem_of_split _ _ _ _ h
  rcases body_mut_shape K B cmd ctr j l with hnil | ⟨r, rest, htr, hno | ⟨op, rest', hr, hno, hop⟩⟩
  · rw [hnil] at hmem; simp at hmem
  · rw [htr] at hmem
    simp at hmem
    rcases hmem with rfl | hmem
    · simp [Event.isMutOp] at hev
    · rw [hno ev hmem] at hev; simp at hev
  · rw [htr, hr] at h
    obtain ⟨h1, h2, _⟩ := split_unique (fun x => x.isMutOp = true) bpre bpost
      [.perf_ctr_state j r] rest' ev op h hev
      (by intro x hx; simp at hx; subst hx; simp [Event.isMutOp])
      (by intro x hx; simp [hno x hx])
    exact ⟨r, h1, h2 ▸ hop⟩

/-- C10. The counter state machine in the call trace of every request:
`perf_enable_ctr(i)` is called only by ENABLE and right after
`perf_ctr_state(i)` returned `DISABLED`; `perf_disable_ctr(i)` only by DISABLE and
right after `perf_ctr_state(i)` returned `ENABLED`; `perf_reset_ctr(i)` only by RESET
and right after `perf_ctr_state(i)` returned `ENABLED` (so RESET and PRINT never
enable or disable); and, `UNSUPPORTED` being different from `DISABLED` and
`ENABLED`, none of the three is called on a counter whose state was just read
as `UNSUPPORTED`. -/
theorem dispatch_respects_state_machine (K : Consts) (B : Backend σ)
    (hDU : K.DISABLED ≠ K.UNSUPPORTED) (hEU : K.ENABLED ≠ K.UNSUPPORTED) (cmd : Cmd)
    (uninit : Nat) (ctr : Int) (s : σ) (pre post : List Event) (ev : Event)
    (htr : (dispatch K B uninit cmd ctr s).trace = pre ++ ev :: post) :
    (∀ i rc, ev = .perf_enable_ctr i rc →
      cmd = .ENABLE ∧ ∃ pre0, pre = pre0 ++ [.perf_ctr_state i K.DISABLED]) ∧
    (∀ i rc, ev = .perf_disable_ctr i rc →
      cmd = .DISABLE ∧ ∃ pre0, pre = pre0 ++ [.perf_ctr_state i K.ENABLED]) ∧
    (∀ i rc v, ev = .perf_reset_ctr i rc v →
      cmd = .RESET ∧ ∃ pre0, pre = pre0 ++ [.perf_ctr_state i K.ENABLED]) ∧
    (∀ i, (∃ rc, ev = .perf_enable_ctr i rc) ∨ (∃ rc, ev = .perf_disable_ctr i rc) ∨
        (∃ rc v, ev = .perf_reset_ctr i rc v) →
      ∃ pre0 r, pre = pre0 ++ [.perf_ctr_state i r] ∧ r ≠ K.UNSUPPORTED) := by
  have key : ev.isMutOp = true → ∃ j : Nat, ∃ pre0 r,
      pre = pre0 ++ [.perf_ctr_state j r] ∧ opAllowed K cmd j r ev := by
    intro hev
    have hnt : ev.isTrailer = false := by
      cases ev <;> simp_all [Event.isMutOp, Event.isTrailer]
    obtain ⟨j, l', pre0, bpre, bpost, post0, h1, h2, _, _⟩ :=
      dispatch_split K B cmd uninit ctr s pre post ev htr hnt
    obtain ⟨r, h3, h4⟩ := body_mut_split K B cmd ctr j l' bpre bpost ev h1 hev
    exact ⟨j, pre0, r, by rw [h2, h3], h4⟩
  have hen : ∀ i rc, ev = .perf_enable_ctr i rc →
      cmd = .ENABLE ∧ ∃ pre0, pre = pre0 ++ [.perf_ctr_state i K.DISABLED] := by
    intro i rc hev
    obtain ⟨j, pre0, r, h1, h2⟩ := key (by rw [hev]; rfl)
    subst hev
    rcases h2 with ⟨hc, hr, rc', h⟩ | ⟨_, _, rc', h⟩ | ⟨_, _, rc', v', h⟩
    · simp at h
      exact ⟨hc, pre0, by rw [h1, hr, h.1]⟩
    · simp at h
    · simp at h
  have hdis : ∀ i rc, ev = .perf_disable_ctr i rc →
      cmd = .DISABLE ∧ ∃ pre0, pre = pre0 ++ [.perf_ctr_state i K.ENABLED] := by
    intro i rc hev
    obtain ⟨j, pre0, r, h1, h2⟩ := key (by rw [hev]; rfl)
    subst hev
    rcases h2 with ⟨_, _, rc', h⟩ | ⟨hc, hr, rc', h⟩ | ⟨_, _, rc', v', h⟩
    · simp at h
    · simp at h
      exact ⟨hc, pre0, by rw [h1, hr, h.1]⟩
    · simp at h
  have hres : ∀ i rc v, ev = .perf_reset_ctr i rc v →
      cmd = .RESET ∧ ∃ pre0, pre = pre0 ++ [.perf_ctr_state i K.ENABLED] := by
    intro i rc v hev
    obtain ⟨j, pre0, r, h1, h2⟩ := key (by rw [hev]; rfl)
    subst hev
    rcases h2 with ⟨_, _, rc', h⟩ | ⟨_, _, rc', h⟩ | ⟨hc, hr, rc', v', h⟩
    · simp at h
    · simp at h
    · simp at h
      exact ⟨hc, pre0, by rw [h1, hr, h.1]⟩
  refine ⟨hen, hdis, hres, ?_⟩
  rintro i (⟨rc, h⟩ | ⟨rc, h⟩ | ⟨rc, v, h⟩)
  · obtain ⟨_, pre0, hp⟩ := hen i rc h
    exact ⟨pre0, _, hp, hDU⟩
  · obtain ⟨_, pre0, hp⟩ := hdis i rc h
    exact ⟨pre0, _, hp, hEU⟩
  · obtain ⟨_, pre0, hp⟩ := hres i rc v h
    exact ⟨pre0, _, hp, hEU⟩

theorem subEvents_congr (user state : Int) (vs vs' : Nat → Nat) (m : Nat) :
    ∀ i, (∀ j, i ≤ j → vs j = vs' j) →
      subEvents user state vs i m = subEvents user state vs' i m := by
  induction m with
  | zero => intro i _; rfl
  | succ m ih =>
    intro i h
    simp only [subEvents]
    rw [h i (le_refl i), ih (i + 1) (fun j hj => h j (by omega))]

theorem pai_loop_nofail (B : Backend σ) (hB : B.NoFail) (user state : Int) (m : Nat) :
    ∀ (i : Nat) (l : Loc σ), ∃ vs : Nat → Nat,
      (for_loop (do_send_pai_body B user state) m i l).2 = subEvents user state vs i m := by
  induction m with
  | zero => intro i l; exact ⟨fun _ => 0, rfl⟩
  | succ m ih =>
    intro i l
    have h0 := hB.2.2.2.2 i user l.st
    obtain ⟨vs, hvs⟩ := ih (i + 1)
      ⟨0, (B.perf_read_pai_ctr i user l.st).2.1, (B.perf_read_pai_ctr i user l.st).2.2⟩
    refine ⟨fun j => if j = i then (B.perf_read_pai_ctr i user l.st).2.1 else vs j, ?_⟩
    have hc : subEvents user state
        (fun j => if j = i then (B.perf_read_pai_ctr i user l.st).2.1 else vs j) (i + 1) m =
        subEvents user state vs (i + 1) m := by
      apply subEvents_congr
      intro j hj
      have : j ≠ i := by omega
      simp [this]
    simp only [for_loop, do_send_pai_body, h0, subEvents, hc]
    simp [hvs]

theorem do_send_pai_nofail_shape (K : Consts) (B : Backend σ) (hB : B.NoFail) (user : Int)
    (s : σ) :
    ∃ r, (r = K.ENABLED ∧ ∃ vs : Nat → Nat, (do_send_pai K B user s).trace =
          .perf_ctr_state (pai_ctr K user) r ::
            subEvents user K.ENABLED vs 0 (pai_max K user)) ∨
      (r ≠ K.ENABLED ∧ (do_send_pai K B user s).trace = [.perf_ctr_state (pai_ctr K user) r]) := by
  refine ⟨(B.perf_ctr_state (pai_ctr K user) s).1, ?_⟩
  rw [do_send_pai_eq]
  by_cases h : (B.perf_ctr_state (pai_ctr K user) s).1 = K.ENABLED
  · left
    obtain ⟨vs, hvs⟩ := pai_loop_nofail B hB user (B.perf_ctr_state (pai_ctr K user) s).1
      (pai_max K user) 0 ⟨0, 0, (B.perf_ctr_state (pai_ctr K user) s).2⟩
    refine ⟨h, vs, ?_⟩
    rw [if_neg (not_not.2 h)]
    rw [h] at hvs
    simp only [hvs, h]
  · right
    refine ⟨h, ?_⟩
    rw [if_pos h]

theorem body_regular_split (K : Consts) (B : Backend σ) (cmd : Cmd) (hcmd : cmd ≠ .DISABLE)
    (ctr : Int) (j : Nat) (l : Loc σ) (bpre bpost : List Event) (i st : Int) (v : Nat)
    (h : (body_of K B cmd ctr j l).trace = bpre ++ .send_answer .primary i st v :: bpost) :
    i = j ∧ ∃ l' : Loc σ, bpost = (pai_tail K B i l').trace := by
  have hmem := mem_of_split _ _ _ _ h
  have hpai : ∀ (st' : Int) (l' : Loc σ) (front : List Event),
      (∀ x ∈ front, ¬ x.isRegular = true) →
      (answer_and_pai K B j st' l' front).trace =
        bpre ++ .send_answer .primary i st v :: bpost →
      i = j ∧ ∃ l' : Loc σ, bpost = (pai_tail K B i l').trace := by
    intro st' l' front hf h'
    obtain ⟨_, h2, h3⟩ := answer_and_pai_split K B j st' l' front bpre bpost _ h' rfl hf
    simp at h2
    obtain ⟨rfl, _, _⟩ := h2
    exact ⟨rfl, l', h3⟩
  cases cmd
  · simp only [body_of] at h hmem
    have aux : ∀ (st' : Int) (l' : Loc σ) (front : List Event),
        (∀ x ∈ front, ¬ x.isRegular = true) →
        (enable_read K B j st' l' front).trace =
          bpre ++ .send_answer .primary i st v :: bpost →
        i = j ∧ ∃ l' : Loc σ, bpost = (pai_tail K B i l').trace := by
      intro st' l' front hf h'
      have hmem' := mem_of_split _ _ _ _ h'
      rcases enable_read_cases K B j st' l' front with
        ⟨_, e', w, s2, hr, ⟨he', hb⟩ | ⟨he', hb⟩⟩ | ⟨_, hb⟩
      · rw [hb] at hmem'
        rcases List.mem_append.1 hmem' with hx | hx
        · exact absurd rfl (hf _ hx)
        · simp at hx
      · rw [hb] at h'
        refine hpai _ _ _ ?_ h'
        intro x hx
        rcases List.mem_append.1 hx with hx | hx
        · exact hf x hx
        · simp at hx; subst hx; simp [Event.isRegular]
      · rw [hb] at h'
        exact hpai _ _ _ hf h'
    rcases do_enable_body_cases K B ctr j l with ⟨hs, hb⟩ | ⟨hs, st0, s1, hq, hrest⟩
    · rw [hb] at hmem; simp at hmem
    · rcases hrest with ⟨hd, e', s2, hr, ⟨he', hb⟩ | ⟨he', hb⟩⟩ | ⟨hd, hb⟩
      · rw [hb] at hmem; simp at hmem
      · rw [hb] at h
        refine aux _ _ _ ?_ h
        intro x hx
        simp at hx
        rcases hx with rfl | rfl <;> simp [Event.isRegular]
      · rw [hb] at h
        refine aux _ _ _ ?_ h
        intro x hx
        simp at hx
        subst hx; simp [Event.isRegular]
  · exact absurd rfl hcmd
  · simp only [body_of] at h hmem
    rcases do_reset_body_cases K B ctr j l with ⟨hs, hb⟩ | ⟨hs, st0, s1, hq, hrest⟩
    · rw [hb] at hmem; simp at hmem
    · rcases hrest with ⟨hd, e', w, s2, hr, ⟨he', hb⟩ | ⟨he', hb⟩⟩ | ⟨hd, hb⟩
      · rw [hb] at hmem; simp at hmem
      · rw [hb] at h
        refine hpai _ _ _ ?_ h
        intro x hx
        simp at hx
        rcases hx with rfl | rfl <;> simp [Event.isRegular]
      · rw [hb] at h
        refine hpai _ _ _ ?_ h
        intro x hx
        simp at hx
        subst hx; simp [Event.isRegular]
  · simp only [body_of] at h hmem
    rcases do_print_body_cases K B ctr j l with ⟨hs, hb⟩ | ⟨hs, st0, s1, hq, hrest⟩
    · rw [hb] at hmem; simp at hmem
    · rcases hrest with ⟨hd, e', w, s2, hr, ⟨he', hb⟩ | ⟨he', hb⟩⟩ | ⟨hd, hb⟩
      · rw [hb] at hmem; simp at hmem
      · rw [hb] at h
        refine hpai _ _ _ ?_ h
        intro x hx
        simp at hx
        rcases hx with rfl | rfl <;> simp [Event.isRegular]
      · rw [hb] at h
        refine hpai _ _ _ ?_ h
        intro x hx
        simp at hx
        subst hx; simp [Event.isRegular]

/-- C9, amended. On a backend in which no call fails, for ENABLE, RESET and
PRINT and a regular Answer `(i, st, v)` of the loop: when `i` is `PAI_USER` or
`PAI_KERNEL` the next event is a new query `perf_ctr_state(i) = r`; when `r` is
`ENABLED` it is followed by exactly `n` sub-counter reads and Answers
`(k, ENABLED, value of k)`, `k = 0 .. n-1` in ascending order (`n = NUM_PAI_USER`,
resp. `NUM_PAI_KERNEL`), and when `r` is not `ENABLED` by none: what comes next
does not start with a sub-counter read or Answer.  When `i` is not a composite
identity, no sub-counter read or Answer follows its Answer. -/
theorem sub_answers_follow_requeried_state (K : Consts) (B : Backend σ) (hB : B.NoFail)
    (hdist : K.PAI_USER ≠ K.PAI_KERNEL) (cmd : Cmd) (hcmd : cmd ≠ .DISABLE) (uninit : Nat)
    (ctr : Int) (s : σ) (pre post : List Event) (i st : Int) (v : Nat)
    (htr : (dispatch K B uninit cmd ctr s).trace =
      pre ++ .send_answer .primary i st v :: post) :
    (∀ (u : Int) (n : Nat),
      (i = K.PAI_USER ∧ u = 1 ∧ n = K.NUM_PAI_USER) ∨
        (i = K.PAI_KERNEL ∧ u = 0 ∧ n = K.NUM_PAI_KERNEL) →
      ∃ r rest, noSubAtHead rest ∧
        ((r = K.ENABLED ∧ ∃ vs : Nat → Nat,
            post = .perf_ctr_state i r :: (subEvents u K.ENABLED vs 0 n ++ rest)) ∨
          (r ≠ K.ENABLED ∧ post = .perf_ctr_state i r :: rest))) ∧
    (i ≠ K.PAI_USER → i ≠ K.PAI_KERNEL → noSubAtHead post) := by
  obtain ⟨j, l', pre0, bpre, bpost, post0, h1, _, h3, h4⟩ :=
    dispatch_split K B cmd uninit ctr s pre post _ htr rfl
  obtain ⟨_, l'', h5⟩ := body_regular_split K B cmd hcmd ctr j l' bpre bpost i st v h1
  constructor
  · rintro u n (⟨hi, rfl, rfl⟩ | ⟨hi, rfl, rfl⟩)
    · have hnk : i ≠ K.PAI_KERNEL := by rw [hi]; exact hdist
      have ht : (pai_tail K B i l'').trace = (do_send_pai K B 1 l''.st).trace := by
        simp [pai_tail, hi, hdist]
      obtain ⟨r, ⟨hr, vs, hs⟩ | ⟨hr, hs⟩⟩ := do_send_pai_nofail_shape K B hB 1 l''.st
      · refine ⟨r, post0, h4, Or.inl ⟨hr, vs, ?_⟩⟩
        rw [h3, h5, ht, hs]
        simp [pai_ctr, pai_max, hi]
      · refine ⟨r, post0, h4, Or.inr ⟨hr, ?_⟩⟩
        rw [h3, h5, ht, hs]
        simp [pai_ctr, hi]
    · have hnu : i ≠ K.PAI_USER := by rw [hi]; exact hdist.symm
      have ht : (pai_tail K B i l'').trace = (do_send_pai K B 0 l''.st).trace := by
        simp [pai_tail, hi, hdist.symm]
      obtain ⟨r, ⟨hr, vs, hs⟩ | ⟨hr, hs⟩⟩ := do_send_pai_nofail_shape K B hB 0 l''.st
      · refine ⟨r, post0, h4, Or.inl ⟨hr, vs, ?_⟩⟩
        rw [h3, h5, ht, hs]
        simp [pai_ctr, pai_max, hi]
      · refine ⟨r, post0, h4, Or.inr ⟨hr, ?_⟩⟩
        rw [h3, h5, ht, hs]
        simp [pai_ctr, hi]
  · intro hu hk
    rw [h3, h5, pai_tail_not_composite K B i l'' hu hk]
    simpa using h4

theorem racingBackend_noFail : racingBackend.NoFail :=
  ⟨fun _ _ => rfl, fun _ _ => rfl, fun _ _ => rfl, fun _ _ => rfl, fun _ _ _ => rfl⟩

/-- C9 as stated fails: no call fails, `do_print` with scope `PAI_USER` = 6 sends
the primary Answer `(6, DISABLED, 0)` (`DISABLED` = 0), and that Answer is
immediately followed by the five sub-counter Answers, because `do_send_pai`
queries the state again and gets `ENABLED` = 1. -/
theorem sub_answers_follow_a_disabled_answer :
    racingBackend.NoFail ∧
    (dispatch exampleConsts racingBackend 0 Cmd.PRINT exampleConsts.PAI_USER 0).trace =
      [.perf_ctr_state 6 exampleConsts.DISABLED,
        .send_answer .primary 6 exampleConsts.DISABLED 0,
        .perf_ctr_state 6 exampleConsts.ENABLED,
        .perf_read_pai_ctr 0 1 0 10, .send_answer .sub 0 exampleConsts.ENABLED 10,
        .perf_read_pai_ctr 1 1 0 20, .send_answer .sub 1 exampleConsts.ENABLED 20,
        .perf_read_pai_ctr 2 1 0 30, .send_answer .sub 2 exampleConsts.ENABLED 30,
        .perf_read_pai_ctr 3 1 0 40, .send_answer .sub 3 exampleConsts.ENABLED 40,
        .perf_read_pai_ctr 4 1 0 50, .send_answer .sub 4 exampleConsts.ENABLED 50,
        .hotplug_read 8 0 0, .send_answer .hotplug 8 0 0] ∧
    exampleConsts.DISABLED ≠ exampleConsts.ENABLED :=
  ⟨racingBackend_noFail, by decide, by decide⟩

/-- Witness of the amended C9: PRINT with scope `PAI_USER` = 6 on the example
backend, the composite being enabled at both queries: five sub-counter reads
and Answers follow the new state query. -/
theorem sub_answers_follow_requeried_state_witness :
    (dispatch exampleConsts (exampleBackend 0 (-1) 0) 0 Cmd.PRINT 6
        [2, 2, 2, 2, 2, 2, 1, 1]).trace =
      [.perf_ctr_state 6 1, .perf_read_ctr 6 0 106] ++ .send_answer .primary 6 1 106 ::
        [.perf_ctr_state 6 1,
          .perf_read_pai_ctr 0 1 0 1, .send_answer .sub 0 1 1,
          .perf_read_pai_ctr 1 1 0 11, .send_answer .sub 1 1 11,
          .perf_read_pai_ctr 2 1 0 21, .send_answer .sub 2 1 21,
          .perf_read_pai_ctr 3 1 0 31, .send_answer .sub 3 1 31,
          .perf_read_pai_ctr 4 1 0 41, .send_answer .sub 4 1 41,
          .hotplug_read 8 0 0, .send_answer .hotplug 8 0 0] ∧
    ∃ r rest, noSubAtHead rest ∧
      ((r = exampleConsts.ENABLED ∧ ∃ vs : Nat → Nat,
          [.perf_ctr_state 6 1,
            .perf_read_pai_ctr 0 1 0 1, .send_answer .sub 0 1 1,
            .perf_read_pai_ctr 1 1 0 11, .send_answer .sub 1 1 11,
            .perf_read_pai_ctr 2 1 0 21, .send_answer .sub 2 1 21,
            .perf_read_pai_ctr 3 1 0 31, .send_answer .sub 3 1 31,
            .perf_read_pai_ctr 4 1 0 41, .send_answer .sub 4 1 41,
            .hotplug_read 8 0 0, .send_answer .hotplug 8 0 0] =
          .perf_ctr_state 6 r :: (subEvents 1 exampleConsts.ENABLED vs 0 5 ++ rest)) ∨
        (r ≠ exampleConsts.ENABLED ∧
          [.perf_ctr_state 6 1,
            .perf_read_pai_ctr 0 1 0 1, .send_answer .sub 0 1 1,
            .perf_read_pai_ctr 1 1 0 11, .send_answer .sub 1 1 11,
            .perf_read_pai_ctr 2 1 0 21, .send_answer .sub 2 1 21,
            .perf_read_pai_ctr 3 1 0 31, .send_answer .sub 3 1 31,
            .perf_read_pai_ctr 4 1 0 41, .send_answer .sub 4 1 41,
            .hotplug_read 8 0 0, .send_answer .hotplug 8 0 0] = .perf_ctr_state 6 r :: rest)) :=
  ⟨by decide,
    (sub_answers_follow_requeried_state exampleConsts (exampleBackend 0 (-1) 0)
      exampleBackend_noFail (by decide) Cmd.PRINT (by decide) 0 6 [2, 2, 2, 2, 2, 2, 1, 1]
      [.perf_ctr_state 6 1, .perf_read_ctr 6 0 106] _ 6 1 106 (by decide)).1 1 5
      (Or.inl ⟨rfl, rfl, rfl⟩)⟩

/-- C5, evaluated: `do_reset` with scope `ALL_COUNTER` where counter 0 is enabled
(its reset returns 100) and counter 1 is disabled: the Answer for counter 1 is
`(1, DISABLED, 100)`, not `(1, DISABLED, 0)`, and so is every later one.  With scope
counter 1 alone the value sent is the content `u` of the local `value`, which
nothing initialised. -/
theorem do_reset_sends_stale_value :
    answers (do_reset exampleConsts (exampleBackend 0 (-1) 0) 0 exampleConsts.ALL_COUNTER
      [1, 0, 2, 2, 2, 2, 2, 2]).trace =
      [(0, 1, 100), (1, 0, 100), (2, 2, 100), (3, 2, 100), (4, 2, 100), (6, 2, 100),
        (7, 2, 100), (8, 0, 0)] ∧
    ∀ u : Nat, answers (do_reset exampleConsts (exampleBackend 0 (-1) 0) u 1
      [1, 0, 2, 2, 2, 2, 2, 2]).trace = [(1, 0, u), (8, 0, 0)] :=
  ⟨by decide, fun _ => rfl⟩

/-- C6, evaluated: with scope `ALL_COUNTER`, counter 0 enabled (it reads 100):
`do_print` answers `(1, DISABLED, 100)` for the disabled counter 1, and `do_enable`
answers `(1, UNSUPPORTED, 100)` for the unsupported counter 1; the value is the one
read for counter 0, not 0. -/
theorem do_print_do_enable_send_stale_value :
    answers (do_print exampleConsts (exampleBackend 0 (-1) 0) exampleConsts.ALL_COUNTER
      [1, 0, 2, 2, 2, 2, 2, 2]).trace =
      [(0, 1, 100), (1, 0, 100), (2, 2, 100), (3, 2, 100), (4, 2, 100), (6, 2, 100),
        (7, 2, 100), (8, 0, 0)] ∧
    answers (do_enable exampleConsts (exampleBackend 0 (-1) 0) exampleConsts.ALL_COUNTER
      [1, 2, 2, 2, 2, 2, 2, 2]).trace =
      [(0, 1, 100), (1, 2, 100), (2, 2, 100), (3, 2, 100), (4, 2, 100), (6, 2, 100),
        (7, 2, 100), (8, 0, 0)] :=
  ⟨by decide, by decide⟩

/-- Witness of C7: ENABLE of the disabled counter 0 is answered with state
`ENABLED` = 1. -/
theorem do_enable_reports_enabled_or_unsupported_witness :
    (do_enable exampleConsts failingEnableBackend 5 ()).trace =
      [.perf_ctr_state 0 0, .perf_enable_ctr 0 0, .perf_read_ctr 0 0 7] ++
        .send_answer .primary 0 1 7 ::
          [.perf_ctr_state 1 0, .perf_enable_ctr 1 (-22), .send_answer .failed 1 (-22) 0] ∧
    ((1 : Int) = exampleConsts.ENABLED ∨ (1 : Int) = exampleConsts.UNSUPPORTED) ∧
    (1 : Int) ≠ exampleConsts.DISABLED :=
  ⟨by decide,
    (do_enable_reports_enabled_or_unsupported exampleConsts failingEnableBackend
      (by decide) (by decide) (by decide) (fun _ _ => Or.inr (Or.inl rfl)) 5 ()
      [.perf_ctr_state 0 0, .perf_enable_ctr 0 0, .perf_read_ctr 0 0 7]
      [.perf_ctr_state 1 0, .perf_enable_ctr 1 (-22), .send_answer .failed 1 (-22) 0]
      0 1 7 (by decide)).1,
    (do_enable_reports_enabled_or_unsupported exampleConsts failingEnableBackend
      (by decide) (by decide) (by decide) (fun _ _ => Or.inr (Or.inl rfl)) 5 ()
      [.perf_ctr_state 0 0, .perf_enable_ctr 0 0, .perf_read_ctr 0 0 7]
      [.perf_ctr_state 1 0, .perf_enable_ctr 1 (-22), .send_answer .failed 1 (-22) 0]
      0 1 7 (by decide)).2.1⟩

/-- Witness of C8: DISABLE with scope `ALL_COUNTER` on the backend whose
`perf_disable_ctr(3)` fails, every counter being enabled.  The run ends at
counter 3, and counter 2, reached before, has its one regular Answer `(2, 0, 0)`. -/
theorem do_disable_answers_requeried_state_witness :
    (do_disable exampleConsts failingDisableBackend 5 [1, 1, 1, 1, 1, 1, 1, 1]).trace =
      [.perf_ctr_state 0 1, .perf_disable_ctr 0 0, .perf_ctr_state 0 0,
        .send_answer .primary 0 0 0,
        .perf_ctr_state 1 1, .perf_disable_ctr 1 0, .perf_ctr_state 1 0,
        .send_answer .primary 1 0 0,
        .perf_ctr_state 2 1, .perf_disable_ctr 2 0, .perf_ctr_state 2 0,
        .send_answer .primary 2 0 0,
        .perf_ctr_state 3 1, .perf_disable_ctr 3 (-16), .send_answer .failed 3 (-16) 0] ∧
    ∃ pre post st,
      (do_disable exampleConsts failingDisableBackend 5 [1, 1, 1, 1, 1, 1, 1, 1]).trace =
        pre ++ .send_answer .primary 2 st 0 :: post ∧
      (2 : Int) ∉ primaryCtrs pre ∧ (2 : Int) ∉ primaryCtrs post ∧
      ∃ pre0 r0, pre = pre0 ++ .perf_ctr_state 2 r0 ::
        ((if r0 = exampleConsts.ENABLED then [.perf_disable_ctr 2 0] else []) ++
          [.perf_ctr_state 2 st]) :=
  ⟨by decide,
    (do_disable_answers_requeried_state exampleConsts failingDisableBackend 5
      [1, 1, 1, 1, 1, 1, 1, 1]).2.2.2.1 2 (by decide) (by decide) (by decide)
      (fun c e hc h => by
        have ht : (do_disable exampleConsts failingDisableBackend 5
            [1, 1, 1, 1, 1, 1, 1, 1]).trace =
            [.perf_ctr_state 0 1, .perf_disable_ctr 0 0, .perf_ctr_state 0 0,
              .send_answer .primary 0 0 0,
              .perf_ctr_state 1 1, .perf_disable_ctr 1 0, .perf_ctr_state 1 0,
              .send_answer .primary 1 0 0,
              .perf_ctr_state 2 1, .perf_disable_ctr 2 0, .perf_ctr_state 2 0,
              .send_answer .primary 2 0 0,
              .perf_ctr_state 3 1, .perf_disable_ctr 3 (-16),
              .send_answer .failed 3 (-16) 0] := by decide
        rw [ht] at h
        simp only [List.mem_cons, Event.perf_disable_ctr.injEq, reduceCtorEq, false_or,
          List.mem_singleton, or_false, List.not_mem_nil] at h
        rcases h with ⟨_, rfl⟩ | ⟨_, rfl⟩ | ⟨_, rfl⟩ | ⟨rfl, _⟩
        · rfl
        · rfl
        · rfl
        · exact absurd hc (by decide))⟩

/-- DISABLE with scope 1 on the backend whose `perf_disable_ctr(3)` fails: the
failing call is not part of the run, and counter 1 is disabled and answered. -/
theorem do_disable_scope_one_of_failing_backend :
    (do_disable exampleConsts failingDisableBackend 1 [1, 1, 1, 1, 1, 1, 1, 1]).trace =
      [.perf_ctr_state 1 1, .perf_disable_ctr 1 0, .perf_ctr_state 1 0,
        .send_answer .primary 1 0 0, .hotplug_read 8 0 0, .send_answer .hotplug 8 0 0] := by
  decide

/-- Witness of C10: the call `perf_enable_ctr(0)` of an ENABLE request comes right
after `perf_ctr_state(0)` returned `DISABLED` = 0. -/
theorem dispatch_respects_state_machine_witness :
    (dispatch exampleConsts failingEnableBackend 0 Cmd.ENABLE 5 ()).trace =
      [.perf_ctr_state 0 0] ++ .perf_enable_ctr 0 0 ::
        [.perf_read_ctr 0 0 7, .send_answer .primary 0 1 7, .perf_ctr_state 1 0,
          .perf_enable_ctr 1 (-22), .send_answer .failed 1 (-22) 0] ∧
    (Cmd.ENABLE = Cmd.ENABLE ∧
      ∃ pre0, [Event.perf_ctr_state 0 0] = pre0 ++ [.perf_ctr_state 0 exampleConsts.DISABLED]) :=
  ⟨by decide,
    (dispatch_respects_state_machine exampleConsts failingEnableBackend (by decide)
      (by decide) Cmd.ENABLE 0 5 () [.perf_ctr_state 0 0]
      [.perf_read_ctr 0 0 7, .send_answer .primary 0 1 7, .perf_ctr_state 1 0,
        .perf_enable_ctr 1 (-22), .send_answer .failed 1 (-22) 0]
      (.perf_enable_ctr 0 0) (by decide)).1 0 0 rfl⟩

/-- C17. For every command and every scope that is neither `ALL_COUNTER` nor one
of `0 .. NUM_COUNTER-1`: the whole trace of the dispatcher is the call
`perf_read_ctr(HOTPLUG_DETECTED)` on the initial backend state and the Answer
`(HOTPLUG_DETECTED, rc, value)` built from its result; there is no other backend
call and no other Answer, and the dispatcher returns that `rc`. -/
theorem dispatch_scope_outside_enumeration (K : Consts) (B : Backend σ) (cmd : Cmd)
    (uninit : Nat) (ctr : Int) (s : σ) (hall : ctr ≠ K.ALL_COUNTER)
    (hout : ∀ j : Nat, j < K.NUM_COUNTER → (j : Int) ≠ ctr) :
    (dispatch K B uninit cmd ctr s).trace =
      [.hotplug_read K.HOTPLUG_DETECTED (B.perf_read_ctr K.HOTPLUG_DETECTED s).1
          (B.perf_read_ctr K.HOTPLUG_DETECTED s).2.1,
        .send_answer .hotplug K.HOTPLUG_DETECTED (B.perf_read_ctr K.HOTPLUG_DETECTED s).1
          (B.perf_read_ctr K.HOTPLUG_DETECTED s).2.1] ∧
    (dispatch K B uninit cmd ctr s).rc = (B.perf_read_ctr K.HOTPLUG_DETECTED s).1 ∧
    (dispatch K B uninit cmd ctr s).st = (B.perf_read_ctr K.HOTPLUG_DETECTED s).2.2 := by
  have hloop : for_loop (body_of K B cmd ctr) K.NUM_COUNTER 0 ⟨0, init_value uninit cmd, s⟩ =
      (⟨0, init_value uninit cmd, s⟩, []) := by
    apply for_loop_skip
    intro j l' _ hj
    apply body_skip
    rintro ⟨_, h | h⟩
    · exact hout j (by omega) h
    · exact hall h
  rw [dispatch_eq, hloop]
  simp [hotplug_tail]

/-- Witness of C17: PRINT with the scope 8 (`HOTPLUG_DETECTED`, outside
`0 .. 7`) on the example backend only sends the hotplug Answer `(8, 0, 0)`. -/
theorem dispatch_scope_outside_enumeration_witness :
    (dispatch exampleConsts (exampleBackend 0 (-1) 0) 0 Cmd.PRINT 8
      [1, 0, 2, 1, 0, 0, 1, 1]).trace =
      [.hotplug_read 8 0 0, .send_answer .hotplug 8 0 0] :=
  (dispatch_scope_outside_enumeration exampleConsts (exampleBackend 0 (-1) 0) Cmd.PRINT 0 8
    [1, 0, 2, 1, 0, 0, 1, 1] (by decide) (by decide)).1

theorem pai_tail_disabled (K : Consts) (B : Backend σ) (hDE : K.DISABLED ≠ K.ENABLED)
    (i : Int) (hst : ∀ s', (B.perf_ctr_state i s').1 = K.DISABLED) (l : Loc σ)
    (hl : l.rc = 0) :
    (pai_tail K B i l).rc = 0 ∧ answers (pai_tail K B i l).trace = [] ∧
    ∀ ev ∈ (pai_tail K B i l).trace, ev.isReadOrSub = false := by
  have hsend : ∀ (u : Int) (s' : σ), pai_ctr K u = i →
      (do_send_pai K B u s').rc = 0 ∧ answers (do_send_pai K B u s').trace = [] ∧
      ∀ ev ∈ (do_send_pai K B u s').trace, ev.isReadOrSub = false := by
    intro u s' hu
    have hq : (B.perf_ctr_state (pai_ctr K u) s').1 ≠ K.ENABLED := by
      rw [hu, hst s']; exact hDE
    rw [do_send_pai_eq, if_pos hq]
    refine ⟨rfl, rfl, ?_⟩
    intro ev hev
    simp at hev
    subst hev; rfl
  unfold pai_tail
  by_cases h1 : i = K.PAI_USER <;> by_cases h2 : i = K.PAI_KERNEL
  · obtain ⟨a1, a2, a3⟩ := hsend 1 l.st (by simp [pai_ctr, h1])
    obtain ⟨b1, b2, b3⟩ := hsend 0 (do_send_pai K B 1 l.st).st (by simp [pai_ctr, h2])
    simp only [if_pos h1, if_pos h2]
    refine ⟨b1, by rw [answers_append, a2, b2]; rfl, ?_⟩
    intro ev hev
    rcases List.mem_append.1 hev with hev | hev
    · exact a3 ev hev
    · exact b3 ev hev
  · simp only [if_pos h1, if_neg h2]
    exact hsend 1 l.st (by simp [pai_ctr, h1])
  · simp only [if_neg h1, if_pos h2]
    obtain ⟨b1, b2, b3⟩ := hsend 0 l.st (by simp [pai_ctr, h2])
    refine ⟨b1, by simpa [answers_append, answers] using b2, ?_⟩
    intro ev hev
    simp at hev
    exact b3 ev hev
  · simp only [if_neg h1, if_neg h2]
    exact ⟨hl, rfl, by simp⟩

theorem do_print_loop_all_disabled (K : Consts) (B : Backend σ) (hDE : K.DISABLED ≠ K.ENABLED)
    (hdis : ∀ i ∈ enumeration K, ∀ s', (B.perf_ctr_state i s').1 = K.DISABLED) (n : Nat) :
    ∀ (i : Nat) (l : Loc σ), i + n ≤ K.NUM_COUNTER → l.rc = 0 → l.value = 0 →
      (for_loop (do_print_body K B K.ALL_COUNTER) n i l).1.rc = 0 ∧
      answers (for_loop (do_print_body K B K.ALL_COUNTER) n i l).2 =
        ((((List.range' i n).map Int.ofNat).filter (fun x => x ≠ K.ALL_COUNTER)).map
          (fun x => (x, K.DISABLED, 0))) ∧
      ∀ ev ∈ (for_loop (do_print_body K B K.ALL_COUNTER) n i l).2, ev.isReadOrSub = false := by
  induction n with
  | zero => intro i l _ hl _; simp [for_loop, hl, answers]
  | succ n ih =>
    intro i l hn hl hv
    rcases do_print_body_cases K B K.ALL_COUNTER i l with ⟨hs, hb⟩ | ⟨hs, st, s1, hq, hrest⟩
    · have hi : (i : Int) = K.ALL_COUNTER := by
        by_contra h; exact hs ⟨h, Or.inr rfl⟩
      obtain ⟨ih1, ih2, ih3⟩ := ih (i + 1) l (by omega) hl hv
      simp only [for_loop, hb, Bool.false_eq_true, if_false, List.nil_append]
      refine ⟨ih1, ?_, ih3⟩
      rw [ih2, List.range'_succ, List.map_cons, List.filter_cons]
      simp [hi]
    · have hmem : (i : Int) ∈ enumeration K := by
        unfold enumeration
        apply List.mem_filter.2
        refine ⟨List.mem_map.2 ⟨i, List.mem_range.2 (by omega), rfl⟩, by simpa using hs.1⟩
      have hstD : st = K.DISABLED := by
        have := hdis i hmem l.st
        rw [hq] at this
        exact this
      rcases hrest with ⟨he, _⟩ | ⟨_, hb⟩
      · exact absurd (hstD.symm.trans he) hDE
      · obtain ⟨p1, p2, p3⟩ := pai_tail_disabled K B hDE i (hdis i hmem)
          ⟨l.rc, l.value, s1⟩ hl
        have hbrk : (do_print_body K B K.ALL_COUNTER i l).brk = false := by rw [hb]; rfl
        have hloc : (do_print_body K B K.ALL_COUNTER i l).loc =
            ⟨(pai_tail K B i ⟨l.rc, l.value, s1⟩).rc, l.value,
              (pai_tail K B i ⟨l.rc, l.value, s1⟩).st⟩ := by rw [hb]; rfl
        have htr : (do_print_body K B K.ALL_COUNTER i l).trace =
            [.perf_ctr_state i st] ++ .send_answer .primary i st l.value ::
              (pai_tail K B i ⟨l.rc, l.value, s1⟩).trace := by rw [hb]; rfl
        obtain ⟨ih1, ih2, ih3⟩ := ih (i + 1) (do_print_body K B K.ALL_COUNTER i l).loc
          (by omega) (by rw [hloc]; exact p1) (by rw [hloc]; exact hv)
        simp only [for_loop, hbrk, Bool.false_eq_true, if_false]
        refine ⟨ih1, ?_, ?_⟩
        · rw [answers_append, ih2, htr, List.range'_succ, List.map_cons, List.filter_cons]
          rw [hv] at p2
          simp [answers, answers_append, p2, hs.1, hstD, hv]
        · intro ev hev
          rcases List.mem_append.1 hev with hev | hev
          · rw [htr] at hev
            simp at hev
            rcases hev with rfl | rfl | hev
            · rfl
            · rfl
            · exact p3 ev hev
          · exact ih3 ev hev

/-- C13. Scenario A: PRINT with scope `ALL_COUNTER` on a backend that reports
every enumerated counter `DISABLED` and whose hotplug read returns code 0 and
value 0: the Answers are exactly `(id, DISABLED, 0)` for every identity
`0 ≤ id < NUM_COUNTER`, `id ≠ ALL_COUNTER`, in ascending order, then
`(HOTPLUG_DETECTED, 0, 0)`; the loop makes no `perf_read_ctr` call and no
sub-counter is read or answered. -/
theorem do_print_all_disabled (K : Consts) (B : Backend σ) (s : σ)
    (hDE : K.DISABLED ≠ K.ENABLED)
    (hdis : ∀ i ∈ enumeration K, ∀ s', (B.perf_ctr_state i s').1 = K.DISABLED)
    (hhot : ∀ s', (B.perf_read_ctr K.HOTPLUG_DETECTED s').1 = 0 ∧
      (B.perf_read_ctr K.HOTPLUG_DETECTED s').2.1 = 0) :
    answers (do_print K B K.ALL_COUNTER s).trace =
      (enumeration K).map (fun id => (id, K.DISABLED, 0)) ++ [(K.HOTPLUG_DETECTED, 0, 0)] ∧
    ∀ ev ∈ (do_print K B K.ALL_COUNTER s).trace, ev.isReadOrSub = false := by
  obtain ⟨h1, h2, h3⟩ := do_print_loop_all_disabled K B hDE hdis K.NUM_COUNTER 0 ⟨0, 0, s⟩
    (by omega) rfl rfl
  simp only [do_print, hotplug_tail, if_pos h1]
  constructor
  · rw [answers_append, h2]
    simp [answers, enumeration, List.range_eq_range', (hhot _).1, (hhot _).2]
  · intro ev hev
    rcases List.mem_append.1 hev with hev | hev
    · exact h3 ev hev
    · simp at hev
      rcases hev with rfl | rfl <;> rfl

/-- Witness of C13 on the example constants: seven Answers `(id, 0, 0)`, then the
hotplug Answer `(8, 0, 0)`. -/
theorem do_print_all_disabled_witness :
    answers (do_print exampleConsts allDisabledBackend exampleConsts.ALL_COUNTER ()).trace =
      [(0, 0, 0), (1, 0, 0), (2, 0, 0), (3, 0, 0), (4, 0, 0), (6, 0, 0), (7, 0, 0),
        (8, 0, 0)] :=
  (do_print_all_disabled exampleConsts allDisabledBackend () (by decide)
    (fun _ _ _ => rfl) (fun _ => ⟨rfl, rfl⟩)).1

theorem do_enable_body_answer_state (K : Consts) (B : Backend σ) (ctr : Int) (j : Nat)
    (l : Loc σ) (bpre bpost : List Event) (i st : Int) (v : Nat)
    (h : (do_enable_body K B ctr j l).trace = bpre ++ .send_answer .primary i st v :: bpost) :
    ∃ r mid, bpre = .perf_ctr_state i r :: mid ∧
      (∀ x ∈ mid, (∃ w, x = .perf_read_ctr i 0 w) ∨ (x = .perf_enable_ctr i 0 ∧
        r = K.DISABLED ∧ st = K.ENABLED)) ∧
      (Event.perf_enable_ctr i 0 ∉ mid → st = r) := by
  have hmem := mem_of_split _ _ _ _ h
  have aux : ∀ (st' : Int) (l' : Loc σ) (r : Int) (mid : List Event),
      (∀ x ∈ mid, ¬ x.isRegular = true) →
      (enable_read K B j st' l' (.perf_ctr_state j r :: mid)).trace =
        bpre ++ .send_answer .primary i st v :: bpost →
      i = j ∧ st = st' ∧ (bpre = .perf_ctr_state j r :: mid ∨
        ∃ w, bpre = .perf_ctr_state j r :: (mid ++ [.perf_read_ctr j 0 w])) := by
    intro st' l' r mid hmid h'
    have hmem' := mem_of_split _ _ _ _ h'
    have hfront : ∀ x ∈ Event.perf_ctr_state j r :: mid, ¬ x.isRegular = true := by
      intro x hx
      simp at hx
      rcases hx with rfl | hx
      · simp [Event.isRegular]
      · exact hmid x hx
    rcases enable_read_cases K B j st' l' (.perf_ctr_state j r :: mid) with
      ⟨_, e', w, s2, hr, ⟨he', hb⟩ | ⟨he', hb⟩⟩ | ⟨_, hb⟩
    · rw [hb] at hmem'
      have hno : ∀ x ∈ (Event.perf_ctr_state j r :: mid) ++
          [Event.perf_read_ctr j e' w, Event.send_answer Site.failed j e' 0],
          ¬ x.isRegular = true := by
        intro x hx
        rcases List.mem_append.1 hx with hx | hx
        · exact hfront x hx
        · simp at hx; rcases hx with rfl | rfl <;> simp [Event.isRegular]
      exact absurd rfl (hno _ hmem')
    · rw [hb] at h'
      obtain ⟨h1, h2, _⟩ := answer_and_pai_split K B j st' _ _ bpre bpost _ h' rfl (by
        intro x hx
        rcases List.mem_append.1 hx with hx | hx
        · exact hfront x hx
        · simp at hx; subst hx; simp [Event.isRegular])
      simp at h2
      refine ⟨h2.1, h2.2.1, Or.inr ⟨w, ?_⟩⟩
      rw [h1, he']; rfl
    · rw [hb] at h'
      obtain ⟨h1, h2, _⟩ := answer_and_pai_split K B j st' _ _ bpre bpost _ h' rfl hfront
      simp at h2
      exact ⟨h2.1, h2.2.1, Or.inl h1⟩
  rcases do_enable_body_cases K B ctr j l with ⟨hs, hb⟩ | ⟨hs, st0, s1, hq, hrest⟩
  · rw [hb] at hmem; simp at hmem
  · rcases hrest with ⟨hd, e', s2, hr, ⟨he', hb⟩ | ⟨he', hb⟩⟩ | ⟨hd, hb⟩
    · rw [hb] at hmem; simp at hmem
    · rw [hb] at h
      subst he'
      obtain ⟨rfl, rfl, h1 | ⟨w, h1⟩⟩ := aux K.ENABLED _ st0 [.perf_enable_ctr j 0]
        (by simp [Event.isRegular]) h
      · refine ⟨st0, _, h1, ?_, ?_⟩
        · intro x hx
          simp at hx
          exact Or.inr ⟨hx, hd, rfl⟩
        · intro hn; simp at hn
      · refine ⟨st0, _, h1, ?_, ?_⟩
        · intro x hx
          simp at hx
          rcases hx with rfl | rfl
          · exact Or.inr ⟨rfl, hd, rfl⟩
          · exact Or.inl ⟨w, rfl⟩
        · intro hn; simp at hn
    · rw [hb] at h
      obtain ⟨rfl, rfl, h1 | ⟨w, h1⟩⟩ := aux st0 _ st0 [] (by simp) h
      · exact ⟨st, _, h1, by simp, fun _ => rfl⟩
      · refine ⟨st, _, h1, ?_, fun _ => rfl⟩
        intro x hx
        simp at hx
        exact Or.inl ⟨w, hx⟩

theorem do_reset_body_answer_state (K : Consts) (B : Backend σ) (ctr : Int) (j : Nat)
    (l : Loc σ) (bpre bpost : List Event) (i st : Int) (v : Nat)
    (h : (do_reset_body K B ctr j l).trace = bpre ++ .send_answer .primary i st v :: bpost) :
    bpre = [.perf_ctr_state i st] ∨
      (st = K.ENABLED ∧ bpre = [.perf_ctr_state i st, .perf_reset_ctr i 0 v]) := by
  have hmem := mem_of_split _ _ _ _ h
  rcases do_reset_body_cases K B ctr j l with ⟨hs, hb⟩ | ⟨hs, st0, s1, hq, hrest⟩
  · rw [hb] at hmem; simp at hmem
  · rcases hrest with ⟨hd, e', w, s2, hr, ⟨he', hb⟩ | ⟨he', hb⟩⟩ | ⟨hd, hb⟩
    · rw [hb] at hmem; simp at hmem
    · rw [hb] at h
      obtain ⟨h1, h2, _⟩ := answer_and_pai_split K B j st0 _ _ bpre bpost _ h rfl (by
        intro x hx
        simp at hx
        rcases hx with rfl | rfl <;> simp [Event.isRegular])
      simp at h2
      obtain ⟨rfl, rfl, rfl⟩ := h2
      subst he'
      exact Or.inr ⟨hd, h1⟩
    · rw [hb] at h
      obtain ⟨h1, h2, _⟩ := answer_and_pai_split K B j st0 _ _ bpre bpost _ h rfl (by
        intro x hx
        simp at hx
        subst hx; simp [Event.isRegular])
      simp at h2
      obtain ⟨rfl, rfl, rfl⟩ := h2
      exact Or.inl h1

/-- C11, amended. Where the state of a regular Answer comes from; the statement
is about the events up to that Answer.  In the trace of every command each
`perf_enable_ctr(i)`, `perf_disable_ctr(i)` and `perf_reset_ctr(i)` call comes right
after a `perf_ctr_state(i)` query.  In `do_disable` the Answer for `i` comes right
after a second query `perf_ctr_state(i)`, made after the disable call when there
is one, and carries its result.  In `do_enable` there is no query between the
enable call and the Answer: between the query `perf_ctr_state(i) = r` of the
iteration and the Answer there are only the successful enable and read calls,
and the Answer carries `ENABLED` when `perf_enable_ctr(i)` was called and `r`
otherwise.  In `do_reset` the Answer comes right after the query
`perf_ctr_state(i)` or right after the successful `perf_reset_ctr(i)` call that
follows it, and carries the result of that query, made before the reset. -/
theorem answer_state_origin (K : Consts) (B : Backend σ) (uninit : Nat) (ctr : Int) (s : σ)
    (pre post : List Event) :
    (∀ (cmd : Cmd) (ev : Event), ev.isMutOp = true →
      (dispatch K B uninit cmd ctr s).trace = pre ++ ev :: post →
      ∃ (j : Nat) (pre0 : List Event) (r : Int), pre = pre0 ++ [.perf_ctr_state j r] ∧
        opAllowed K cmd j r ev) ∧
    (∀ (i st : Int) (v : Nat),
      (do_disable K B ctr s).trace = pre ++ .send_answer .primary i st v :: post →
      ∃ pre0 r0, pre = pre0 ++ .perf_ctr_state i r0 ::
        ((if r0 = K.ENABLED then [.perf_disable_ctr i 0] else []) ++
          [.perf_ctr_state i st])) ∧
    (∀ (i st : Int) (v : Nat),
      (do_enable K B ctr s).trace = pre ++ .send_answer .primary i st v :: post →
      ∃ pre0 r mid, pre = pre0 ++ .perf_ctr_state i r :: mid ∧
        (∀ x ∈ mid, (∃ w, x = .perf_read_ctr i 0 w) ∨ (x = .perf_enable_ctr i 0 ∧
          r = K.DISABLED ∧ st = K.ENABLED)) ∧
        (Event.perf_enable_ctr i 0 ∉ mid → st = r)) ∧
    (∀ (i st : Int) (v : Nat),
      (do_reset K B uninit ctr s).trace = pre ++ .send_answer .primary i st v :: post →
      ∃ pre0, pre = pre0 ++ [.perf_ctr_state i st] ∨
        (st = K.ENABLED ∧ pre = pre0 ++ [.perf_ctr_state i st, .perf_reset_ctr i 0 v])) := by
  refine ⟨?_, ?_, ?_, ?_⟩
  · intro cmd ev hev htr
    have hnt : ev.isTrailer = false := by
      cases ev <;> simp_all [Event.isMutOp, Event.isTrailer]
    obtain ⟨j, l', pre0, bpre, bpost, post0, h1, h2, _, _⟩ :=
      dispatch_split K B cmd uninit ctr s pre post ev htr hnt
    obtain ⟨r, h3, h4⟩ := body_mut_split K B cmd ctr j l' bpre bpost ev h1 hev
    exact ⟨j, pre0, r, by rw [h2, h3], h4⟩
  · intro i st v htr
    obtain ⟨j, l', pre0, bpre, bpost, post0, h1, h2, _, _⟩ :=
      dispatch_split K B Cmd.DISABLE 0 ctr s pre post _ htr rfl
    obtain ⟨_, r0, h3⟩ := do_disable_body_regular K B ctr j l' bpre bpost i st v h1
    exact ⟨pre0, r0, by rw [h2, h3]⟩
  · intro i st v htr
    obtain ⟨j, l', pre0, bpre, bpost, post0, h1, h2, _, _⟩ :=
      dispatch_split K B Cmd.ENABLE 0 ctr s pre post _ htr rfl
    obtain ⟨r, mid, h3, h4, h5⟩ := do_enable_body_answer_state K B ctr j l' bpre bpost i st v h1
    exact ⟨pre0, r, mid, by rw [h2, h3], h4, h5⟩
  · intro i st v htr
    obtain ⟨j, l', pre0, bpre, bpost, post0, h1, h2, _, _⟩ :=
      dispatch_split K B Cmd.RESET uninit ctr s pre post _ htr rfl
    rcases do_reset_body_answer_state K B ctr j l' bpre bpost i st v h1 with h3 | ⟨h3, h4⟩
    · exact ⟨pre0, Or.inl (by rw [h2, h3])⟩
    · exact ⟨pre0, Or.inr ⟨h3, by rw [h2, h4]⟩⟩

/-- C11 as stated fails: ENABLE of the disabled counter 1 and RESET of the
enabled counter 0 on the example backend.  In these traces no `perf_ctr_state`
query follows the `perf_enable_ctr`, resp. `perf_reset_ctr`, call: the Answer
`(1, ENABLED, 101)` carries the constant the daemon assigned and the Answer
`(0, ENABLED, 100)` the state read before the reset. -/
theorem do_enable_do_reset_do_not_requery :
    (do_enable exampleConsts (exampleBackend 0 (-1) 0) 1 [1, 0, 2, 2, 2, 2, 2, 2]).trace =
      [.perf_ctr_state 1 0, .perf_enable_ctr 1 0, .perf_read_ctr 1 0 101,
        .send_answer .primary 1 1 101, .hotplug_read 8 0 0, .send_answer .hotplug 8 0 0] ∧
    (do_reset exampleConsts (exampleBackend 0 (-1) 0) 0 0 [1, 0, 2, 2, 2, 2, 2, 2]).trace =
      [.perf_ctr_state 0 1, .perf_reset_ctr 0 0 100, .send_answer .primary 0 1 100,
        .hotplug_read 8 0 0, .send_answer .hotplug 8 0 0] :=
  ⟨by decide, by decide⟩

/-- Witness of the amended C11: the Answer `(1, 1, 101)` of `do_enable` comes after
the query `perf_ctr_state(1) = 0` with only the enable and read calls in between. -/
theorem answer_state_origin_witness :
    (do_enable exampleConsts (exampleBackend 0 (-1) 0) 1 [1, 0, 2, 2, 2, 2, 2, 2]).trace =
      [.perf_ctr_state 1 0, .perf_enable_ctr 1 0, .perf_read_ctr 1 0 101] ++
        .send_answer .primary 1 1 101 ::
          [.hotplug_read 8 0 0, .send_answer .hotplug 8 0 0] ∧
    ∃ pre0 r mid, [Event.perf_ctr_state 1 0, .perf_enable_ctr 1 0, .perf_read_ctr 1 0 101] =
        pre0 ++ .perf_ctr_state 1 r :: mid ∧
      (∀ x ∈ mid, (∃ w, x = .perf_read_ctr 1 0 w) ∨ (x = .perf_enable_ctr 1 0 ∧
        r = exampleConsts.DISABLED ∧ (1 : Int) = exampleConsts.ENABLED)) ∧
      (Event.perf_enable_ctr 1 0 ∉ mid → (1 : Int) = r) :=
  ⟨by decide,
    (answer_state_origin exampleConsts (exampleBackend 0 (-1) 0) 0 1 [1, 0, 2, 2, 2, 2, 2, 2]
      [.perf_ctr_state 1 0, .perf_enable_ctr 1 0, .perf_read_ctr 1 0 101]
      [.hotplug_read 8 0 0, .send_answer .hotplug 8 0 0]).2.2.1 1 1 101 (by decide)⟩

theorem regularAnswers_append (a b : List Event) :
    regularAnswers (a ++ b) = regularAnswers a ++ regularAnswers b := by
  induction a with
  | nil => rfl
  | cons ev a ih =>
    cases ev <;> simp [regularAnswers, ih]
    rename_i site _ _ _
    cases site <;> simp [regularAnswers, ih]

theorem hotplug_tail_reference (K : Consts) (B : Backend σ) (state_of : σ → Int → Int)
    (hR : IsReference K B state_of) (r : Loc σ × List Event) :
    state_of (hotplug_tail K B r).st = state_of r.1.st ∧
    regularAnswers (hotplug_tail K B r).trace = regularAnswers r.2 := by
  unfold hotplug_tail
  split_ifs
  · exact ⟨(hR.read _ _).2, by simp [regularAnswers_append, regularAnswers]⟩
  · exact ⟨rfl, rfl⟩

theorem do_send_pai_reference (K : Consts) (B : Backend σ) (state_of : σ → Int → Int)
    (hR : IsReference K B state_of) (u : Int) (s : σ) :
    state_of (do_send_pai K B u s).st = state_of s := by
  rw [do_send_pai_eq]
  split_ifs
  · exact (hR.query _ _).2
  · have := for_loop_inv (do_send_pai_body B u (B.perf_ctr_state (pai_ctr K u) s).1)
      (fun l => state_of l.st = state_of s)
      (by
        intro j l hl
        simp only [do_send_pai_body]
        split_ifs
        · exact ((hR.read_pai _ _ _).2).trans hl
        · exact ((hR.read_pai _ _ _).2).trans hl)
      (pai_max K u) 0 ⟨0, 0, (B.perf_ctr_state (pai_ctr K u) s).2⟩ (hR.query _ _).2
    exact this

theorem pai_tail_reference (K : Consts) (B : Backend σ) (state_of : σ → Int → Int)
    (hR : IsReference K B state_of) (i : Int) (l : Loc σ) :
    state_of (pai_tail K B i l).st = state_of l.st := by
  unfold pai_tail
  split_ifs
  · exact (do_send_pai_reference K B state_of hR 0 _).trans
      (do_send_pai_reference K B state_of hR 1 _)
  · exact do_send_pai_reference K B state_of hR 1 _
  · exact do_send_pai_reference K B state_of hR 0 _
  · rfl

theorem do_disable_single_reference (K : Consts) (B : Backend σ) (state_of : σ → Int → Int)
    (hR : IsReference K B state_of) (c : Nat) (hc : c < K.NUM_COUNTER)
    (hall : (c : Int) ≠ K.ALL_COUNTER) (s : σ) :
    state_of (do_disable K B c s).st =
      (fun j : Int => if j = (c : Int) ∧ state_of s c = K.ENABLED then K.DISABLED
        else state_of s j) ∧
    regularAnswers (do_disable K B c s).trace =
      [((c : Int), (if state_of s c = K.ENABLED then K.DISABLED else state_of s c), 0)] := by
  have hloop := loop_single_scope K B Cmd.DISABLE c hc hall ⟨0, 0, s⟩
  simp only [body_of] at hloop
  obtain ⟨ht1, ht2⟩ := hotplug_tail_reference K B state_of hR
    (for_loop (do_disable_body K B c) K.NUM_COUNTER 0 ⟨0, 0, s⟩)
  simp only [do_disable]
  rw [ht1, ht2, hloop]
  rcases do_disable_body_cases K B c c ⟨0, 0, s⟩ with ⟨hs, _⟩ | ⟨_, st, s1, hq, hrest⟩
  · exact absurd ⟨hall, Or.inl rfl⟩ hs
  · have hq1 : st = state_of s c := by have := (hR.query c s).1; rw [hq] at this; exact this
    have hq2 : state_of s1 = state_of s := by
      have := (hR.query c s).2; rw [hq] at this; exact this
    rcases hrest with ⟨hst, e, s2, hd, ⟨he, _⟩ | ⟨_, st2, s3, hq', hb⟩⟩ | ⟨hst, st2, s3, hq', hb⟩
    · have := (hR.disable c s1).1; rw [hd] at this; exact absurd this he
    · have hd2 : state_of s2 = fun j : Int =>
          if j = (c : Int) ∧ state_of s1 c = K.ENABLED then K.DISABLED else state_of s1 j := by
        have := (hR.disable c s1).2; rw [hd] at this; exact this
      have hq3 : st2 = state_of s2 c := by
        have := (hR.query c s2).1; rw [hq'] at this; exact this
      have hq4 : state_of s3 = state_of s2 := by
        have := (hR.query c s2).2; rw [hq'] at this; exact this
      have hen : state_of s c = K.ENABLED := hq1 ▸ hst
      rw [hb]
      simp only [regularAnswers, hq4, hd2, hq2, hq3, hen]
      simp
    · have hq3 : st2 = state_of s1 c := by
        have := (hR.query c s1).1; rw [hq'] at this; exact this
      have hq4 : state_of s3 = state_of s1 := by
        have := (hR.query c s1).2; rw [hq'] at this; exact this
      have hen : ¬ state_of s c = K.ENABLED := hq1 ▸ hst
      rw [hb]
      simp only [regularAnswers, hq4, hq2, hq3, hen]
      simp

theorem enable_read_reference (K : Consts) (B : Backend σ) (state_of : σ → Int → Int)
    (hR : IsReference K B state_of) (i st : Int) (l : Loc σ) (front : List Event) :
    state_of (enable_read K B i st l front).loc.st = state_of l.st := by
  rcases enable_read_cases K B i st l front with
    ⟨_, e, w, s2, hr, ⟨_, hb⟩ | ⟨_, hb⟩⟩ | ⟨_, hb⟩
  · rw [hb]
    have := (hR.read i l.st).2; rw [hr] at this; exact this
  · rw [hb, answer_and_pai_eq]
    have := (hR.read i l.st).2; rw [hr] at this
    exact (pai_tail_reference K B state_of hR i _).trans this
  · rw [hb, answer_and_pai_eq]
    exact pai_tail_reference K B state_of hR i _

theorem do_enable_single_reference (K : Consts) (B : Backend σ) (state_of : σ → Int → Int)
    (hR : IsReference K B state_of) (c : Nat) (hc : c < K.NUM_COUNTER)
    (hall : (c : Int) ≠ K.ALL_COUNTER) (s : σ) :
    state_of (do_enable K B c s).st =
      (fun j : Int => if j = (c : Int) ∧ state_of s c = K.DISABLED then K.ENABLED
        else state_of s j) := by
  have hloop := loop_single_scope K B Cmd.ENABLE c hc hall ⟨0, 0, s⟩
  simp only [body_of] at hloop
  obtain ⟨ht1, _⟩ := hotplug_tail_reference K B state_of hR
    (for_loop (do_enable_body K B c) K.NUM_COUNTER 0 ⟨0, 0, s⟩)
  simp only [do_enable]
  rw [ht1, hloop]
  rcases do_enable_body_cases K B c c ⟨0, 0, s⟩ with ⟨hs, _⟩ | ⟨_, st, s1, hq, hrest⟩
  · exact absurd ⟨hall, Or.inl rfl⟩ hs
  · have hq1 : st = state_of s c := by have := (hR.query c s).1; rw [hq] at this; exact this
    have hq2 : state_of s1 = state_of s := by
      have := (hR.query c s).2; rw [hq] at this; exact this
    rcases hrest with ⟨hst, e, s2, hd, ⟨he, _⟩ | ⟨_, hb⟩⟩ | ⟨hst, hb⟩
    · have := (hR.enable c s1).1; rw [hd] at this; exact absurd this he
    · have hd2 : state_of s2 = fun j : Int =>
          if j = (c : Int) ∧ state_of s1 c = K.DISABLED then K.ENABLED else state_of s1 j := by
        have := (hR.enable c s1).2; rw [hd] at this; exact this
      rw [hb, enable_read_reference K B state_of hR]
      simp only [hd2, hq2]
    · have hen : ¬ state_of s c = K.DISABLED := hq1 ▸ hst
      rw [hb, enable_read_reference K B state_of hR]
      simp only [hq2, hen, and_false, if_false]

/-- C14. Over a reference backend (every call succeeds, enabling turns `DISABLED`
into `ENABLED`, disabling turns `ENABLED` into `DISABLED`, nothing else changes a
counter state) and for an enumerated counter `c`: running `do_disable`,
`do_enable`, `do_disable` with scope `c` leaves every counter in the same
state, and sends the same regular Answer in the last run, as running `do_disable`
once: the Answer is `(c, x, 0)` and `c` ends in state `x`, where `x` is `DISABLED`
when `c` was `ENABLED` and the initial state of `c` otherwise (so `DISABLED`
for `DISABLED`, `UNSUPPORTED` for `UNSUPPORTED`). -/
theorem disable_enable_disable_eq_disable (K : Consts) (B : Backend σ)
    (state_of : σ → Int → Int) (hR : IsReference K B state_of) (c : Nat)
    (hc : c < K.NUM_COUNTER) (hall : (c : Int) ≠ K.ALL_COUNTER) (s : σ) :
    state_of (do_disable K B c (do_enable K B c (do_disable K B c s).st).st).st =
      state_of (do_disable K B c s).st ∧
    regularAnswers (do_disable K B c (do_enable K B c (do_disable K B c s).st).st).trace =
      regularAnswers (do_disable K B c s).trace ∧
    regularAnswers (do_disable K B c s).trace =
      [((c : Int), (if state_of s c = K.ENABLED then K.DISABLED else state_of s c), 0)] ∧
    state_of (do_disable K B c s).st c =
      (if state_of s c = K.ENABLED then K.DISABLED else state_of s c) := by
  obtain ⟨d1, a1⟩ := do_disable_single_reference K B state_of hR c hc hall s
  have e2 := do_enable_single_reference K B state_of hR c hc hall (do_disable K B c s).st
  obtain ⟨d3, a3⟩ := do_disable_single_reference K B state_of hR c hc hall
    (do_enable K B c (do_disable K B c s).st).st
  have key : ∀ x : Int,
      (if (if (if x = K.ENABLED then K.DISABLED else x) = K.DISABLED then K.ENABLED
          else (if x = K.ENABLED then K.DISABLED else x)) = K.ENABLED then K.DISABLED
        else (if (if x = K.ENABLED then K.DISABLED else x) = K.DISABLED then K.ENABLED
          else (if x = K.ENABLED then K.DISABLED else x))) =
        (if x = K.ENABLED then K.DISABLED else x) := by
    intro x
    by_cases h1 : x = K.ENABLED
    · simp [h1]
    · by_cases h2 : x = K.DISABLED
      · simp [h1, h2]
      · simp [h1, h2]
  have hc1 : state_of (do_disable K B c s).st c =
      (if state_of s c = K.ENABLED then K.DISABLED else state_of s c) := by
    have h := congrFun d1 (c : Int)
    simp only [true_and] at h
    exact h
  have hc2 : state_of (do_enable K B c (do_disable K B c s).st).st c =
      (if (if state_of s c = K.ENABLED then K.DISABLED else state_of s c) = K.DISABLED
        then K.ENABLED else (if state_of s c = K.ENABLED then K.DISABLED else state_of s c)) := by
    have h := congrFun e2 (c : Int)
    simp only [true_and] at h
    rw [h, hc1]
  refine ⟨?_, ?_, a1, hc1⟩
  · rw [d3]
    funext j
    by_cases hj : j = (c : Int)
    · subst hj
      rw [hc2, hc1]
      simp only [true_and]
      exact key (state_of s c)
    · simp only [hj, false_and, if_false]
      rw [e2]
      simp only [hj, false_and, if_false]
  · rw [a3, a1, hc2]
    simp only [key]

theorem referenceBackend_isReference (K : Consts) :
    IsReference K (referenceBackend K) (fun s => s) :=
  ⟨fun _ _ => ⟨rfl, rfl⟩, fun _ _ => ⟨rfl, rfl⟩, fun _ _ => ⟨rfl, rfl⟩, fun _ _ => ⟨rfl, rfl⟩,
    fun _ _ => ⟨rfl, rfl⟩, fun _ _ _ => ⟨rfl, rfl⟩⟩

/-- Witness of C14: counter 3 enabled (state 1) at the start; disable, enable,
disable ends with the same regular Answer `(3, DISABLED, 0)` as one disable. -/
theorem disable_enable_disable_eq_disable_witness :
    IsReference exampleConsts (referenceBackend exampleConsts) (fun s => s) ∧
    regularAnswers (do_disable exampleConsts (referenceBackend exampleConsts) 3
      (do_enable exampleConsts (referenceBackend exampleConsts) 3
        (do_disable exampleConsts (referenceBackend exampleConsts) 3
          (fun _ => 1)).st).st).trace = [(3, 0, 0)] :=
  ⟨referenceBackend_isReference exampleConsts,
    ((disable_enable_disable_eq_disable exampleConsts (referenceBackend exampleConsts)
      (fun s => s) (referenceBackend_isReference exampleConsts) 3 (by decide) (by decide)
      (fun _ => 1)).2.1).trans
    ((disable_enable_disable_eq_disable exampleConsts (referenceBackend exampleConsts)
      (fun s => s) (referenceBackend_isReference exampleConsts) 3 (by decide) (by decide)
      (fun _ => 1)).2.2.1)⟩

/-- C12. `recv_query` succeeds exactly when `recv_msg` returned 0 and the header
has `m_ver == VERSION` and `m_type == QUERY`, and it then yields the message's
`m_ctr` and `m_cmd`; with `recv_msg` returning 0 a wrong version fails with `-1`
whatever the type is, a right version with a wrong type fails with `-1`; a
`recv_msg` failure is returned unchanged; and after any failure of `recv_query`
the server loop calls no dispatcher, makes no backend call and sends no
Answer on the connection. -/
theorem recv_query_accepts_only_valid_queries (W : WireConsts) (K : Consts) (B : Backend σ)
    (uninit : Nat) (recv : Int × msg) (s : σ) :
    (∀ ctr cmd, recv_query W recv = .ok (ctr, cmd) ↔
      recv.1 = 0 ∧ recv.2.m_ver = W.VERSION ∧ recv.2.m_type = W.QUERY ∧
        ctr = recv.2.m_ctr ∧ cmd = recv.2.m_cmd) ∧
    (recv.1 = 0 → recv.2.m_ver ≠ W.VERSION →
      recv_query W recv = .error (.wrong_version recv.2.m_ver) ∧
        (QueryError.wrong_version recv.2.m_ver).rc = -1) ∧
    (recv.1 = 0 → recv.2.m_ver = W.VERSION → recv.2.m_type ≠ W.QUERY →
      recv_query W recv = .error (.wrong_type recv.2.m_type) ∧
        (QueryError.wrong_type recv.2.m_type).rc = -1) ∧
    (recv.1 ≠ 0 → recv_query W recv = .error (.recv_failed recv.1) ∧
      (QueryError.recv_failed recv.1).rc = recv.1) ∧
    (∀ e, recv_query W recv = .error e →
      e.rc ≠ 0 ∧ serve W K B uninit recv s = ⟨[], s, []⟩) := by
  refine ⟨?_, ?_, ?_, ?_, ?_⟩
  · intro ctr cmd
    unfold recv_query
    split_ifs with h1 h2 h3
    · simp [h2]
    · simp [h3]
    · simp [h1, not_not.1 h2, not_not.1 h3]
      constructor
      · rintro ⟨rfl, rfl⟩; exact ⟨rfl, rfl⟩
      · rintro ⟨rfl, rfl⟩; exact ⟨rfl, rfl⟩
    · simp [h1]
  · intro h1 h2
    exact ⟨by simp [recv_query, h1, h2], rfl⟩
  · intro h1 h2 h3
    exact ⟨by simp [recv_query, h1, h2, h3], rfl⟩
  · intro h1
    exact ⟨by simp [recv_query, h1], rfl⟩
  · intro e he
    constructor
    · unfold recv_query at he
      split_ifs at he with h1 h2 h3
      · cases he; simp [QueryError.rc]
      · cases he; simp [QueryError.rc]
      · cases he; simpa [QueryError.rc] using h1
    · simp only [serve, he]

/-- Witness of C12: a message of protocol version 2 is refused with `-1`. -/
theorem recv_query_accepts_only_valid_queries_witness :
    recv_query exampleWire (0, ⟨2, 1, 0, 3⟩) = .error (.wrong_version 2) ∧
    (QueryError.wrong_version 2).rc = -1 :=
  (recv_query_accepts_only_valid_queries exampleWire exampleConsts allDisabledBackend 0
    (0, ⟨2, 1, 0, 3⟩) ()).2.1 rfl (by decide)

/-- C18. For a successfully decoded Query `(ctr, cmd)`, the four command values
being different: when `cmd` is none of them the server loop calls no
dispatcher, makes no backend call and sends no Answer; when `cmd` is the value
of a command it calls the dispatcher of that command once, with scope `ctr`,
and nothing else. -/
theorem serve_calls_matching_dispatcher (W : WireConsts) (K : Consts) (B : Backend σ)
    (uninit : Nat) (recv : Int × msg) (s : σ) (ctr cmd : Int)
    (hq : recv_query W recv = .ok (ctr, cmd)) (hinj : Function.Injective W.code) :
    ((∀ c : Cmd, cmd ≠ W.code c) → serve W K B uninit recv s = ⟨[], s, []⟩) ∧
    (∀ c : Cmd, cmd = W.code c →
      serve W K B uninit recv s =
        ⟨[(c, ctr)], (dispatch K B uninit c ctr s).st, (dispatch K B uninit c ctr s).trace⟩) := by
  have hED : W.ENABLE ≠ W.DISABLE := fun h => by
    have := @hinj .ENABLE .DISABLE h; cases this
  have hER : W.ENABLE ≠ W.RESET := fun h => by
    have := @hinj .ENABLE .RESET h; cases this
  have hEP : W.ENABLE ≠ W.PRINT := fun h => by
    have := @hinj .ENABLE .PRINT h; cases this
  have hDR : W.DISABLE ≠ W.RESET := fun h => by
    have := @hinj .DISABLE .RESET h; cases this
  have hDP : W.DISABLE ≠ W.PRINT := fun h => by
    have := @hinj .DISABLE .PRINT h; cases this
  have hRP : W.RESET ≠ W.PRINT := fun h => by
    have := @hinj .RESET .PRINT h; cases this
  constructor
  · intro hno
    have h1 := hno .ENABLE
    have h2 := hno .DISABLE
    have h3 := hno .RESET
    have h4 := hno .PRINT
    simp only [WireConsts.code] at h1 h2 h3 h4
    simp only [serve, hq, if_neg h1, if_neg h2, if_neg h3, if_neg h4]
  · intro c hc
    cases c <;> simp only [WireConsts.code] at hc <;> subst hc
    · simp only [serve, hq, if_true, dispatch]
    · simp only [serve, hq, if_neg hED.symm, if_true, dispatch]
    · simp only [serve, hq, if_neg hER.symm, if_neg hDR.symm, if_true, dispatch]
    · simp only [serve, hq, if_neg hEP.symm, if_neg hDP.symm, if_neg hRP.symm, if_true,
        dispatch]

theorem exampleWire_code_injective : Function.Injective exampleWire.code := by
  intro a b h
  cases a <;> cases b <;> first | rfl | (exact absurd h (by decide))

/-- Witness of C18: a Query with the unknown command value 9 leads to no
dispatcher call and no event. -/
theorem serve_calls_matching_dispatcher_witness :
    recv_query exampleWire (0, ⟨1, 1, 5, 9⟩) = .ok (5, 9) ∧
    (serve exampleWire exampleConsts allDisabledBackend 0 (0, ⟨1, 1, 5, 9⟩) ()).calls = [] ∧
    (serve exampleWire exampleConsts allDisabledBackend 0 (0, ⟨1, 1, 5, 9⟩) ()).trace = [] :=
  ⟨rfl,
    congrArg Served.calls
      ((serve_calls_matching_dispatcher exampleWire exampleConsts allDisabledBackend 0
        (0, ⟨1, 1, 5, 9⟩) () 5 9 rfl exampleWire_code_injective).1
        (fun c => by cases c <;> decide)),
    congrArg Served.trace
      ((serve_calls_matching_dispatcher exampleWire exampleConsts allDisabledBackend 0
        (0, ⟨1, 1, 5, 9⟩) () 5 9 rfl exampleWire_code_injective).1
        (fun c => by cases c <;> decide))⟩

theorem check_pidfile_failed (alive : Nat → Bool) (fs : Fs)
    (h : (check_pidfile alive fs).1 ≠ 0) : (check_pidfile alive fs).2 = fs := by
  unfold check_pidfile at h ⊢
  split at h
  · simp at h
  · rfl
  · simp at h
  · split_ifs at h ⊢
    · rfl
    · simp at h

/-- C15. `check_pidfile`: it fails with `-1` and leaves the filesystem as it is
when the marker file holds a pid whose process is alive; it returns 0 and
changes nothing when the file is absent; it removes the file and returns 0
when the content does not scan as a pid or the process is not alive.  When it
fails, `main` exits with `EXIT_FAILURE` right after it: the filesystem and the
backend are untouched and the check is the only step (no `become_daemon`, no
`perf_init`, no `open_socket`). -/
theorem check_pidfile_refuses_live_marker (alive : Nat → Bool) (fs : Fs) :
    (∀ pid, fs.marker = .content (some pid) → alive pid = true →
      check_pidfile alive fs = (-1, fs)) ∧
    (fs.marker = .absent → check_pidfile alive fs = (0, fs)) ∧
    (fs.marker = .content none ∨
        (∃ pid, fs.marker = .content (some pid) ∧ alive pid = false) →
      check_pidfile alive fs = (0, { fs with marker := .absent })) ∧
    (∀ (W : WireConsts) (K : Consts) (B : Backend σ) (env : Env) (s : σ),
      env.alive = alive → (check_pidfile alive fs).1 ≠ 0 →
      main W K B env s fs = ⟨1, fs, s, [.check_pidfile (check_pidfile alive fs).1]⟩) := by
  refine ⟨?_, ?_, ?_, ?_⟩
  · intro pid h1 h2
    simp [check_pidfile, h1, h2]
  · intro h1
    simp [check_pidfile, h1]
  · rintro (h1 | ⟨pid, h1, h2⟩)
    · simp [check_pidfile, h1]
    · simp [check_pidfile, h1, h2]
  · intro W K B env s ha hf
    subst ha
    have h2 := check_pidfile_failed env.alive fs hf
    simp only [main, startup, if_pos hf, h2]

/-- Witness of C15: the marker names the live process 77; the check fails and
`main` exits with status 1 without any further step. -/
theorem check_pidfile_refuses_live_marker_witness :
    check_pidfile exampleEnv.alive ⟨.content (some 77), false⟩ =
      (-1, ⟨.content (some 77), false⟩) ∧
    (main exampleWire exampleConsts allDisabledBackend exampleEnv ()
      ⟨.content (some 77), false⟩).steps = [.check_pidfile (-1)] :=
  ⟨(check_pidfile_refuses_live_marker exampleEnv.alive ⟨.content (some 77), false⟩
      (σ := Unit)).1 77 rfl rfl,
    congrArg MainResult.steps
      ((check_pidfile_refuses_live_marker exampleEnv.alive ⟨.content (some 77), false⟩).2.2.2
        exampleWire exampleConsts allDisabledBackend exampleEnv () rfl (by decide))⟩

theorem check_pidfile_ok_marker (alive : Nat → Bool) (fs : Fs)
    (h : (check_pidfile alive fs).1 = 0) :
    (check_pidfile alive fs).2.marker = .absent ∧ (check_pidfile alive fs).2.sock = fs.sock := by
  unfold check_pidfile at h ⊢
  split at h
  · rename_i hm; exact ⟨hm, rfl⟩
  · simp at h
  · exact ⟨rfl, rfl⟩
  · split_ifs at h ⊢
    · simp at h
    · exact ⟨rfl, rfl⟩

/-- C16, amended. The marker file and the socket path around `main`.  In
detached mode a start-up that succeeds leaves the daemon's own pid in the
marker file; in foreground mode `become_daemon` is not run and a start-up that
succeeds leaves no marker file.  Once `open_socket` succeeded, the socket path
is removed on every exit path of `main`.  When `main` exits with status 0 (the
signal-driven exit) the marker file and the socket path are both gone. -/
theorem marker_and_socket_cleanup (W : WireConsts) (K : Consts) (B : Backend σ) (env : Env)
    (s : σ) (fs : Fs) :
    (env.foreground = false → (startup env fs).1 = 0 →
      (startup env fs).2.1.marker = .content (some env.self)) ∧
    (env.foreground = true → (startup env fs).1 = 0 →
      (startup env fs).2.1.marker = .absent ∧
        ∀ rc, MainStep.become_daemon rc ∉ (startup env fs).2.2) ∧
    ((startup env fs).1 = 0 → env.perf_init = 0 → 0 ≤ env.open_socket →
      (main W K B env s fs).fs.sock = false) ∧
    ((main W K B env s fs).status = 0 →
      (main W K B env s fs).fs.marker = .absent ∧ (main W K B env s fs).fs.sock = false) := by
  refine ⟨?_, ?_, ?_, ?_⟩
  · intro hfg h0
    unfold startup at h0 ⊢
    by_cases hc : (check_pidfile env.alive fs).1 = 0
    · have hm := (check_pidfile_ok_marker env.alive fs hc).1
      simp only [hc, ne_eq, not_true_eq_false, if_false, hfg, Bool.false_eq_true] at h0 ⊢
      unfold become_daemon at h0 ⊢
      by_cases hs : env.setup_ok = true
      · simp only [hs, if_true, hm]
      · simp [hs] at h0
    · simp [hc] at h0
  · intro hfg h0
    unfold startup at h0 ⊢
    by_cases hc : (check_pidfile env.alive fs).1 = 0
    · have hm := (check_pidfile_ok_marker env.alive fs hc).1
      simp only [hc, ne_eq, not_true_eq_false, if_false, hfg, if_true]
      exact ⟨hm, by simp⟩
    · simp [hc] at h0
  · intro h0 hp ho
    have ho' : ¬ env.open_socket < 0 := by omega
    simp only [main, h0, hp, ho', ne_eq, not_true_eq_false, if_false]
    split_ifs <;> rfl
  · intro hst
    simp only [main] at hst ⊢
    split_ifs at hst ⊢ <;> first | (simp at hst; done) | exact ⟨rfl, rfl⟩

/-- C16 as stated fails: started in foreground mode with no marker file, the
start-up succeeds and there is still no marker file: no pid was written. -/
theorem foreground_startup_writes_no_marker :
    startup { exampleEnv with foreground := true } ⟨.absent, false⟩ =
      (0, ⟨.absent, false⟩, [.check_pidfile 0]) := by
  rfl

/-- Witness of the amended C16: a detached start-up with no marker file leaves
the own pid 4242 in it. -/
theorem marker_and_socket_cleanup_witness :
    (startup exampleEnv ⟨.absent, false⟩).1 = 0 ∧
    (startup exampleEnv ⟨.absent, false⟩).2.1.marker = .content (some 4242) :=
  ⟨rfl,
    (marker_and_socket_cleanup exampleWire exampleConsts allDisabledBackend exampleEnv ()
      ⟨.absent, false⟩).1 rfl rfl⟩

/-- In detached mode a fatal `accept` failure ends `main` with status 1 and the
marker file still holding the daemon's pid: only the socket path is removed. -/
theorem accept_failure_keeps_marker :
    (main exampleWire exampleConsts allDisabledBackend
      { exampleEnv with accepts := [.error] } () ⟨.absent, false⟩).status = 1 ∧
    (main exampleWire exampleConsts allDisabledBackend
      { exampleEnv with accepts := [.error] } () ⟨.absent, false⟩).fs =
      ⟨.content (some 4242), false⟩ := by
  exact ⟨rfl, rfl⟩

end Cpacfstatsd

namespace Zdev

/-! ## Theorems on `udev_add_internal_from_entry` -/

theorem c_str_mid (a m r : List Char) (hm : NUL ∉ m) :
    c_str (a ++ (m ++ NUL :: r)) a.length = m := by
  unfold c_str
  rw [List.drop_left]
  rw [List.takeWhile_append_of_pos]
  · simp
  · intro x hx
    have : x ≠ NUL := fun h => hm (h ▸ hx)
    simpa using this

theorem c_str_not_mem (buf : List Char) (p : Nat) : NUL ∉ c_str buf p := by
  intro h
  have := List.mem_takeWhile_imp h
  simp at this

theorem strchr_mid (a m r : List Char) (c : Char) (hm : NUL ∉ m) :
    strchr (a ++ (m ++ NUL :: r)) a.length c =
      if c ∈ m then some (a.length + m.indexOf c) else none := by
  unfold strchr
  rw [c_str_mid a m r hm]

theorem strrchr_mid (a m r : List Char) (c : Char) (hm : NUL ∉ m) :
    strrchr (a ++ (m ++ NUL :: r)) a.length c =
      if c ∈ m then some (a.length + (m.length - 1 - m.reverse.indexOf c)) else none := by
  unfold strrchr
  rw [c_str_mid a m r hm]

theorem set_indexOf_eq_replace (m : List Char) (x y : Char) (h : x ∈ m) :
    m.set (m.indexOf x) y = m.replace x y := by
  induction m with
  | nil => simp at h
  | cons b t ih =>
    by_cases hb : b = x
    · subst hb
      simp
    · have ht : x ∈ t := by
        rcases List.mem_cons.1 h with h | h
        · exact absurd h.symm hb
        · exact h
      rw [List.indexOf_cons_ne _ hb, List.set_cons_succ, ih ht, List.replace_cons]
      have : (x == b) = false := by simpa using Ne.symm hb
      rw [this]

theorem replace_eq_of_not_mem (m : List Char) (x y : Char) (h : x ∉ m) :
    m.replace x y = m := by
  apply List.replace_of_not_mem
  simpa using h

theorem not_mem_replace (m : List Char) (x y z : Char) (hz : z ∉ m) (hy : y ≠ z) :
    z ∉ m.replace x y := by
  induction m with
  | nil => simp
  | cons b t ih =>
    rw [List.replace_cons]
    have hb : z ≠ b := fun h => hz (h ▸ List.mem_cons_self _ _)
    have ht : z ∉ t := fun h => hz (List.mem_cons_of_mem _ h)
    split
    · intro h
      rcases List.mem_cons.1 h with h | h
      · exact hy h.symm
      · exact ht h
    · intro h
      rcases List.mem_cons.1 h with h | h
      · exact hb h
      · exact ih ht h

theorem strchr_zero (k : List Char) (c : Char) (hk : NUL ∉ k) :
    strchr (k ++ [NUL]) 0 c = if c ∈ k then some (k.indexOf c) else none := by
  have h := strchr_mid [] k [] c hk
  simpa using h

theorem strrchr_zero (k : List Char) (c : Char) (hk : NUL ∉ k) :
    strrchr (k ++ [NUL]) 0 c =
      if c ∈ k then some (k.length - 1 - k.reverse.indexOf c) else none := by
  have h := strrchr_mid [] k [] c hk
  simpa using h

/-- With `name` pointing at the text `m` that a NUL ends, the first underscore
of `m` is overwritten and the C string at `name` is handed on. -/
theorem name_after_rewrite (a m r : List Char) (hm : NUL ∉ m) :
    (strchr (a ++ (m ++ NUL :: r)) a.length '_' = none ∧ m.replace '_' ':' = m) ∨
    (∃ u, strchr (a ++ (m ++ NUL :: r)) a.length '_' = some u ∧
      c_str ((a ++ (m ++ NUL :: r)).set u ':') a.length = m.replace '_' ':') := by
  rw [strchr_mid a m r '_' hm]
  by_cases h : '_' ∈ m
  · right
    refine ⟨a.length + m.indexOf '_', by simp only [h, if_true], ?_⟩
    have hlt : m.indexOf '_' < m.length := List.indexOf_lt_length.2 h
    rw [List.set_append_right _ _ (by omega)]
    rw [Nat.add_sub_cancel_left, List.set_append_left _ _ hlt, set_indexOf_eq_replace m _ _ h]
    exact c_str_mid a _ r (not_mem_replace m _ _ _ hm (by decide))
  · left
    exact ⟨by simp only [h, if_false], replace_eq_of_not_mem m _ _ h⟩

/-- The function on a key whose C string is `k`, once the two brace searches
have succeeded with `name` and `end_` and the buffer with the NUL written at
`end_` reads `a ++ m ++ NUL :: r`, where `a` has `name + 1` characters. -/
theorem udev_add_internal_from_entry_core {L A As : Type} (attrib_find : As → List Char → A)
    (setting_list_apply_actual : L → A → List Char → List Char → L)
    (list : L) (entry : util_udev_entry_node) (attribs : As)
    (name end_ : Nat) (a m r : List Char)
    (h1 : strchr (misc_strdup entry.key) 0 '{' = some name)
    (h2 : strrchr (misc_strdup entry.key) 0 '}' = some end_)
    (hbuf : (misc_strdup entry.key).set end_ NUL = a ++ (m ++ NUL :: r))
    (hname : name + 1 = a.length) (hm : NUL ∉ m) :
    udev_add_internal_from_entry attrib_find setting_list_apply_actual list entry attribs =
      setting_list_apply_actual list (attrib_find attribs (m.replace '_' ':'))
        (m.replace '_' ':') entry.value := by
  unfold udev_add_internal_from_entry
  simp only [h1, h2, hbuf, hname]
  rcases name_after_rewrite a m r hm with ⟨h3, h4⟩ | ⟨u, h3, h4⟩
  · simp only [h3, h4, c_str_mid a m r hm]
  · simp only [h3, h4]

theorem indexOf_first (pre rest : List Char) (c : Char) (h : c ∉ pre) :
    (pre ++ c :: rest).indexOf c = pre.length := by
  rw [List.indexOf_append_of_not_mem h, List.indexOf_cons_self]
  rfl

theorem last_index (front post : List Char) (c : Char) (h : c ∉ post) :
    (front ++ c :: post).length - 1 - (front ++ c :: post).reverse.indexOf c = front.length := by
  have hr : (front ++ c :: post).reverse = post.reverse ++ c :: front.reverse := by simp
  rw [hr, indexOf_first _ _ _ (by simpa using h)]
  simp

theorem set_at_length (front post : List Char) (x y : Char) :
    (front ++ x :: post).set front.length y = front ++ y :: post := by
  rw [List.set_append_right _ _ (le_refl _)]
  simp

/-- The key has its first opening brace before its last closing brace: the
name applied is the text between them with its first underscore replaced. -/
theorem between_braces {L A As : Type} (attrib_find : As → List Char → A)
    (setting_list_apply_actual : L → A → List Char → List Char → L)
    (list : L) (entry : util_udev_entry_node) (attribs : As) (pre mid post : List Char)
    (hkey : c_str entry.key 0 = pre ++ '{' :: (mid ++ '}' :: post))
    (hpre : '{' ∉ pre) (hpost : '}' ∉ post) :
    udev_add_internal_from_entry attrib_find setting_list_apply_actual list entry attribs =
      setting_list_apply_actual list (attrib_find attribs (mid.replace '_' ':'))
        (mid.replace '_' ':') entry.value := by
  have hk : NUL ∉ c_str entry.key 0 := c_str_not_mem _ _
  have hmid : NUL ∉ mid := fun h => hk (by rw [hkey]; simp [h])
  have e1 : pre ++ '{' :: (mid ++ '}' :: post) = (pre ++ '{' :: mid) ++ '}' :: post := by simp
  apply udev_add_internal_from_entry_core attrib_find setting_list_apply_actual list entry
    attribs pre.length (pre ++ '{' :: mid).length (pre ++ ['{']) mid (post ++ [NUL])
  · unfold misc_strdup
    rw [strchr_zero _ _ hk, hkey, if_pos (by simp), indexOf_first _ _ _ hpre]
  · unfold misc_strdup
    rw [strrchr_zero _ _ hk, hkey, if_pos (by simp), e1, last_index _ _ _ hpost]
  · unfold misc_strdup
    rw [hkey, e1, List.append_assoc, List.cons_append, set_at_length]
    simp
  · simp
  · exact hmid

/-- The key has its last closing brace before its first opening brace: the NUL
written at `end` lies before `name`, and the name applied is the text from
behind the first opening brace to the end of the key, its first underscore
replaced. -/
theorem reversed_braces {L A As : Type} (attrib_find : As → List Char → A)
    (setting_list_apply_actual : L → A → List Char → List Char → L)
    (list : L) (entry : util_udev_entry_node) (attribs : As) (pre mid post : List Char)
    (hkey : c_str entry.key 0 = pre ++ '}' :: (mid ++ '{' :: post))
    (hpre : '{' ∉ pre) (hmid1 : '{' ∉ mid) (hmid2 : '}' ∉ mid) (hpost : '}' ∉ post) :
    udev_add_internal_from_entry attrib_find setting_list_apply_actual list entry attribs =
      setting_list_apply_actual list (attrib_find attribs (post.replace '_' ':'))
        (post.replace '_' ':') entry.value := by
  have hk : NUL ∉ c_str entry.key 0 := c_str_not_mem _ _
  have hp : NUL ∉ post := fun h => hk (by rw [hkey]; simp [h])
  have e1 : pre ++ '}' :: (mid ++ '{' :: post) = (pre ++ '}' :: mid) ++ '{' :: post := by simp
  apply udev_add_internal_from_entry_core attrib_find setting_list_apply_actual list entry
    attribs (pre ++ '}' :: mid).length pre.length (pre ++ NUL :: (mid ++ ['{'])) post []
  · unfold misc_strdup
    rw [strchr_zero _ _ hk, hkey, if_pos (by simp), e1,
      indexOf_first _ _ _ (by simp [hpre, hmid1])]
  · unfold misc_strdup
    rw [strrchr_zero _ _ hk, hkey, if_pos (by simp), last_index _ _ _ (by simp [hmid2, hpost])]
  · unfold misc_strdup
    rw [hkey, List.append_assoc, List.cons_append, set_at_length]
    simp
  · simp
    omega
  · exact hp

/-- C19, amended. `udev_add_internal_from_entry` on an entry whose key is the C
string `k`.  If `k` has no opening or no closing brace the setting list is
returned unchanged.  If the first opening brace stands before the last closing
brace, one setting is applied, with the entry's value and with the text `mid`
between the two in which the first underscore, wherever it stands, is replaced
by a colon; a text that begins with "zdev_" is thereby turned into "zdev:"
followed by the rest unchanged. -/
theorem udev_add_internal_from_entry_name {L A As : Type} (attrib_find : As → List Char → A)
    (setting_list_apply_actual : L → A → List Char → List Char → L)
    (list : L) (entry : util_udev_entry_node) (attribs : As) :
    (('{' ∉ c_str entry.key 0 ∨ '}' ∉ c_str entry.key 0) →
      udev_add_internal_from_entry attrib_find setting_list_apply_actual list entry attribs =
        list) ∧
    (∀ pre mid post : List Char,
      c_str entry.key 0 = pre ++ '{' :: (mid ++ '}' :: post) → '{' ∉ pre → '}' ∉ post →
      udev_add_internal_from_entry attrib_find setting_list_apply_actual list entry attribs =
        setting_list_apply_actual list (attrib_find attribs (mid.replace '_' ':'))
          (mid.replace '_' ':') entry.value) ∧
    (∀ pre rest post : List Char,
      c_str entry.key 0 = pre ++ '{' :: ("zdev_".toList ++ rest ++ '}' :: post) →
      '{' ∉ pre → '}' ∉ post →
      udev_add_internal_from_entry attrib_find setting_list_apply_actual list entry attribs =
        setting_list_apply_actual list (attrib_find attribs ("zdev:".toList ++ rest))
          ("zdev:".toList ++ rest) entry.value) := by
  have hk : NUL ∉ c_str entry.key 0 := c_str_not_mem _ _
  refine ⟨?_, ?_, ?_⟩
  · intro h
    simp only [udev_add_internal_from_entry, misc_strdup, strchr_zero _ _ hk,
      strrchr_zero _ _ hk]
    rcases h with h | h
    · simp only [h, if_false]
    · simp only [h, if_false]
      split
      · rename_i h3 h4
        exact absurd h4 (by simp)
      · rfl
  · exact between_braces attrib_find setting_list_apply_actual list entry attribs
  · intro pre rest post hkey hpre hpost
    have h := between_braces attrib_find setting_list_apply_actual list entry attribs pre
      ("zdev_".toList ++ rest) post hkey hpre hpost
    have e : ("zdev_".toList ++ rest).replace '_' ':' = "zdev:".toList ++ rest := by
      simp [List.replace]
    rw [e] at h
    exact h

/-- C19 as stated fails: in the key `ENV{a_b}` the text between the braces does
not begin with "zdev_", so the claim gives the name `a_b`; the function applies
the name `a:b`. -/
theorem underscore_rewritten_without_zdev_prefix :
    spec_name "ENV\x7ba_b\x7d".toList = "a_b".toList ∧
    udev_add_internal_from_entry example_attrib_find example_apply_actual []
      ⟨"ENV\x7ba_b\x7d".toList, "1".toList⟩ [] = [(none, "a:b".toList, "1".toList)] := by
  decide

/-- Witness of the amended C19: the key `ENV{zdev_var}` with value `1` applies
the one setting `zdev:var` = `1`, with the attribute found under that name. -/
theorem udev_add_internal_from_entry_name_witness :
    c_str "ENV\x7bzdev_var\x7d".toList 0 =
      "ENV".toList ++ '{' :: ("zdev_".toList ++ "var".toList ++ '}' :: []) ∧
    udev_add_internal_from_entry example_attrib_find example_apply_actual []
      ⟨"ENV\x7bzdev_var\x7d".toList, "1".toList⟩ ["zdev:var".toList] =
      [(some "zdev:var".toList, "zdev:var".toList, "1".toList)] :=
  ⟨by decide,
    ((udev_add_internal_from_entry_name example_attrib_find example_apply_actual []
      ⟨"ENV\x7bzdev_var\x7d".toList, "1".toList⟩ ["zdev:var".toList]).2.2
      "ENV".toList "var".toList [] (by decide) (by decide) (by decide)).trans (by decide)⟩

/-- When the last closing brace stands before the first opening brace, the name
applied is what follows the opening brace: key `a}b{c_d` gives `c:d`. -/
theorem reversed_braces_example :
    udev_add_internal_from_entry example_attrib_find example_apply_actual []
      ⟨"a\x7db\x7bc_d".toList, "1".toList⟩ [] = [(none, "c:d".toList, "1".toList)] := by
  decide

end Zdev
